import Mathlib

/-!
# Metric dilation (`AlgorithmMetricDilate`)

A shallow embedding of `src/Algorithms/AlgorithmMetricDilate.cxx` and the
properties of it that the specification states.

Modelling conventions.

* A C++ `float` or `double` value is an element of `Flt`: a rational number, an
  infinity or NaN.  Comparisons are the IEEE ones and are exact.  The two signed
  zeros are one value (`0.0f == -0.0f` in C++).
* Rounded arithmetic (`*`, `+`, `/`, `pow`) is not fixed by the model: it is the
  parameter `Arith`, so every theorem holds for every rounding behaviour.
* `GeodesicHelper` and `TopologyHelper` are external collaborators; their
  queries are parameters (`GeodesicHelper`, `TopologyHelper` structures).
* Vertex indices are natural numbers; a `closestNode` is an `Int` because the
  source uses the sentinel `-1`.
* A `float*` buffer is a function `Nat → Flt`; a write `buf[i] = x` is
  `Function.update buf i x`.
* The OpenMP loops are run in ascending index order.
-/

namespace MetricDilate

/-! ## Floating point values and comparisons -/

/-- Value of a C++ floating point object: NaN, an infinity, or a rational. -/
inductive Flt where
  | nan : Flt
  | ninf : Flt
  | fin (q : ℚ) : Flt
  | pinf : Flt
  deriving DecidableEq

namespace Flt

instance : Inhabited Flt := ⟨Flt.fin 0⟩

/-- The literal `0.0f`. -/
def zero : Flt := fin 0

/-- IEEE `a < b`: false as soon as one side is NaN. -/
def lt : Flt → Flt → Bool
  | nan, _ => false
  | _, nan => false
  | ninf, ninf => false
  | ninf, _ => true
  | fin _, ninf => false
  | fin a, fin b => decide (a < b)
  | fin _, pinf => true
  | pinf, _ => false

/-- IEEE `a > b`. -/
def gt (a b : Flt) : Bool := lt b a

/-- IEEE `a == b`: false as soon as one side is NaN. -/
def eqF : Flt → Flt → Bool
  | nan, _ => false
  | _, nan => false
  | a, b => decide (a = b)

/-- IEEE `a != b`, the negation of `==` (true when one side is NaN). -/
def neF (a b : Flt) : Bool := !(eqF a b)

end Flt

/-- Rounded arithmetic of the platform, left open.  `mulF`, `addF`, `divF` are
the `float` operations, `powF` is `pow` on floats, `addD` is the `double`
addition of `accum += x`, and `divD` is `accum / weightsum` computed in
`double` and stored into a `float`. -/
structure Arith where
  mulF : Flt → Flt → Flt
  addF : Flt → Flt → Flt
  divF : Flt → Flt → Flt
  powF : Flt → Flt → Flt
  addD : Flt → Flt → Flt
  divD : Flt → Flt → Flt

/-! ## External collaborators -/

/-- Queries of `GeodesicHelper` used by the algorithm.
`getClosestNodeInRoi node roi maxdist` gives the returned node (`-1` for none)
and the value left in the `distOut` argument.
`getGeoToTheseNodes root ends` gives `distsOut`.
`getNodesToGeoDist node maxdist` gives `nodesOut` and `distsOut`. -/
structure GeodesicHelper where
  getClosestNodeInRoi : Nat → List Bool → Flt → Int × Flt
  getGeoToTheseNodes : Nat → List Nat → List Flt
  getNodesToGeoDist : Nat → Flt → List Nat × List Flt

/-- Query of `TopologyHelper` used by the algorithm. -/
structure TopologyHelper where
  getNodeNeighbors : Nat → List Nat

/-- The pairs `(nodeList[j], distList[j])` for `j < nodeList.size()`, the way the
loops `for (int j = 0; j < numInRange; ++j)` read the two vectors.  An index past
the end of `distList`, which the source would read out of bounds, reads NaN. -/
def pairUp : List Nat → List Flt → List (Nat × Flt)
  | [], _ => []
  | n :: ns, ds => (n, ds.headD Flt.nan) :: pairUp ns ds.tail

/-! ## Constants -/

/-- The literal `1.0f`. -/
def one : Flt := Flt.fin 1

/-- The literal `10.0f`. -/
def ten : Flt := Flt.fin 10

/-- The literal `1.5f`. -/
def onePointFive : Flt := Flt.fin (3 / 2)

/-- The literal `1.1f`, that is the `float` 0x3F8CCCCD. -/
def onePointOne : Flt := Flt.fin (9227469 / 8388608)

/-- The literal `0.9f` of `const float tolerance`, the `float` 0x3F666666. -/
def tolerance : Flt := Flt.fin (15099494 / 16777216)

/-! ## Cutoff ratio (lines 267-276 and 380-389) -/

/-- The cutoff ratio as a function of `test = pow(10.0f, 1.0f / exponent)`. -/
def cutoffRatioOfTest (test : Flt) : Flt :=
  if test.gt one && test.lt onePointFive then
    if test.gt onePointOne then test else onePointOne
  else onePointFive

/-- The value of `cutoffRatio` computed at the head of `precomputeStencils` and
of the direct `processColumn`. -/
def cutoffRatio (A : Arith) (exponent : Flt) : Flt :=
  cutoffRatioOfTest (A.powF ten (A.divF one exponent))

/-! ## Closest valid vertex with neighbour fallback
(lines 312-328, 443-459, 550-566) -/

/-- Body of the loop over the neighbours: `acc` is `(closestNode, closestDist)`,
`p` is `(nodeList[j], distList[j])`. -/
def fallbackStep (charRoi : List Bool) (acc : Int × Flt) (p : Nat × Flt) : Int × Flt :=
  if charRoi.getD p.1 false && (acc.1 == -1 || p.2.lt acc.2) then ((p.1 : Int), p.2) else acc

/-- The neighbour loop run from the state `acc`. -/
def fallbackLoop (charRoi : List Bool) (nbrs : List (Nat × Flt)) (acc : Int × Flt) : Int × Flt :=
  nbrs.foldl (fallbackStep charRoi) acc

/-- The pair `(closestNode, closestDist)` after the query `getClosestNodeInRoi`
and, when it returned `-1`, the loop over the direct neighbours. -/
def resolveClosest (topo : TopologyHelper) (geo : GeodesicHelper) (charRoi : List Bool)
    (i : Nat) (distance : Flt) : Int × Flt :=
  let r := geo.getClosestNodeInRoi i charRoi distance
  if r.1 == -1 then
    let nodeList := topo.getNodeNeighbors i
    let distList := geo.getGeoToTheseNodes i nodeList
    fallbackLoop charRoi (pairUp nodeList distList) r
  else r

/-! ## Weights (lines 346-354 and 471-479) -/

/-- The `weight` of a candidate at distance `dist` with vertex area `area`. -/
def weight (A : Arith) (area dist closestDist exponent : Flt) : Flt :=
  let divdist := A.divF dist closestDist
  if divdist.gt tolerance then A.divF area (A.powF divdist exponent)
  else A.divF area (A.powF tolerance exponent)

/-- The struct `StencilElem` of the header. -/
structure StencilElem where
  m_weightlist : List (Nat × Flt)
  m_weightsum : Flt

/-- A value-initialised `StencilElem`, as `myStencils.resize(badCount)` makes. -/
def StencilElem.empty : StencilElem := ⟨[], Flt.zero⟩

/-! ## Validity mask (lines 390-425 and 498-533) -/

/-- The loops that fill `charRoi` and count `badCount`; the state is
`(charRoi, badCount)` and `charRoi` starts as `vector<char>(numNodes)`. -/
def classify (numNodes : Nat) (badNodeData : Nat → Flt) (dataRoiVals : Option (Nat → Flt)) :
    List Bool × Nat :=
  match dataRoiVals with
  | some vals =>
    (List.range numNodes).foldl (fun st i =>
      if !((badNodeData i).gt Flt.zero) then
        if (vals i).gt Flt.zero then (st.1.set i true, st.2) else (st.1.set i false, st.2)
      else (st.1.set i false, st.2 + 1)) (List.replicate numNodes false, 0)
  | none =>
    (List.range numNodes).foldl (fun st i =>
      if !((badNodeData i).gt Flt.zero) then (st.1.set i true, st.2)
      else (st.1.set i false, st.2 + 1)) (List.replicate numNodes false, 0)

/-- The second loop of `precomputeStencils` and `precomputeNearest`: every
vertex with `badNodeData[i] > 0.0f` takes the slot `myIndex = badCount++` of the
list and stores its entry there.  The state is `(list, badCount)`. -/
def compactLoop {β : Type} (numNodes : Nat) (badNodeData : Nat → Flt) (entry : Nat → β)
    (slots : List β) : List β × Nat :=
  (List.range numNodes).foldl (fun st i =>
    if (badNodeData i).gt Flt.zero then (st.1.set st.2 (entry i), st.2 + 1) else st) (slots, 0)

/-! ## Precomputation -/

/-- The accumulation over the candidates of `getNodesToGeoDist` (lines 466-483);
the state is the `StencilElem` being built. -/
def stencilStep (A : Arith) (charRoi : List Bool) (myAreas : Nat → Flt)
    (closestDist exponent : Flt) (el : StencilElem) (p : Nat × Flt) : StencilElem :=
  if charRoi.getD p.1 false then
    let w := weight A (myAreas p.1) p.2 closestDist exponent
    ⟨el.m_weightlist ++ [(p.1, w)], A.addF el.m_weightsum w⟩
  else el

/-- The `StencilElem` stored for the bad vertex `i` (lines 442-488). -/
def stencilFor (A : Arith) (topo : TopologyHelper) (geo : GeodesicHelper) (charRoi : List Bool)
    (myAreas : Nat → Flt) (distance exponent cutoff : Flt) (i : Nat) : StencilElem :=
  let r := resolveClosest topo geo charRoi i distance
  if r.1 != -1 then
    let out := geo.getNodesToGeoDist i (A.mulF r.2 cutoff)
    let el := (pairUp out.1 out.2).foldl (stencilStep A charRoi myAreas r.2 exponent)
      ⟨[], Flt.zero⟩
    if el.m_weightsum.eqF Flt.zero then ⟨[], el.m_weightsum⟩ else el
  else StencilElem.empty

/-- The function `precomputeStencils`: the final `myStencils`. -/
def precomputeStencils (A : Arith) (topo : TopologyHelper) (geo : GeodesicHelper)
    (numNodes : Nat) (myAreas : Nat → Flt) (badNodeData : Nat → Flt)
    (dataRoiVals : Option (Nat → Flt)) (distance exponent : Flt) : List (Nat × StencilElem) :=
  let cutoff := cutoffRatio A exponent
  let c := classify numNodes badNodeData dataRoiVals
  (compactLoop numNodes badNodeData
    (fun i => (i, stencilFor A topo geo c.1 myAreas distance exponent cutoff i))
    (List.replicate c.2 (0, StencilElem.empty))).1

/-- The function `precomputeNearest`: the final `myNearest`. -/
def precomputeNearest (topo : TopologyHelper) (geo : GeodesicHelper)
    (numNodes : Nat) (badNodeData : Nat → Flt)
    (dataRoiVals : Option (Nat → Flt)) (distance : Flt) : List (Nat × Int) :=
  let c := classify numNodes badNodeData dataRoiVals
  (compactLoop numNodes badNodeData
    (fun i => (i, (resolveClosest topo geo c.1 i distance).1))
    (List.replicate c.2 (0, 0))).1

/-! ## Applying the precomputed lists (lines 216-262) -/

/-- The loop `for (int i = 0; i < numNodes; ++i) colScratch[i] = myInputData[i];`. -/
def precopy (colScratch : Nat → Flt) (numNodes : Nat) (myInputData : Nat → Flt) : Nat → Flt :=
  (List.range numNodes).foldl (fun col i => Function.update col i (myInputData i)) colScratch

/-- The overload `processColumn(colScratch, numNodes, myInputData, myNearest)`:
the final contents of `colScratch`. -/
def processColumnNearest (colScratch : Nat → Flt) (numNodes : Nat) (myInputData : Nat → Flt)
    (myNearest : List (Nat × Int)) : Nat → Flt :=
  myNearest.foldl (fun col e =>
    if e.2 != -1 then Function.update col e.1 (myInputData e.2.toNat)
    else Function.update col e.1 Flt.zero) (precopy colScratch numNodes myInputData)

/-- The inner loop `accum += myInputData[...] * weight` from `accum = 0.0`. -/
def stencilAccum (A : Arith) (myInputData : Nat → Flt) (weightlist : List (Nat × Flt)) : Flt :=
  weightlist.foldl (fun accum w => A.addD accum (A.mulF (myInputData w.1) w.2)) Flt.zero

/-- The overload `processColumn(colScratch, numNodes, myInputData, myStencils)`:
the final contents of `colScratch`. -/
def processColumnStencils (A : Arith) (colScratch : Nat → Flt) (numNodes : Nat)
    (myInputData : Nat → Flt) (myStencils : List (Nat × StencilElem)) : Nat → Flt :=
  myStencils.foldl (fun col e =>
    if e.2.m_weightlist.length > 0 then
      Function.update col e.1 (A.divD (stencilAccum A myInputData e.2.m_weightlist) e.2.m_weightsum)
    else Function.update col e.1 Flt.zero) (precopy colScratch numNodes myInputData)

/-! ## Direct processing of a column (lines 264-372) -/

/-- The loops that fill `charRoi` in the direct `processColumn` (lines 278-302). -/
def directCharRoi (numNodes : Nat) (myInputData : Nat → Flt) (dataRoiVals : Option (Nat → Flt)) :
    List Bool :=
  match dataRoiVals with
  | some vals =>
    (List.range numNodes).foldl (fun roi i =>
      if (vals i).gt Flt.zero && (myInputData i).neF Flt.zero then roi.set i true
      else roi.set i false) (List.replicate numNodes false)
  | none =>
    (List.range numNodes).foldl (fun roi i =>
      if (myInputData i).neF Flt.zero then roi.set i true else roi.set i false)
      (List.replicate numNodes false)

/-- The test `(dataRoiVals == NULL || dataRoiVals[i] > 0.0f) && myInputData[i] == 0.0f`
of line 310. -/
def directIsBad (myInputData : Nat → Flt) (dataRoiVals : Option (Nat → Flt)) (i : Nat) : Bool :=
  (match dataRoiVals with
    | none => true
    | some vals => (vals i).gt Flt.zero) && (myInputData i).eqF Flt.zero

/-- The accumulation of lines 341-358; the state is `(totalWeight, weightedSum)`. -/
def directStep (A : Arith) (charRoi : List Bool) (myAreas myInputData : Nat → Flt)
    (closestDist exponent : Flt) (st : Flt × Flt) (p : Nat × Flt) : Flt × Flt :=
  if charRoi.getD p.1 false then
    let w := weight A (myAreas p.1) p.2 closestDist exponent
    (A.addF st.1 w, A.addF st.2 (A.mulF (myInputData p.1) w))
  else st

/-- The value stored in `colScratch[i]` for a vertex that passes the test of
line 310 (lines 312-366). -/
def directValue (A : Arith) (topo : TopologyHelper) (geo : GeodesicHelper) (charRoi : List Bool)
    (myInputData myAreas : Nat → Flt) (distance : Flt) (nearest : Bool)
    (exponent cutoff : Flt) (i : Nat) : Flt :=
  let r := resolveClosest topo geo charRoi i distance
  if r.1 == -1 then Flt.zero
  else if nearest then myInputData r.1.toNat
  else
    let out := geo.getNodesToGeoDist i (A.mulF r.2 cutoff)
    let st := (pairUp out.1 out.2).foldl
      (directStep A charRoi myAreas myInputData r.2 exponent) (Flt.zero, Flt.zero)
    if st.1.neF Flt.zero then A.divF st.2 st.1 else Flt.zero

/-- The overload `processColumn(colScratch, myInputData, mySurf, myAreas, dataRoi,
distance, nearest, exponent)`: the final contents of `colScratch`. -/
def processColumn (A : Arith) (topo : TopologyHelper) (geo : GeodesicHelper)
    (colScratch : Nat → Flt) (myInputData : Nat → Flt) (numNodes : Nat) (myAreas : Nat → Flt)
    (dataRoiVals : Option (Nat → Flt)) (distance : Flt) (nearest : Bool) (exponent : Flt) :
    Nat → Flt :=
  let cutoff := cutoffRatio A exponent
  let charRoi := directCharRoi numNodes myInputData dataRoiVals
  (List.range numNodes).foldl (fun col i =>
    if directIsBad myInputData dataRoiVals i then
      Function.update col i
        (directValue A topo geo charRoi myInputData myAreas distance nearest exponent cutoff i)
    else Function.update col i (myInputData i)) colScratch

/-! ## The constructor (lines 125-214) -/

/-- What the algorithm reads and writes of a `MetricFile`. -/
structure MetricFile where
  m_structure : Nat
  numberOfNodes : Nat
  numberOfColumns : Nat
  columnName : Nat → String
  paletteColorMapping : Nat → Nat
  values : Nat → Nat → Flt

/-- What the algorithm reads of a `SurfaceFile`. -/
structure SurfaceFile where
  numberOfNodes : Nat
  m_structure : Nat
  nodeAreas : Nat → Flt
  topologyHelper : TopologyHelper
  geodesicHelper : GeodesicHelper

/-- `MetricFile::setStructure`. -/
def MetricFile.setStructure (m : MetricFile) (s : Nat) : MetricFile :=
  { m with m_structure := s }

/-- `MetricFile::setNumberOfNodesAndColumns`. -/
def MetricFile.setNumberOfNodesAndColumns (m : MetricFile) (nodes cols : Nat) : MetricFile :=
  { m with numberOfNodes := nodes, numberOfColumns := cols }

/-- The assignment `*(out->getMapPaletteColorMapping(c)) = p`. -/
def MetricFile.setPalette (m : MetricFile) (c p : Nat) : MetricFile :=
  { m with paletteColorMapping := Function.update m.paletteColorMapping c p }

/-- `MetricFile::setColumnName`. -/
def MetricFile.setColumnName (m : MetricFile) (c : Nat) (name : String) : MetricFile :=
  { m with columnName := Function.update m.columnName c name }

/-- `MetricFile::setValuesForColumn`: copies the first `numberOfNodes` values. -/
def MetricFile.setValuesForColumn (m : MetricFile) (c : Nat) (vals : Nat → Flt) : MetricFile :=
  let column : Nat → Flt := fun i => if i < m.numberOfNodes then vals i else m.values c i
  { m with values := Function.update m.values c column }

/-- The pieces of work the constructor can perform after validation. -/
inductive Step where
  | precomputeNearest : Step
  | precomputeStencils : Step
  | processColumn (col : Nat) : Step
  deriving DecidableEq

/-- The first failing check of lines 129-149, if any, with its message. -/
def validate (myMetric : MetricFile) (mySurf : SurfaceFile) (distance : Flt)
    (badNodeRoi dataRoi : Option MetricFile) (columnNum : Int) : Option String :=
  let numNodes := mySurf.numberOfNodes
  if numNodes != myMetric.numberOfNodes then
    some "surface and metric number of vertices do not match"
  else if (match badNodeRoi with
      | some r => r.numberOfNodes != numNodes
      | none => false) then
    some "bad vertex roi number of vertices does not match"
  else if (match dataRoi with
      | some r => r.numberOfNodes != numNodes
      | none => false) then
    some "data roi number of vertices does not match"
  else if columnNum < -1 || columnNum ≥ (myMetric.numberOfColumns : Int) then
    some "invalid column specified"
  else if distance.lt Flt.zero then
    some "invalid distance specified"
  else none

/-- The local data of the constructor that outlives one column. -/
structure Locals where
  myStencils : List (Nat × StencilElem)
  myNearest : List (Nat × Int)
  colScratch : Nat → Flt

/-- The mutable state the constructor acts on: the output file, the locals,
and the log of the work done. -/
structure DilateState where
  myMetricOut : MetricFile
  locals : Locals
  steps : List Step

/-- The three-way choice of `processColumn` overload (lines 183-193, 201-211)
on the input column `inCol`, leaving the result in `colScratch`. -/
def runColumn (A : Arith) (myMetric : MetricFile) (mySurf : SurfaceFile) (distance : Flt)
    (badNodeRoi dataRoi : Option MetricFile) (nearest : Bool) (exponent : Flt)
    (inCol : Nat) (l : Locals) : Locals :=
  let numNodes := mySurf.numberOfNodes
  let myInputData := myMetric.values inCol
  match badNodeRoi with
  | none =>
    let col := processColumn A mySurf.topologyHelper mySurf.geodesicHelper
      l.colScratch myInputData numNodes mySurf.nodeAreas
      (dataRoi.map (fun r => r.values 0)) distance nearest exponent
    { l with colScratch := col }
  | some _ =>
    if nearest then
      let col := processColumnNearest l.colScratch numNodes myInputData l.myNearest
      { l with colScratch := col }
    else
      let col := processColumnStencils A l.colScratch numNodes myInputData l.myStencils
      { l with colScratch := col }

/-- The body of the loop over `thisCol` (lines 180-194). -/
def columnStep (A : Arith) (myMetric : MetricFile) (mySurf : SurfaceFile) (distance : Flt)
    (badNodeRoi dataRoi : Option MetricFile) (nearest : Bool) (exponent : Flt)
    (st : DilateState) (thisCol : Nat) : DilateState :=
  let out1 := st.myMetricOut.setPalette thisCol (myMetric.paletteColorMapping thisCol)
  let out2 := out1.setColumnName thisCol (myMetric.columnName thisCol)
  let l := runColumn A myMetric mySurf distance badNodeRoi dataRoi nearest exponent thisCol
    st.locals
  { myMetricOut := out2.setValuesForColumn thisCol l.colScratch,
    locals := l,
    steps := st.steps ++ [Step.processColumn thisCol] }

/-- Lines 160-214, run once validation has passed.  The local `cutoffRatio` of
lines 150-159 is never read and is left out. -/
def dilateBody (A : Arith) (myMetric : MetricFile) (mySurf : SurfaceFile) (distance : Flt)
    (badNodeRoi dataRoi : Option MetricFile) (columnNum : Int) (nearest : Bool) (exponent : Flt)
    (myMetricOut : MetricFile) : DilateState :=
  let numNodes := mySurf.numberOfNodes
  let out0 := myMetricOut.setStructure mySurf.m_structure
  let l0 : Locals := ⟨[], [], fun _ => Flt.zero⟩
  let dataRoiVals := dataRoi.map (fun r => r.values 0)
  let st0 : DilateState :=
    match badNodeRoi with
    | some bad =>
      if nearest then
        let nearestList := precomputeNearest mySurf.topologyHelper mySurf.geodesicHelper
          numNodes (bad.values 0) dataRoiVals distance
        { myMetricOut := out0,
          locals := { l0 with myNearest := nearestList },
          steps := [Step.precomputeNearest] }
      else
        let stencils := precomputeStencils A mySurf.topologyHelper mySurf.geodesicHelper
          numNodes mySurf.nodeAreas (bad.values 0) dataRoiVals distance exponent
        { myMetricOut := out0,
          locals := { l0 with myStencils := stencils },
          steps := [Step.precomputeStencils] }
    | none => { myMetricOut := out0, locals := l0, steps := [] }
  if columnNum == -1 then
    let st1 := { st0 with myMetricOut :=
      st0.myMetricOut.setNumberOfNodesAndColumns numNodes myMetric.numberOfColumns }
    (List.range myMetric.numberOfColumns).foldl
      (columnStep A myMetric mySurf distance badNodeRoi dataRoi nearest exponent) st1
  else
    let out1 := st0.myMetricOut.setNumberOfNodesAndColumns numNodes 1
    let out2 := out1.setPalette 0 (myMetric.paletteColorMapping columnNum.toNat)
    let out3 := out2.setColumnName 0 (myMetric.columnName columnNum.toNat)
    let l := runColumn A myMetric mySurf distance badNodeRoi dataRoi nearest exponent
      columnNum.toNat st0.locals
    { myMetricOut := out3.setValuesForColumn 0 l.colScratch,
      locals := l,
      steps := st0.steps ++ [Step.processColumn columnNum.toNat] }

/-- Result of a call of the constructor: the exception thrown, if any, the
output file as the call leaves it, and the work done. -/
structure Outcome where
  error : Option String
  myMetricOut : MetricFile
  steps : List Step

/-- The constructor `AlgorithmMetricDilate::AlgorithmMetricDilate`, acting on the
output file `myMetricOut`. -/
def AlgorithmMetricDilate (A : Arith) (myMetric : MetricFile) (mySurf : SurfaceFile)
    (distance : Flt) (myMetricOut : MetricFile) (badNodeRoi dataRoi : Option MetricFile)
    (columnNum : Int) (nearest : Bool) (exponent : Flt) : Outcome :=
  match validate myMetric mySurf distance badNodeRoi dataRoi columnNum with
  | some msg => { error := some msg, myMetricOut := myMetricOut, steps := [] }
  | none =>
    let st := dilateBody A myMetric mySurf distance badNodeRoi dataRoi columnNum nearest
      exponent myMetricOut
    { error := none, myMetricOut := st.myMetricOut, steps := st.steps }

/-! ## A small mesh used to exercise the statements

Three vertices on a line, `0 - 1 - 2`, with unit edge lengths. -/

/-- Geodesic distance on the line mesh: `|i - j|`. -/
def lineDist (i j : Nat) : Flt := Flt.fin (((i : Int) - (j : Int)).natAbs : ℚ)

/-- Neighbour lists of the line mesh. -/
def lineTopo : TopologyHelper where
  getNodeNeighbors := fun i =>
    match i with
    | 0 => [1]
    | 1 => [0, 2]
    | 2 => [1]
    | _ => []

/-- Geodesic queries of the line mesh. -/
def lineGeo : GeodesicHelper where
  getClosestNodeInRoi := fun i roi maxdist =>
    fallbackLoop roi
      (((List.range 3).filter (fun j => !(maxdist.lt (lineDist i j)))).map
        (fun j => (j, lineDist i j)))
      (-1, Flt.nan)
  getGeoToTheseNodes := fun i ends => ends.map (lineDist i)
  getNodesToGeoDist := fun i maxdist =>
    let ns := (List.range 3).filter (fun j => !(maxdist.lt (lineDist i j)))
    (ns, ns.map (lineDist i))

/-- Exact arithmetic on finite values; everything else gives NaN.  `powF` is
exact for natural exponents. -/
def exactArith : Arith where
  mulF := fun a b =>
    match a, b with
    | Flt.fin x, Flt.fin y => Flt.fin (x * y)
    | _, _ => Flt.nan
  addF := fun a b =>
    match a, b with
    | Flt.fin x, Flt.fin y => Flt.fin (x + y)
    | _, _ => Flt.nan
  divF := fun a b =>
    match a, b with
    | Flt.fin x, Flt.fin y => if y = 0 then Flt.nan else Flt.fin (x / y)
    | _, _ => Flt.nan
  powF := fun a b =>
    match a, b with
    | Flt.fin x, Flt.fin y => if y.den = 1 ∧ 0 ≤ y.num then Flt.fin (x ^ y.num.toNat) else Flt.nan
    | _, _ => Flt.nan
  addD := fun a b =>
    match a, b with
    | Flt.fin x, Flt.fin y => Flt.fin (x + y)
    | _, _ => Flt.nan
  divD := fun a b =>
    match a, b with
    | Flt.fin x, Flt.fin y => if y = 0 then Flt.nan else Flt.fin (x / y)
    | _, _ => Flt.nan

/-- A bad-vertex ROI on the line mesh: only vertex `1` is bad. -/
def lineBad (i : Nat) : Flt := if i = 1 then Flt.fin 1 else Flt.fin 0

/-- An input column on the line mesh: values `5, 0, 7`. -/
def lineInput (i : Nat) : Flt :=
  match i with
  | 0 => Flt.fin 5
  | 1 => Flt.fin 0
  | 2 => Flt.fin 7
  | _ => Flt.fin 0

/-- Vertex areas of the line mesh: all `1`. -/
def lineAreas (_ : Nat) : Flt := Flt.fin 1

/-- A bad-vertex ROI on the line mesh that marks every vertex bad. -/
def lineAllBad (_ : Nat) : Flt := Flt.fin 1

/-- An input column on the line mesh that is zero everywhere. -/
def lineZeros (_ : Nat) : Flt := Flt.fin 0

/-- A bad-vertex ROI on the line mesh with a NaN: vertex `1` is marked with `1`,
vertex `0` holds NaN, vertex `2` holds `0`. -/
def lineNanBad (i : Nat) : Flt :=
  match i with
  | 0 => Flt.nan
  | 1 => Flt.fin 1
  | _ => Flt.fin 0

/-- A data ROI on the line mesh: only vertex `2` has data. -/
def lineDataRoi (i : Nat) : Flt := if i = 2 then Flt.fin 1 else Flt.fin 0

/-- The line mesh as a surface. -/
def lineSurf : SurfaceFile where
  numberOfNodes := 3
  m_structure := 1
  nodeAreas := lineAreas
  topologyHelper := lineTopo
  geodesicHelper := lineGeo

/-- A one-column metric file on the line mesh holding `lineInput`. -/
def lineMetric : MetricFile where
  m_structure := 1
  numberOfNodes := 3
  numberOfColumns := 1
  columnName := fun _ => "data"
  paletteColorMapping := fun _ => 0
  values := fun _ => lineInput

/-- An output file with earlier contents: two vertices, one column of sevens. -/
def lineOut : MetricFile where
  m_structure := 0
  numberOfNodes := 2
  numberOfColumns := 1
  columnName := fun _ => "old"
  paletteColorMapping := fun _ => 4
  values := fun _ _ => Flt.fin 7

/-- The `float` nearest to the square root of ten, 3.1622776985168457: the value
of `pow(10.0f, 1.0f / 2.0f)`. -/
def sqrtTenF : Flt := Flt.fin (6631777 / 2097152)

/-- Exact arithmetic, with `pow(10.0f, 0.5f)` rounded to `float`. -/
def sqrtTenArith : Arith :=
  { exactArith with
    powF := fun a b =>
      if a = ten ∧ b = Flt.fin (1 / 2) then sqrtTenF else exactArith.powF a b }

/-- Exact arithmetic, with a `pow` that always returns `1.25`. -/
def flatPowArith : Arith :=
  { exactArith with powF := fun _ _ => Flt.fin (5 / 4) }

/-! ## Auxiliary notions for the statements -/

/-- The bad vertices in ascending order. -/
def badVertices (numNodes : Nat) (badNodeData : Nat → Flt) : List Nat :=
  (List.range numNodes).filter (fun i => (badNodeData i).gt Flt.zero)

/-- The validity rule the classification loops implement. -/
def validRule (badNodeData : Nat → Flt) (dataRoiVals : Option (Nat → Flt)) (i : Nat) : Bool :=
  !((badNodeData i).gt Flt.zero) &&
    (match dataRoiVals with
      | none => true
      | some vals => (vals i).gt Flt.zero)

/-- The value the nearest applier writes for an entry. -/
def nearestValue (myInputData : Nat → Flt) (e : Nat × Int) : Flt :=
  if e.2 != -1 then myInputData e.2.toNat else Flt.zero

/-- The value the stencil applier writes for an entry. -/
def stencilValue (A : Arith) (myInputData : Nat → Flt) (e : Nat × StencilElem) : Flt :=
  if e.2.m_weightlist.length > 0 then
    A.divD (stencilAccum A myInputData e.2.m_weightlist) e.2.m_weightsum
  else Flt.zero

/-- The list that the loop of lines 467-483 pushes into `m_weightlist`: the valid
candidates among the vertices `getNodesToGeoDist` returns for the radius
`closestDist * cutoffRatio`, in the order of the oracle's list, each with its
weight (with `closestDist` as reference distance). -/
def stencilEntries (A : Arith) (geo : GeodesicHelper) (charRoi : List Bool)
    (myAreas : Nat → Flt) (exponent cutoff : Flt) (i : Nat) (closestDist : Flt) :
    List (Nat × Flt) :=
  let out := geo.getNodesToGeoDist i (A.mulF closestDist cutoff)
  ((pairUp out.1 out.2).filter (fun p => charRoi.getD p.1 false)).map
    (fun p => (p.1, weight A (myAreas p.1) p.2 closestDist exponent))

/-- The value the loop of lines 466-483 leaves in `m_weightsum`: the `float` sum
of the weights of the entries, from `0.0f`, in list order. -/
def weightSum (A : Arith) (entries : List (Nat × Flt)) : Flt :=
  entries.foldl (fun s e => A.addF s e.2) Flt.zero

/-- What the neighbour loop has established after running over `nbrs` from a state
with `closestNode == -1`. -/
def FallbackInv (charRoi : List Bool) (nbrs : List (Nat × Flt)) (res : Int × Flt) : Prop :=
  (res.1 = -1 ↔ ∀ q ∈ nbrs, charRoi.getD q.1 false = false) ∧
  (res.1 ≠ -1 → ∃ pre p post, nbrs = pre ++ p :: post ∧ res = ((p.1 : Int), p.2) ∧
    charRoi.getD p.1 false = true ∧
    (∀ q ∈ nbrs, charRoi.getD q.1 false = true → q.2.lt p.2 = false) ∧
    (∀ q ∈ pre, charRoi.getD q.1 false = true → q.2 ≠ p.2))

/-- Exact arithmetic, with a `pow` that always returns `1.05` (the value of
`10^(1/e)` for `e` near `47.2`). -/
def lowPowArith : Arith :=
  { exactArith with powF := fun _ _ => Flt.fin (21 / 20) }

/-- Exact arithmetic, with `pow` exact for every integer exponent. -/
def zpowArith : Arith :=
  { exactArith with
    powF := fun a b =>
      match a, b with
      | Flt.fin x, Flt.fin y => if y.den = 1 then Flt.fin (x ^ y.num) else Flt.nan
      | _, _ => Flt.nan }

/-- Exact arithmetic on finite operands: products and sums of rationals are the
rational products and sums, and a quotient by a nonzero rational is the rational
quotient.  Nothing is said about `pow`, nor about NaN, infinite or zero-divisor
operands. -/
structure ExactArith (A : Arith) : Prop where
  mulF_fin : ∀ x y : ℚ, A.mulF (Flt.fin x) (Flt.fin y) = Flt.fin (x * y)
  addF_fin : ∀ x y : ℚ, A.addF (Flt.fin x) (Flt.fin y) = Flt.fin (x + y)
  divF_fin : ∀ x y : ℚ, y ≠ 0 → A.divF (Flt.fin x) (Flt.fin y) = Flt.fin (x / y)
  addD_fin : ∀ x y : ℚ, A.addD (Flt.fin x) (Flt.fin y) = Flt.fin (x + y)
  divD_fin : ∀ x y : ℚ, y ≠ 0 → A.divD (Flt.fin x) (Flt.fin y) = Flt.fin (x / y)

/-- The valid candidates of lines 464-469: the pairs `(nodeList[j], distList[j])`
that `getNodesToGeoDist` returns for the radius `closestDist * cutoffRatio` and
whose vertex has a true validity-mask entry. -/
def validCandidates (A : Arith) (geo : GeodesicHelper) (charRoi : List Bool)
    (cutoff : Flt) (i : Nat) (closestDist : Flt) : List (Nat × Flt) :=
  let out := geo.getNodesToGeoDist i (A.mulF closestDist cutoff)
  (pairUp out.1 out.2).filter (fun p => charRoi.getD p.1 false)

/-- The value the loop of lines 341-358 leaves in `weightedSum`: the `float` sum
of `myInputData[source] * weight` over the entries, from `0.0f`, in list order. -/
def directAccum (A : Arith) (myInputData : Nat → Flt) (entries : List (Nat × Flt)) : Flt :=
  entries.foldl (fun s e => A.addF s (A.mulF (myInputData e.1) e.2)) Flt.zero

/-- A list of `(source, weight)` pairs with rational weights, as stencil entries. -/
def finEntries (es : List (Nat × ℚ)) : List (Nat × Flt) :=
  es.map (fun e => (e.1, Flt.fin e.2))

/-- The values `5, 0, 7` of `lineInput` as rationals. -/
def lineInputQ (i : Nat) : ℚ :=
  match i with
  | 0 => 5
  | 1 => 0
  | 2 => 7
  | _ => 0

/-- Geodesic queries of a mesh of `n` vertices whose geodesic distances are given
by `dist`: the nearest valid vertex within the radius (the first one in index
order among equally near ones), the distances to given vertices, and the
vertices within a radius in index order. -/
def meshGeo (n : Nat) (dist : Nat → Nat → Flt) : GeodesicHelper where
  getClosestNodeInRoi := fun i roi maxdist =>
    fallbackLoop roi
      (((List.range n).filter (fun j => !(maxdist.lt (dist i j)))).map
        (fun j => (j, dist i j)))
      (-1, Flt.nan)
  getGeoToTheseNodes := fun i ends => ends.map (dist i)
  getNodesToGeoDist := fun i maxdist =>
    let ns := (List.range n).filter (fun j => !(maxdist.lt (dist i j)))
    (ns, ns.map (dist i))

/-- Distances on the hexagon mesh: centre `0`, ring `1..6`, unit edges; two ring
vertices that are not adjacent are at distance `2`. -/
def hexDist (i j : Nat) : Flt :=
  if i = j then Flt.fin 0
  else if i = 0 ∨ j = 0 then Flt.fin 1
  else if j = i % 6 + 1 ∨ i = j % 6 + 1 then Flt.fin 1
  else Flt.fin 2

/-- Neighbour lists of the hexagon mesh. -/
def hexTopo : TopologyHelper where
  getNodeNeighbors := fun i =>
    if i = 0 then [1, 2, 3, 4, 5, 6]
    else if i ≤ 6 then [0, (i + 4) % 6 + 1, i % 6 + 1]
    else []

/-- Geodesic queries of the hexagon mesh. -/
def hexGeo : GeodesicHelper := meshGeo 7 hexDist

/-- A bad-vertex ROI on the hexagon mesh: only the centre is bad. -/
def hexBad (i : Nat) : Flt := if i = 0 then Flt.fin 1 else Flt.fin 0

/-- Vertex areas of the hexagon mesh: all `2`. -/
def hexAreas (_ : Nat) : Flt := Flt.fin 2

/-- An input column on the hexagon mesh: vertex `i` holds the value `i`. -/
def hexInputQ (i : Nat) : ℚ := (i : ℚ)

/-- Positions of the four vertices of the gap mesh on a line: `-5, 0, 1, 2`. -/
def gapPos (i : Nat) : ℚ :=
  match i with
  | 0 => -5
  | 1 => 0
  | 2 => 1
  | 3 => 2
  | _ => 0

/-- Geodesic distance on the gap mesh: the distance of the positions. -/
def gapDist (i j : Nat) : Flt := Flt.fin |gapPos i - gapPos j|

/-- Neighbour lists of the gap mesh, the path `0 - 1 - 2 - 3`. -/
def gapTopo : TopologyHelper where
  getNodeNeighbors := fun i =>
    match i with
    | 0 => [1]
    | 1 => [0, 2]
    | 2 => [1, 3]
    | 3 => [2]
    | _ => []

/-- Geodesic queries of the gap mesh. -/
def gapGeo : GeodesicHelper := meshGeo 4 gapDist

/-- A bad-vertex ROI on the gap mesh: vertices `1` and `2` are bad. -/
def gapBad (i : Nat) : Flt := if i = 1 ∨ i = 2 then Flt.fin 1 else Flt.fin 0

/-- A data ROI on the line mesh: every vertex has data except vertex `1`. -/
def lineNoDataAtOne (i : Nat) : Flt := if i = 1 then Flt.fin 0 else Flt.fin 1

/-- Vertex areas that are all zero (a mesh without triangles has them). -/
def zeroAreas (_ : Nat) : Flt := Flt.fin 0

/-- Exact arithmetic on finite operands with the IEEE rules for a zero divisor
and for `+inf`: `0/0` is NaN, `x/0` is `+inf` or `-inf` with the sign of `x`,
a finite value divided by an infinity is `0`, and `pow(+inf, y)` is `+inf`, `1`
or `0` as `y` is positive, zero or negative.  `powF` is exact for natural
exponents. -/
def ieeeArith : Arith :=
  { exactArith with
    divF := fun a b =>
      match a, b with
      | Flt.fin x, Flt.fin y =>
        if y = 0 then (if x = 0 then Flt.nan else if 0 < x then Flt.pinf else Flt.ninf)
        else Flt.fin (x / y)
      | Flt.fin _, Flt.pinf => Flt.fin 0
      | Flt.fin _, Flt.ninf => Flt.fin 0
      | _, _ => Flt.nan
    powF := fun a b =>
      match a, b with
      | Flt.fin x, Flt.fin y =>
        if y.den = 1 ∧ 0 ≤ y.num then Flt.fin (x ^ y.num.toNat) else Flt.nan
      | Flt.pinf, Flt.fin y =>
        if 0 < y then Flt.pinf else if y = 0 then Flt.fin 1 else Flt.fin 0
      | _, _ => Flt.nan }

/-- Geodesic distance on the stacked mesh: its three vertices coincide. -/
def stackDist (_ _ : Nat) : Flt := Flt.fin 0

/-- Neighbour lists of the stacked mesh. -/
def stackTopo : TopologyHelper where
  getNodeNeighbors := fun i =>
    match i with
    | 0 => [1, 2]
    | 1 => [0, 2]
    | 2 => [0, 1]
    | _ => []

/-- Geodesic queries of the stacked mesh. -/
def stackGeo : GeodesicHelper := meshGeo 3 stackDist

/-- A bad-vertex ROI on the stacked mesh: only vertex `0` is bad. -/
def stackBad (i : Nat) : Flt := if i = 0 then Flt.fin 1 else Flt.fin 0

/-- Vertex areas of the stacked mesh: `1, 1, 3`. -/
def stackAreasQ (i : Nat) : ℚ := if i = 2 then 3 else 1

/-- An input column on the stacked mesh: `0, 4, 8`. -/
def stackInputQ (i : Nat) : ℚ :=
  match i with
  | 1 => 4
  | 2 => 8
  | _ => 0

/-- The candidates of a list that lie at distance `0`. -/
def coLocated (cands : List (Nat × Flt)) : List (Nat × Flt) :=
  cands.filter (fun p => decide (p.2 = Flt.fin 0))

/-- IEEE `a >= b`: false as soon as one side is NaN. -/
def Flt.ge (a b : Flt) : Bool := a.gt b || a.eqF b

/-- The arithmetic `ieeeArith` with four `float` results rounded to nearest:
`1.0f / 10.0f` is the `float` 0x3DCCCCCD, `pow(10.0f, 0x3DCCCCCD)` is the `float`
0x3FA12478 (1.2589254), `1.0f / 1.0e8f` is the `float` 0x322BCC77, and
`pow(10.0f, 0x322BCC77)` is `1.0f`: the real value 1.000000023 lies nearer to
`1.0f` than to the next `float`, 1.00000012. -/
def floatPowArith : Arith :=
  { ieeeArith with
    divF := fun a b =>
      if a = one ∧ b = Flt.fin 10 then Flt.fin (13421773 / 134217728)
      else if a = one ∧ b = Flt.fin 100000000 then Flt.fin (11258999 / 1125899906842624)
      else ieeeArith.divF a b
    powF := fun a b =>
      if a = ten ∧ b = Flt.fin (13421773 / 134217728) then Flt.fin (1320079 / 1048576)
      else if a = ten ∧ b = Flt.fin (11258999 / 1125899906842624) then Flt.fin 1
      else ieeeArith.powF a b }

/-- An input column on the line mesh that differs from `lineInput` only at the
bad vertex `1`: values `5, 99, 7`. -/
def lineInputAlt (i : Nat) : Flt := if i = 1 then Flt.fin 99 else lineInput i

/-- The second loop of `precomputeStencils` and `precomputeNearest` with its
iterations run in the order `order`: the loop is under
`#pragma omp CARET_FOR schedule(dynamic)`, so the iterations may reach the
critical section `myIndex = badCount++` in any order.  `compactLoop` is the
ascending order. -/
def compactLoopIn {β : Type} (order : List Nat) (badNodeData : Nat → Flt) (entry : Nat → β)
    (slots : List β) : List β × Nat :=
  order.foldl (fun st i =>
    if (badNodeData i).gt Flt.zero then (st.1.set st.2 (entry i), st.2 + 1) else st) (slots, 0)

/-- The function `precomputeStencils` with the iterations of its parallel loop run
in the order `order`. -/
def precomputeStencilsIn (order : List Nat) (A : Arith) (topo : TopologyHelper)
    (geo : GeodesicHelper) (numNodes : Nat) (myAreas : Nat → Flt) (badNodeData : Nat → Flt)
    (dataRoiVals : Option (Nat → Flt)) (distance exponent : Flt) : List (Nat × StencilElem) :=
  let cutoff := cutoffRatio A exponent
  let c := classify numNodes badNodeData dataRoiVals
  (compactLoopIn order badNodeData
    (fun i => (i, stencilFor A topo geo c.1 myAreas distance exponent cutoff i))
    (List.replicate c.2 (0, StencilElem.empty))).1

/-- The function `precomputeNearest` with the iterations of its parallel loop run
in the order `order`. -/
def precomputeNearestIn (order : List Nat) (topo : TopologyHelper) (geo : GeodesicHelper)
    (numNodes : Nat) (badNodeData : Nat → Flt)
    (dataRoiVals : Option (Nat → Flt)) (distance : Flt) : List (Nat × Int) :=
  let c := classify numNodes badNodeData dataRoiVals
  (compactLoopIn order badNodeData
    (fun i => (i, (resolveClosest topo geo c.1 i distance).1))
    (List.replicate c.2 (0, 0))).1

/-- The dilation of one input column `myInputData` on its own: the
precomputation of lines 166-174 followed by the `processColumn` overload chosen
at lines 183-193, on a scratch buffer as `vector<float> colScratch(numNodes)`
creates it. -/
def dilateColumn (A : Arith) (mySurf : SurfaceFile) (distance : Flt)
    (badNodeRoi dataRoi : Option MetricFile) (nearest : Bool) (exponent : Flt)
    (myInputData : Nat → Flt) : Nat → Flt :=
  let numNodes := mySurf.numberOfNodes
  let dataRoiVals := dataRoi.map (fun r => r.values 0)
  match badNodeRoi with
  | none =>
    processColumn A mySurf.topologyHelper mySurf.geodesicHelper (fun _ => Flt.zero)
      myInputData numNodes mySurf.nodeAreas dataRoiVals distance nearest exponent
  | some bad =>
    if nearest then
      processColumnNearest (fun _ => Flt.zero) numNodes myInputData
        (precomputeNearest mySurf.topologyHelper mySurf.geodesicHelper numNodes
          (bad.values 0) dataRoiVals distance)
    else
      processColumnStencils A (fun _ => Flt.zero) numNodes myInputData
        (precomputeStencils A mySurf.topologyHelper mySurf.geodesicHelper numNodes
          mySurf.nodeAreas (bad.values 0) dataRoiVals distance exponent)

/-- The precomputed lists a `Locals` must hold for the inputs of the constructor:
`myNearest` in nearest mode and `myStencils` in weighted mode, when a bad-vertex
ROI is given. -/
def ListsReady (A : Arith) (mySurf : SurfaceFile) (distance : Flt)
    (badNodeRoi dataRoi : Option MetricFile) (nearest : Bool) (exponent : Flt)
    (l : Locals) : Prop :=
  match badNodeRoi with
  | none => True
  | some bad =>
    if nearest then
      l.myNearest = precomputeNearest mySurf.topologyHelper mySurf.geodesicHelper
        mySurf.numberOfNodes (bad.values 0) (dataRoi.map (fun r => r.values 0)) distance
    else
      l.myStencils = precomputeStencils A mySurf.topologyHelper mySurf.geodesicHelper
        mySurf.numberOfNodes mySurf.nodeAreas (bad.values 0)
        (dataRoi.map (fun r => r.values 0)) distance exponent

/-- A metric file with two columns on the line mesh: `5, 0, 7` and `5, 99, 7`. -/
def lineMetricTwo : MetricFile where
  m_structure := 1
  numberOfNodes := 3
  numberOfColumns := 2
  columnName := fun c => if c = 0 then "first" else "second"
  paletteColorMapping := fun c => c
  values := fun c => if c = 0 then lineInput else lineInputAlt

/-- A bad-vertex ROI file on the line mesh holding `lineBad`. -/
def lineBadFile : MetricFile where
  m_structure := 1
  numberOfNodes := 3
  numberOfColumns := 1
  columnName := fun _ => "bad"
  paletteColorMapping := fun _ => 0
  values := fun _ => lineBad

/-- The power `2^k` for an integer `k`. -/
def pow2 (k : Int) : ℚ := if 0 ≤ k then (2 : ℚ) ^ k.toNat else 1 / (2 : ℚ) ^ (-k).toNat

/-- Bisection for the binary logarithm: with `2^lo ≤ n < 2^hi`, the `k` with
`2^k ≤ n < 2^(k+1)`, in at most `fuel` halvings of the interval. -/
def natLog2Search : Nat → Nat → Nat → Nat → Nat
  | 0, lo, _, _ => lo
  | fuel + 1, lo, hi, n =>
    if hi ≤ lo + 1 then lo
    else
      let mid := (lo + hi) / 2
      if 2 ^ mid ≤ n then natLog2Search fuel mid hi n else natLog2Search fuel lo mid n

/-- The binary logarithm of a natural number below `2^(2^20)`, rounded down. -/
def natLog2 (n : Nat) : Nat := natLog2Search 21 0 (2 ^ 20) n

/-- The binary exponent of a positive rational: the `k` with `2^k ≤ q < 2^(k+1)`. -/
def ilog2 (q : ℚ) : Int :=
  let k : Int := (natLog2 q.num.natAbs : Int) - (natLog2 q.den : Int)
  if pow2 k ≤ q then k else k - 1

/-- Rounding of a non-negative rational to the nearest integer, ties to even. -/
def roundEven (m : ℚ) : Int :=
  let f : Int := m.num / (m.den : Int)
  let r : ℚ := m - (f : ℚ)
  if r < 1 / 2 then f else if 1 / 2 < r then f + 1 else if f % 2 = 0 then f else f + 1

/-- Rounding of a positive rational to a binary format with `p` significant bits
and least normal exponent `emin` (round to nearest, ties to even; below `2^emin`
the spacing is that of the subnormal numbers). -/
def roundMag (p : Nat) (emin : Int) (q : ℚ) : ℚ :=
  let e : Int := max (ilog2 q) emin
  let ulp : ℚ := pow2 (e - ((p : Int) - 1))
  ((roundEven (q / ulp) : Int) : ℚ) * ulp

/-- Rounding of a rational to a binary format with `p` significant bits, least
normal exponent `emin` and overflow at `2^emax1`: a result of that magnitude is
an infinity. -/
def roundTo (p : Nat) (emin emax1 : Int) (q : ℚ) : Flt :=
  if q = 0 then Flt.fin 0
  else
    let m := roundMag p emin |q|
    if pow2 emax1 ≤ m then (if 0 < q then Flt.pinf else Flt.ninf)
    else Flt.fin (if 0 < q then m else -m)

/-- Rounding to `float` (IEEE binary32). -/
def roundF (q : ℚ) : Flt := roundTo 24 (-126) 128 q

/-- Rounding to `double` (IEEE binary64). -/
def roundD (q : ℚ) : Flt := roundTo 53 (-1022) 1024 q

/-- IEEE addition of extended values, the finite sum being rounded by `rnd`. -/
def extAdd (rnd : ℚ → Flt) : Flt → Flt → Flt
  | Flt.nan, _ => Flt.nan
  | _, Flt.nan => Flt.nan
  | Flt.pinf, Flt.ninf => Flt.nan
  | Flt.ninf, Flt.pinf => Flt.nan
  | Flt.pinf, _ => Flt.pinf
  | _, Flt.pinf => Flt.pinf
  | Flt.ninf, _ => Flt.ninf
  | _, Flt.ninf => Flt.ninf
  | Flt.fin x, Flt.fin y => rnd (x + y)

/-- The infinity with the sign of `s`, and NaN for `s = 0` (as `0 * inf`). -/
def infOfSign (s : ℚ) : Flt := if 0 < s then Flt.pinf else if s < 0 then Flt.ninf else Flt.nan

/-- IEEE multiplication of extended values, the finite product being rounded by
`rnd`. -/
def extMul (rnd : ℚ → Flt) : Flt → Flt → Flt
  | Flt.nan, _ => Flt.nan
  | _, Flt.nan => Flt.nan
  | Flt.fin x, Flt.fin y => rnd (x * y)
  | Flt.fin x, Flt.pinf => infOfSign x
  | Flt.fin x, Flt.ninf => infOfSign (-x)
  | Flt.pinf, Flt.fin y => infOfSign y
  | Flt.ninf, Flt.fin y => infOfSign (-y)
  | Flt.pinf, Flt.pinf => Flt.pinf
  | Flt.ninf, Flt.ninf => Flt.pinf
  | Flt.pinf, Flt.ninf => Flt.ninf
  | Flt.ninf, Flt.pinf => Flt.ninf

/-- IEEE division of extended values, the finite quotient being rounded by `rnd`;
a zero divisor is taken as `+0`. -/
def extDiv (rnd : ℚ → Flt) : Flt → Flt → Flt
  | Flt.nan, _ => Flt.nan
  | _, Flt.nan => Flt.nan
  | Flt.fin x, Flt.fin y => if y = 0 then infOfSign x else rnd (x / y)
  | Flt.fin _, Flt.pinf => Flt.fin 0
  | Flt.fin _, Flt.ninf => Flt.fin 0
  | Flt.pinf, Flt.fin y => if 0 ≤ y then Flt.pinf else Flt.ninf
  | Flt.ninf, Flt.fin y => if 0 ≤ y then Flt.ninf else Flt.pinf
  | Flt.pinf, Flt.pinf => Flt.nan
  | Flt.pinf, Flt.ninf => Flt.nan
  | Flt.ninf, Flt.pinf => Flt.nan
  | Flt.ninf, Flt.ninf => Flt.nan

/-- IEEE arithmetic with rounding, overflow and underflow: `mulF`, `addF` and
`divF` are the correctly rounded `float` operations; `addD` is the `double`
addition; `divD` is the `double` division followed by the conversion of the
quotient to `float`; `powF` is the exact power rounded to `float` for a natural
exponent, `pow(10.0f, 0.5f)` is the `float` 3.1622777, `pow(+inf, y)` follows
the sign of `y`, and other exponents are not modelled (NaN). -/
def floatArith : Arith where
  mulF := extMul roundF
  addF := extAdd roundF
  divF := extDiv roundF
  powF := fun a b =>
    match a, b with
    | Flt.fin x, Flt.fin y =>
      if x = 10 ∧ y = 1 / 2 then sqrtTenF
      else if y.den = 1 ∧ 0 ≤ y.num then roundF (x ^ y.num.toNat) else Flt.nan
    | Flt.pinf, Flt.fin y =>
      if 0 < y then Flt.pinf else if y = 0 then Flt.fin 1 else Flt.fin 0
    | _, _ => Flt.nan
  addD := extAdd roundD
  divD := fun a b =>
    match extDiv roundD a b with
    | Flt.fin q => roundF q
    | r => r

/-- The largest finite `float`, FLT_MAX = 2^128 - 2^104. -/
def fltMax : ℚ := 2 ^ 128 - 2 ^ 104

/-- Vertex areas that are all FLT_MAX. -/
def hugeAreas (_ : Nat) : Flt := Flt.fin fltMax

/-- The `float` nearest to `1.7`, 1.70000005 (0x3FD9999A). -/
def onePointSevenF : ℚ := 14260634 / 8388608

/-- An input column on the line mesh: `1.70000005, 0, 1.70000005`. -/
def lineInputF (i : Nat) : Flt := if i = 1 then Flt.fin 0 else Flt.fin onePointSevenF

/-- Vertex areas that are all `3`. -/
def threeAreas (_ : Nat) : Flt := Flt.fin 3

/-- An arithmetic that never makes a negative value out of operands that are
not negative.  A value is not negative when the IEEE test `value < 0.0f` fails:
it is a finite value `≥ 0`, `+inf` or NaN.  IEEE arithmetic has this property,
rounding, overflow and underflow included. -/
structure NonNegArith (A : Arith) : Prop where
  mulF_nn : ∀ a b : Flt, a.lt Flt.zero = false → b.lt Flt.zero = false →
    (A.mulF a b).lt Flt.zero = false
  addF_nn : ∀ a b : Flt, a.lt Flt.zero = false → b.lt Flt.zero = false →
    (A.addF a b).lt Flt.zero = false
  divF_nn : ∀ a b : Flt, a.lt Flt.zero = false → b.lt Flt.zero = false →
    (A.divF a b).lt Flt.zero = false
  powF_nn : ∀ a b : Flt, a.lt Flt.zero = false → (A.powF a b).lt Flt.zero = false
  addD_nn : ∀ a b : Flt, a.lt Flt.zero = false → b.lt Flt.zero = false →
    (A.addD a b).lt Flt.zero = false
  divD_nn : ∀ a b : Flt, a.lt Flt.zero = false → b.lt Flt.zero = false →
    (A.divD a b).lt Flt.zero = false

/-! ## Lemmas on the loops -/

theorem precopy_apply (colScratch : Nat → Flt) (numNodes : Nat) (myInputData : Nat → Flt)
    (v : Nat) :
    precopy colScratch numNodes myInputData v
      = if v < numNodes then myInputData v else colScratch v := by
  unfold precopy
  induction numNodes with
  | zero => simp
  | succ n ih =>
    rw [List.range_succ, List.foldl_append]
    simp only [List.foldl_cons, List.foldl_nil]
    by_cases hv : v = n
    · subst hv
      simp
    · rw [Function.update_noteq hv, ih]
      by_cases h1 : v < n
      · have h2 : v < n + 1 := by omega
        simp [h1, h2]
      · have h2 : ¬ v < n + 1 := by omega
        simp [h1, h2]

/-- A loop of writes `col[tgt e] = val e` leaves alone every index that is no
target. -/
theorem foldl_update_of_not_target {β : Type} (tgt : β → Nat) (val : β → Flt) (l : List β)
    (c : Nat → Flt) (v : Nat) (h : ∀ e ∈ l, tgt e ≠ v) :
    l.foldl (fun col e => Function.update col (tgt e) (val e)) c v = c v := by
  induction l generalizing c with
  | nil => rfl
  | cons e rest ih =>
    rw [List.foldl_cons, ih _ (fun e1 he1 => h e1 (List.mem_cons_of_mem _ he1))]
    exact Function.update_noteq (fun hv => h e (List.mem_cons_self _ _) hv.symm) _ _

/-- A loop of writes over entries made from distinct targets stores at each
target the value of its entry. -/
theorem foldl_update_at_target {β : Type} (tgt : β → Nat) (val : β → Flt) (entry : Nat → β)
    (htgt : ∀ i, tgt (entry i) = i) (targets : List Nat) (hnd : targets.Nodup)
    (c : Nat → Flt) (v : Nat) (hv : v ∈ targets) :
    (targets.map entry).foldl (fun col e => Function.update col (tgt e) (val e)) c v
      = val (entry v) := by
  induction targets generalizing c with
  | nil => simp at hv
  | cons i rest ih =>
    rw [List.nodup_cons] at hnd
    rw [List.map_cons, List.foldl_cons]
    by_cases hvi : v = i
    · subst hvi
      rw [foldl_update_of_not_target]
      · rw [htgt]; simp
      · intro e he
        rw [List.mem_map] at he
        obtain ⟨j, hj, rfl⟩ := he
        rw [htgt]
        intro hjv
        exact hnd.1 (hjv ▸ hj)
    · have hv2 : v ∈ rest := by
        rcases List.mem_cons.1 hv with h | h
        · exact absurd h hvi
        · exact h
      exact ih hnd.2 _ hv2

theorem set_length_append {β : Type} (done : List β) (r x : β) (rest : List β) :
    (done ++ r :: rest).set done.length x = done ++ x :: rest := by
  induction done with
  | nil => rfl
  | cons d ds ih => simp [ih]

/-- The compaction loop over any index list, started with `done` filled slots
and as many free slots as bad vertices remain. -/
theorem compactLoop_aux {β : Type} (badNodeData : Nat → Flt) (entry : Nat → β)
    (is : List Nat) (done rest : List β)
    (h : rest.length = (is.filter (fun i => (badNodeData i).gt Flt.zero)).length) :
    is.foldl (fun st i =>
        if (badNodeData i).gt Flt.zero then (st.1.set st.2 (entry i), st.2 + 1) else st)
        (done ++ rest, done.length)
      = (done ++ (is.filter (fun i => (badNodeData i).gt Flt.zero)).map entry,
          done.length + (is.filter (fun i => (badNodeData i).gt Flt.zero)).length) := by
  induction is generalizing done rest with
  | nil =>
    have hr : rest = [] := List.length_eq_zero.1 (by simpa using h)
    simp [hr]
  | cons i is ih =>
    rw [List.foldl_cons]
    by_cases hb : (badNodeData i).gt Flt.zero = true
    · simp only [hb, if_true, List.filter_cons_of_pos, List.length_cons, List.map_cons] at h ⊢
      cases rest with
      | nil => simp at h
      | cons r rest1 =>
        rw [set_length_append]
        have h1 : rest1.length
            = (is.filter (fun i => (badNodeData i).gt Flt.zero)).length := by
          simpa using h
        have key := ih (done ++ [entry i]) rest1 h1
        simp only [List.append_assoc, List.singleton_append, List.length_append,
          List.length_singleton] at key
        rw [key]
        simp [Nat.add_assoc, Nat.add_comm 1]
    · have hb2 : (badNodeData i).gt Flt.zero = false := by simpa using hb
      have hf : (i :: is).filter (fun i => (badNodeData i).gt Flt.zero)
          = is.filter (fun i => (badNodeData i).gt Flt.zero) := by
        simp [List.filter_cons, hb2]
      rw [hf] at h ⊢
      simp only [hb2, Bool.false_eq_true, if_false]
      exact ih done rest h

theorem compactLoop_eq {β : Type} (numNodes : Nat) (badNodeData : Nat → Flt) (entry : Nat → β)
    (slots : List β) (h : slots.length = (badVertices numNodes badNodeData).length) :
    (compactLoop numNodes badNodeData entry slots).1
      = (badVertices numNodes badNodeData).map entry := by
  have key := compactLoop_aux badNodeData entry (List.range numNodes) [] slots h
  simp only [List.nil_append, List.length_nil] at key
  unfold compactLoop
  rw [key]
  rfl

/-- A loop that writes `rule i` at index `i` and counts the indices with
`isBad i`, over the first `k` indices of a zero-filled vector. -/
theorem foldl_set_count (N : Nat) (rule isBad : Nat → Bool)
    (step : List Bool × Nat → Nat → List Bool × Nat)
    (hstep : ∀ st i, step st i = (st.1.set i (rule i), if isBad i then st.2 + 1 else st.2))
    (k : Nat) (hk : k ≤ N) :
    (List.range k).foldl step (List.replicate N false, 0)
      = ((List.range k).map rule ++ List.replicate (N - k) false,
          ((List.range k).filter isBad).length) := by
  induction k with
  | zero => simp
  | succ k ih =>
    rw [List.range_succ, List.foldl_append, ih (by omega)]
    simp only [List.foldl_cons, List.foldl_nil, hstep]
    have hrep : List.replicate (N - k) false = false :: List.replicate (N - (k + 1)) false := by
      have : N - k = (N - (k + 1)) + 1 := by omega
      rw [this, List.replicate_succ]
    have hlen : ((List.range k).map rule).length = k := by simp
    rw [hrep]
    have hset := set_length_append ((List.range k).map rule) false (rule k)
      (List.replicate (N - (k + 1)) false)
    rw [hlen] at hset
    rw [hset]
    by_cases hb : isBad k = true
    · simp [hb, List.filter_append]
    · have hb2 : isBad k = false := by simpa using hb
      simp [hb2, List.filter_append]

theorem classify_eq (numNodes : Nat) (badNodeData : Nat → Flt)
    (dataRoiVals : Option (Nat → Flt)) :
    classify numNodes badNodeData dataRoiVals
      = ((List.range numNodes).map (validRule badNodeData dataRoiVals),
          (badVertices numNodes badNodeData).length) := by
  cases dataRoiVals with
  | none =>
    have key := foldl_set_count numNodes (validRule badNodeData none)
      (fun i => (badNodeData i).gt Flt.zero)
      (fun st i =>
        if !((badNodeData i).gt Flt.zero) then (st.1.set i true, st.2)
        else (st.1.set i false, st.2 + 1))
      (by
        intro st i
        by_cases hb : (badNodeData i).gt Flt.zero = true
        · simp [hb, validRule]
        · have hb2 : (badNodeData i).gt Flt.zero = false := by simpa using hb
          simp [hb2, validRule])
      numNodes (Nat.le_refl _)
    simp only [Nat.sub_self, List.replicate_zero, List.append_nil] at key
    unfold classify
    exact key
  | some vals =>
    have key := foldl_set_count numNodes (validRule badNodeData (some vals))
      (fun i => (badNodeData i).gt Flt.zero)
      (fun st i =>
        if !((badNodeData i).gt Flt.zero) then
          if (vals i).gt Flt.zero then (st.1.set i true, st.2) else (st.1.set i false, st.2)
        else (st.1.set i false, st.2 + 1))
      (by
        intro st i
        by_cases hb : (badNodeData i).gt Flt.zero = true
        · simp [hb, validRule]
        · have hb2 : (badNodeData i).gt Flt.zero = false := by simpa using hb
          by_cases hd : (vals i).gt Flt.zero = true
          · simp [hb2, hd, validRule]
          · have hd2 : (vals i).gt Flt.zero = false := by simpa using hd
            simp [hb2, hd2, validRule])
      numNodes (Nat.le_refl _)
    simp only [Nat.sub_self, List.replicate_zero, List.append_nil] at key
    unfold classify
    exact key

/-- A sweep `for i < n: col[i] = g i` stores `g v` at every `v < n`. -/
theorem foldl_range_update (g : Nat → Flt) (c : Nat → Flt) (n v : Nat) :
    (List.range n).foldl (fun col i => Function.update col i (g i)) c v
      = if v < n then g v else c v := by
  induction n with
  | zero => simp
  | succ n ih =>
    rw [List.range_succ, List.foldl_append]
    simp only [List.foldl_cons, List.foldl_nil]
    by_cases hv : v = n
    · subst hv
      simp
    · rw [Function.update_noteq hv, ih]
      by_cases h1 : v < n
      · have h2 : v < n + 1 := by omega
        simp [h1, h2]
      · have h2 : ¬ v < n + 1 := by omega
        simp [h1, h2]

theorem processColumnNearest_eq (colScratch : Nat → Flt) (numNodes : Nat)
    (myInputData : Nat → Flt) (myNearest : List (Nat × Int)) :
    processColumnNearest colScratch numNodes myInputData myNearest
      = myNearest.foldl (fun col e => Function.update col e.1 (nearestValue myInputData e))
          (precopy colScratch numNodes myInputData) := by
  unfold processColumnNearest
  congr 1
  funext col e
  unfold nearestValue
  split <;> rfl

theorem processColumnStencils_eq (A : Arith) (colScratch : Nat → Flt) (numNodes : Nat)
    (myInputData : Nat → Flt) (myStencils : List (Nat × StencilElem)) :
    processColumnStencils A colScratch numNodes myInputData myStencils
      = myStencils.foldl (fun col e => Function.update col e.1 (stencilValue A myInputData e))
          (precopy colScratch numNodes myInputData) := by
  unfold processColumnStencils
  congr 1
  funext col e
  unfold stencilValue
  split <;> rfl

theorem processColumn_apply (A : Arith) (topo : TopologyHelper) (geo : GeodesicHelper)
    (colScratch : Nat → Flt) (myInputData : Nat → Flt) (numNodes : Nat) (myAreas : Nat → Flt)
    (dataRoiVals : Option (Nat → Flt)) (distance : Flt) (nearest : Bool) (exponent : Flt)
    (v : Nat) (hv : v < numNodes) :
    processColumn A topo geo colScratch myInputData numNodes myAreas dataRoiVals distance
        nearest exponent v
      = if directIsBad myInputData dataRoiVals v then
          directValue A topo geo (directCharRoi numNodes myInputData dataRoiVals) myInputData
            myAreas distance nearest exponent (cutoffRatio A exponent) v
        else myInputData v := by
  have key := foldl_range_update
    (fun i => if directIsBad myInputData dataRoiVals i then
        directValue A topo geo (directCharRoi numNodes myInputData dataRoiVals) myInputData
          myAreas distance nearest exponent (cutoffRatio A exponent) i
      else myInputData i) colScratch numNodes v
  rw [if_pos hv] at key
  have hf : (fun (col : Nat → Flt) (i : Nat) =>
      if directIsBad myInputData dataRoiVals i then
        Function.update col i
          (directValue A topo geo (directCharRoi numNodes myInputData dataRoiVals) myInputData
            myAreas distance nearest exponent (cutoffRatio A exponent) i)
      else Function.update col i (myInputData i))
      = (fun col i => Function.update col i
          (if directIsBad myInputData dataRoiVals i then
            directValue A topo geo (directCharRoi numNodes myInputData dataRoiVals) myInputData
              myAreas distance nearest exponent (cutoffRatio A exponent) i
          else myInputData i)) := by
    funext col i
    split <;> rfl
  exact (congrArg (fun f => List.foldl f colScratch (List.range numNodes) v) hf).trans key

theorem badVertices_nodup (numNodes : Nat) (badNodeData : Nat → Flt) :
    (badVertices numNodes badNodeData).Nodup :=
  (List.nodup_range numNodes).filter _

theorem mem_badVertices (numNodes : Nat) (badNodeData : Nat → Flt) (v : Nat) :
    v ∈ badVertices numNodes badNodeData ↔ v < numNodes ∧ (badNodeData v).gt Flt.zero = true := by
  simp [badVertices, List.mem_filter]

theorem precomputeNearest_eq (topo : TopologyHelper) (geo : GeodesicHelper)
    (numNodes : Nat) (badNodeData : Nat → Flt)
    (dataRoiVals : Option (Nat → Flt)) (distance : Flt) :
    precomputeNearest topo geo numNodes badNodeData dataRoiVals distance
      = (badVertices numNodes badNodeData).map (fun i =>
          (i, (resolveClosest topo geo (classify numNodes badNodeData dataRoiVals).1 i
            distance).1)) := by
  unfold precomputeNearest
  apply compactLoop_eq
  rw [classify_eq]
  simp

theorem precomputeStencils_eq (A : Arith) (topo : TopologyHelper) (geo : GeodesicHelper)
    (numNodes : Nat) (myAreas : Nat → Flt) (badNodeData : Nat → Flt)
    (dataRoiVals : Option (Nat → Flt)) (distance exponent : Flt) :
    precomputeStencils A topo geo numNodes myAreas badNodeData dataRoiVals distance exponent
      = (badVertices numNodes badNodeData).map (fun i =>
          (i, stencilFor A topo geo (classify numNodes badNodeData dataRoiVals).1 myAreas
            distance exponent (cutoffRatio A exponent) i)) := by
  unfold precomputeStencils
  apply compactLoop_eq
  rw [classify_eq]
  simp

theorem foldl_stencilStep (A : Arith) (charRoi : List Bool) (myAreas : Nat → Flt)
    (closestDist exponent : Flt) (cands : List (Nat × Flt)) (el : StencilElem) :
    cands.foldl (stencilStep A charRoi myAreas closestDist exponent) el
      = ⟨el.m_weightlist ++ (cands.filter (fun p => charRoi.getD p.1 false)).map
            (fun p => (p.1, weight A (myAreas p.1) p.2 closestDist exponent)),
          ((cands.filter (fun p => charRoi.getD p.1 false)).map
            (fun p => (p.1, weight A (myAreas p.1) p.2 closestDist exponent))).foldl
            (fun s e => A.addF s e.2) el.m_weightsum⟩ := by
  induction cands generalizing el with
  | nil => simp
  | cons p rest ih =>
    rw [List.foldl_cons]
    by_cases hp : charRoi.getD p.1 false = true
    · have hs : stencilStep A charRoi myAreas closestDist exponent el p
          = ⟨el.m_weightlist ++ [(p.1, weight A (myAreas p.1) p.2 closestDist exponent)],
              A.addF el.m_weightsum (weight A (myAreas p.1) p.2 closestDist exponent)⟩ := by
        unfold stencilStep
        rw [if_pos hp]
      have hf : (p :: rest).filter (fun p => charRoi.getD p.1 false)
          = p :: rest.filter (fun p => charRoi.getD p.1 false) :=
        List.filter_cons_of_pos hp
      rw [hs, ih, hf]
      simp only [List.map_cons, List.foldl_cons, List.append_assoc, List.singleton_append]
    · have hs : stencilStep A charRoi myAreas closestDist exponent el p = el := by
        unfold stencilStep
        rw [if_neg hp]
      have hf : (p :: rest).filter (fun p => charRoi.getD p.1 false)
          = rest.filter (fun p => charRoi.getD p.1 false) :=
        List.filter_cons_of_neg hp
      rw [hs, ih, hf]

/-- The stencil stored for a vertex, in terms of `stencilEntries`. -/
theorem stencilFor_eq (A : Arith) (topo : TopologyHelper) (geo : GeodesicHelper)
    (charRoi : List Bool) (myAreas : Nat → Flt) (distance exponent cutoff : Flt) (i : Nat) :
    stencilFor A topo geo charRoi myAreas distance exponent cutoff i
      = if (resolveClosest topo geo charRoi i distance).1 = -1 then StencilElem.empty
        else if (weightSum A (stencilEntries A geo charRoi myAreas exponent cutoff i
            (resolveClosest topo geo charRoi i distance).2)).eqF Flt.zero = true then
          ⟨[], weightSum A (stencilEntries A geo charRoi myAreas exponent cutoff i
            (resolveClosest topo geo charRoi i distance).2)⟩
        else
          ⟨stencilEntries A geo charRoi myAreas exponent cutoff i
              (resolveClosest topo geo charRoi i distance).2,
            weightSum A (stencilEntries A geo charRoi myAreas exponent cutoff i
              (resolveClosest topo geo charRoi i distance).2)⟩ := by
  unfold stencilFor
  by_cases hr : (resolveClosest topo geo charRoi i distance).1 = -1
  · simp [hr]
  · simp only [bne_iff_ne, ne_eq, hr, not_false_eq_true, if_true, if_false]
    rw [foldl_stencilStep]
    simp only [List.nil_append]
    rfl

theorem processColumnStencils_precompute (A : Arith) (topo : TopologyHelper)
    (geo : GeodesicHelper) (colScratch myInputData : Nat → Flt) (numNodes : Nat)
    (myAreas badNodeData : Nat → Flt) (dataRoiVals : Option (Nat → Flt))
    (distance exponent : Flt) (v : Nat) (hv : v < numNodes)
    (hb : (badNodeData v).gt Flt.zero = true) :
    processColumnStencils A colScratch numNodes myInputData
        (precomputeStencils A topo geo numNodes myAreas badNodeData dataRoiVals distance
          exponent) v
      = stencilValue A myInputData
          (v, stencilFor A topo geo (classify numNodes badNodeData dataRoiVals).1 myAreas
            distance exponent (cutoffRatio A exponent) v) := by
  rw [processColumnStencils_eq, precomputeStencils_eq]
  exact foldl_update_at_target (fun e : Nat × StencilElem => e.1) (stencilValue A myInputData)
    (fun i => (i, stencilFor A topo geo (classify numNodes badNodeData dataRoiVals).1 myAreas
      distance exponent (cutoffRatio A exponent) i))
    (fun _ => rfl) _ (badVertices_nodup _ _) _ v ((mem_badVertices _ _ _).2 ⟨hv, hb⟩)

theorem processColumnNearest_precompute (topo : TopologyHelper)
    (geo : GeodesicHelper) (colScratch myInputData : Nat → Flt) (numNodes : Nat)
    (badNodeData : Nat → Flt) (dataRoiVals : Option (Nat → Flt))
    (distance : Flt) (v : Nat) (hv : v < numNodes)
    (hb : (badNodeData v).gt Flt.zero = true) :
    processColumnNearest colScratch numNodes myInputData
        (precomputeNearest topo geo numNodes badNodeData dataRoiVals distance) v
      = nearestValue myInputData
          (v, (resolveClosest topo geo (classify numNodes badNodeData dataRoiVals).1 v
            distance).1) := by
  rw [processColumnNearest_eq, precomputeNearest_eq]
  exact foldl_update_at_target (fun e : Nat × Int => e.1) (nearestValue myInputData)
    (fun i => (i, (resolveClosest topo geo (classify numNodes badNodeData dataRoiVals).1 i
      distance).1))
    (fun _ => rfl) _ (badVertices_nodup _ _) _ v ((mem_badVertices _ _ _).2 ⟨hv, hb⟩)

theorem flt_lt_irrefl (a : Flt) : a.lt a = false := by
  cases a <;> simp [Flt.lt]

theorem flt_lt_trans {a b c : Flt} (hab : a.lt b = true) (hbc : b.lt c = true) :
    a.lt c = true := by
  cases a <;> cases b <;> cases c <;> simp_all [Flt.lt]
  exact lt_trans hab hbc

theorem mem_pairUp_fst (ns : List Nat) (ds : List Flt) (p : Nat × Flt)
    (hp : p ∈ pairUp ns ds) : p.1 ∈ ns := by
  induction ns generalizing ds with
  | nil => simp [pairUp] at hp
  | cons n rest ih =>
    rw [pairUp, List.mem_cons] at hp
    rcases hp with h | h
    · rw [h]
      exact List.mem_cons_self _ _
    · exact List.mem_cons_of_mem _ (ih _ h)

theorem exists_mem_pairUp (ns : List Nat) (ds : List Flt) (n : Nat) (hn : n ∈ ns) :
    ∃ p ∈ pairUp ns ds, p.1 = n := by
  induction ns generalizing ds with
  | nil => simp at hn
  | cons m rest ih =>
    rw [pairUp]
    rcases List.mem_cons.1 hn with h | h
    · exact ⟨(m, ds.headD Flt.nan), List.mem_cons_self _ _, h.symm⟩
    · obtain ⟨p, hp, hp1⟩ := ih ds.tail h
      exact ⟨p, List.mem_cons_of_mem _ hp, hp1⟩

theorem fallbackLoop_inv (charRoi : List Bool) (nbrs : List (Nat × Flt)) (acc : Int × Flt)
    (hacc : acc.1 = -1) : FallbackInv charRoi nbrs (fallbackLoop charRoi nbrs acc) := by
  induction nbrs using List.reverseRecOn with
  | nil =>
    refine ⟨?_, ?_⟩
    · simp [fallbackLoop, hacc]
    · intro h
      exact absurd hacc h
  | append_singleton l x ih =>
    have hfold : fallbackLoop charRoi (l ++ [x]) acc
        = fallbackStep charRoi (fallbackLoop charRoi l acc) x := by
      simp [fallbackLoop, List.foldl_append]
    rw [hfold]
    generalize fallbackLoop charRoi l acc = res at ih
    obtain ⟨ih1, ih2⟩ := ih
    have hcast : ((x.1 : Int)) ≠ -1 := by omega
    by_cases hx : charRoi.getD x.1 false = true
    · by_cases hres : res.1 = -1
      · -- first valid neighbour
        have hstep : fallbackStep charRoi res x = ((x.1 : Int), x.2) := by
          unfold fallbackStep
          rw [if_pos]
          rw [hx]
          simp [hres]
        rw [hstep]
        have hnone := ih1.1 hres
        refine ⟨?_, ?_⟩
        · constructor
          · intro h
            exact absurd h hcast
          · intro h
            have := h x (by simp)
            rw [hx] at this
            exact Bool.noConfusion this
        · intro _
          refine ⟨l, x, [], rfl, rfl, hx, ?_, ?_⟩
          · intro q hq hqv
            rcases List.mem_append.1 hq with h | h
            · rw [hnone q h] at hqv
              exact Bool.noConfusion hqv
            · rw [List.mem_singleton.1 h]
              exact flt_lt_irrefl _
          · intro q hq hqv
            rw [hnone q hq] at hqv
            exact Bool.noConfusion hqv
      · obtain ⟨pre, p, post, hl, hresp, hpv, hmin, hpre⟩ := ih2 hres
        by_cases hlt : x.2.lt res.2 = true
        · -- strictly closer valid neighbour
          have hstep : fallbackStep charRoi res x = ((x.1 : Int), x.2) := by
            unfold fallbackStep
            rw [if_pos]
            rw [hx, hlt]
            simp
          rw [hstep]
          have hp2 : res.2 = p.2 := by rw [hresp]
          rw [hp2] at hlt
          refine ⟨?_, ?_⟩
          · constructor
            · intro h
              exact absurd h hcast
            · intro h
              have := h x (by simp)
              rw [hx] at this
              exact Bool.noConfusion this
          · intro _
            refine ⟨l, x, [], rfl, rfl, hx, ?_, ?_⟩
            · intro q hq hqv
              rcases List.mem_append.1 hq with h | h
              · cases hqx : q.2.lt x.2 with
                | false => rfl
                | true =>
                  have := flt_lt_trans hqx hlt
                  rw [hmin q h hqv] at this
                  exact Bool.noConfusion this
              · rw [List.mem_singleton.1 h]
                exact flt_lt_irrefl _
            · intro q hq hqv hqe
              have := hmin q hq hqv
              rw [hqe, hlt] at this
              exact Bool.noConfusion this
        · -- valid neighbour that is not strictly closer
          have hlt2 : x.2.lt res.2 = false := by simpa using hlt
          have hstep : fallbackStep charRoi res x = res := by
            unfold fallbackStep
            rw [if_neg]
            rw [hx, hlt2]
            simp [hres]
          rw [hstep]
          refine ⟨?_, ?_⟩
          · constructor
            · intro h
              exact absurd h hres
            · intro h
              have := h x (by simp)
              rw [hx] at this
              exact Bool.noConfusion this
          · intro _
            refine ⟨pre, p, post ++ [x], by simp [hl], hresp, hpv, ?_, hpre⟩
            intro q hq hqv
            rcases List.mem_append.1 hq with h | h
            · exact hmin q h hqv
            · rw [List.mem_singleton.1 h]
              have hp2 : res.2 = p.2 := by rw [hresp]
              rw [← hp2]
              exact hlt2
    · -- neighbour that is not valid
      have hx2 : charRoi.getD x.1 false = false := by simpa using hx
      have hstep : fallbackStep charRoi res x = res := by
        unfold fallbackStep
        rw [if_neg]
        rw [hx2]
        simp
      rw [hstep]
      refine ⟨?_, ?_⟩
      · constructor
        · intro h q hq
          rcases List.mem_append.1 hq with h1 | h1
          · exact ih1.1 h q h1
          · rw [List.mem_singleton.1 h1]
            exact hx2
        · intro h
          exact ih1.2 (fun q hq => h q (List.mem_append_left _ hq))
      · intro hres
        obtain ⟨pre, p, post, hl, hresp, hpv, hmin, hpre⟩ := ih2 hres
        refine ⟨pre, p, post ++ [x], by simp [hl], hresp, hpv, ?_, hpre⟩
        intro q hq hqv
        rcases List.mem_append.1 hq with h | h
        · exact hmin q h hqv
        · rw [List.mem_singleton.1 h, hx2] at hqv
          exact Bool.noConfusion hqv

theorem resolveClosest_none (topo : TopologyHelper) (geo : GeodesicHelper)
    (charRoi : List Bool) (i : Nat) (distance : Flt)
    (hq : (geo.getClosestNodeInRoi i charRoi distance).1 = -1)
    (hn : ∀ n ∈ topo.getNodeNeighbors i, charRoi.getD n false = false) :
    (resolveClosest topo geo charRoi i distance).1 = -1 := by
  unfold resolveClosest
  simp only [hq, beq_self_eq_true, if_true]
  apply (fallbackLoop_inv charRoi _ _ hq).1.2
  intro q hqm
  exact hn q.1 (mem_pairUp_fst _ _ _ hqm)

theorem directValue_none (A : Arith) (topo : TopologyHelper) (geo : GeodesicHelper)
    (charRoi : List Bool) (myInputData myAreas : Nat → Flt) (distance : Flt) (nearest : Bool)
    (exponent cutoff : Flt) (i : Nat)
    (h : (resolveClosest topo geo charRoi i distance).1 = -1) :
    directValue A topo geo charRoi myInputData myAreas distance nearest exponent cutoff i
      = Flt.zero := by
  unfold directValue
  simp [h]

theorem directValue_nearest (A : Arith) (topo : TopologyHelper) (geo : GeodesicHelper)
    (charRoi : List Bool) (myInputData myAreas : Nat → Flt) (distance : Flt)
    (exponent cutoff : Flt) (i : Nat)
    (h : (resolveClosest topo geo charRoi i distance).1 ≠ -1) :
    directValue A topo geo charRoi myInputData myAreas distance true exponent cutoff i
      = myInputData (resolveClosest topo geo charRoi i distance).1.toNat := by
  unfold directValue
  simp [h]

theorem precomputeNearest_targets (topo : TopologyHelper) (geo : GeodesicHelper)
    (numNodes : Nat) (badNodeData : Nat → Flt)
    (dataRoiVals : Option (Nat → Flt)) (distance : Flt) :
    (precomputeNearest topo geo numNodes badNodeData dataRoiVals distance).map Prod.fst
      = badVertices numNodes badNodeData := by
  rw [precomputeNearest_eq, List.map_map]
  exact List.map_id _

theorem precomputeStencils_targets (A : Arith) (topo : TopologyHelper) (geo : GeodesicHelper)
    (numNodes : Nat) (myAreas : Nat → Flt) (badNodeData : Nat → Flt)
    (dataRoiVals : Option (Nat → Flt)) (distance exponent : Flt) :
    (precomputeStencils A topo geo numNodes myAreas badNodeData dataRoiVals distance
      exponent).map Prod.fst = badVertices numNodes badNodeData := by
  rw [precomputeStencils_eq, List.map_map]
  exact List.map_id _

theorem classify_getD (numNodes : Nat) (badNodeData : Nat → Flt)
    (dataRoiVals : Option (Nat → Flt)) (v : Nat) (hv : v < numNodes) :
    (classify numNodes badNodeData dataRoiVals).1.getD v false
      = validRule badNodeData dataRoiVals v := by
  rw [classify_eq]
  simp [List.getD_eq_getElem?_getD, hv]

theorem flt_nan_not_gt (b : Flt) : Flt.nan.gt b = false := by
  cases b <;> rfl

theorem validate_isSome_iff (myMetric : MetricFile) (mySurf : SurfaceFile) (distance : Flt)
    (badNodeRoi dataRoi : Option MetricFile) (columnNum : Int) :
    (validate myMetric mySurf distance badNodeRoi dataRoi columnNum).isSome = true ↔
      (mySurf.numberOfNodes ≠ myMetric.numberOfNodes ∨
        (∃ r, badNodeRoi = some r ∧ r.numberOfNodes ≠ mySurf.numberOfNodes) ∨
        (∃ r, dataRoi = some r ∧ r.numberOfNodes ≠ mySurf.numberOfNodes) ∨
        columnNum < -1 ∨ columnNum ≥ (myMetric.numberOfColumns : Int) ∨
        distance.lt Flt.zero = true) := by
  unfold validate
  by_cases h1 : mySurf.numberOfNodes = myMetric.numberOfNodes
  · cases badNodeRoi with
    | some b =>
      by_cases h2 : b.numberOfNodes = mySurf.numberOfNodes
      · cases dataRoi with
        | some d =>
          by_cases h3 : d.numberOfNodes = mySurf.numberOfNodes
          · by_cases h4 : columnNum < -1
            · simp [h1, h2, h3, h4]
            · by_cases h5 : columnNum ≥ (myMetric.numberOfColumns : Int)
              · simp [h1, h2, h3, h4, h5]
              · by_cases h6 : distance.lt Flt.zero = true
                · simp [h1, h2, h3, h4, h5, h6]
                · simp [h1, h2, h3, h4, h5, h6]
          · rw [h1] at h3
            simp [h1, h2, h3]
        | none =>
          by_cases h4 : columnNum < -1
          · simp [h1, h2, h4]
          · by_cases h5 : columnNum ≥ (myMetric.numberOfColumns : Int)
            · simp [h1, h2, h4, h5]
            · by_cases h6 : distance.lt Flt.zero = true
              · simp [h1, h2, h4, h5, h6]
              · simp [h1, h2, h4, h5, h6]
      · rw [h1] at h2
        simp [h1, h2]
    | none =>
      cases dataRoi with
      | some d =>
        by_cases h3 : d.numberOfNodes = mySurf.numberOfNodes
        · by_cases h4 : columnNum < -1
          · simp [h1, h3, h4]
          · by_cases h5 : columnNum ≥ (myMetric.numberOfColumns : Int)
            · simp [h1, h3, h4, h5]
            · by_cases h6 : distance.lt Flt.zero = true
              · simp [h1, h3, h4, h5, h6]
              · simp [h1, h3, h4, h5, h6]
        · rw [h1] at h3
          simp [h1, h3]
      | none =>
        by_cases h4 : columnNum < -1
        · simp [h1, h4]
        · by_cases h5 : columnNum ≥ (myMetric.numberOfColumns : Int)
          · simp [h1, h4, h5]
          · by_cases h6 : distance.lt Flt.zero = true
            · simp [h1, h4, h5, h6]
            · simp [h1, h4, h5, h6]
  · simp [h1]

theorem AlgorithmMetricDilate_error (A : Arith) (myMetric : MetricFile) (mySurf : SurfaceFile)
    (distance : Flt) (myMetricOut : MetricFile) (badNodeRoi dataRoi : Option MetricFile)
    (columnNum : Int) (nearest : Bool) (exponent : Flt) :
    (AlgorithmMetricDilate A myMetric mySurf distance myMetricOut badNodeRoi dataRoi columnNum
      nearest exponent).error = validate myMetric mySurf distance badNodeRoi dataRoi columnNum := by
  unfold AlgorithmMetricDilate
  cases validate myMetric mySurf distance badNodeRoi dataRoi columnNum <;> rfl

theorem flt_lt_total {a b : Flt} (ha : a ≠ Flt.nan) (hb : b ≠ Flt.nan)
    (h : b.lt a = false) : a = b ∨ a.lt b = true := by
  cases a <;> cases b <;> simp_all [Flt.lt]
  exact eq_or_lt_of_le h

theorem exactArith_exact : ExactArith exactArith where
  mulF_fin := fun _ _ => rfl
  addF_fin := fun _ _ => rfl
  divF_fin := fun x y hy => by simp [exactArith, hy]
  addD_fin := fun _ _ => rfl
  divD_fin := fun x y hy => by simp [exactArith, hy]

theorem stencilEntries_eq_map (A : Arith) (geo : GeodesicHelper) (charRoi : List Bool)
    (myAreas : Nat → Flt) (exponent cutoff : Flt) (i : Nat) (closestDist : Flt) :
    stencilEntries A geo charRoi myAreas exponent cutoff i closestDist
      = (validCandidates A geo charRoi cutoff i closestDist).map
          (fun p => (p.1, weight A (myAreas p.1) p.2 closestDist exponent)) := rfl

theorem foldl_addF_fin (A : Arith) (hA : ExactArith A) (es : List (Nat × ℚ)) (s0 : ℚ) :
    (finEntries es).foldl (fun s e => A.addF s e.2) (Flt.fin s0)
      = Flt.fin (s0 + (es.map Prod.snd).sum) := by
  induction es generalizing s0 with
  | nil => simp [finEntries]
  | cons e rest ih =>
    have hcons : finEntries (e :: rest) = (e.1, Flt.fin e.2) :: finEntries rest := rfl
    rw [hcons, List.foldl_cons, hA.addF_fin, ih]
    simp [add_assoc]

theorem weightSum_fin (A : Arith) (hA : ExactArith A) (es : List (Nat × ℚ)) :
    weightSum A (finEntries es) = Flt.fin ((es.map Prod.snd).sum) := by
  unfold weightSum Flt.zero
  rw [foldl_addF_fin A hA]
  simp

theorem foldl_addD_mul_fin (A : Arith) (hA : ExactArith A) (x : Nat → ℚ)
    (es : List (Nat × ℚ)) (s0 : ℚ) :
    (finEntries es).foldl
        (fun accum w => A.addD accum (A.mulF ((fun i => Flt.fin (x i)) w.1) w.2)) (Flt.fin s0)
      = Flt.fin (s0 + (es.map (fun e => x e.1 * e.2)).sum) := by
  induction es generalizing s0 with
  | nil => simp [finEntries]
  | cons e rest ih =>
    have hcons : finEntries (e :: rest) = (e.1, Flt.fin e.2) :: finEntries rest := rfl
    rw [hcons, List.foldl_cons]
    simp only []
    rw [hA.mulF_fin, hA.addD_fin, ih]
    simp [add_assoc]

theorem stencilAccum_fin (A : Arith) (hA : ExactArith A) (x : Nat → ℚ)
    (es : List (Nat × ℚ)) :
    stencilAccum A (fun i => Flt.fin (x i)) (finEntries es)
      = Flt.fin ((es.map (fun e => x e.1 * e.2)).sum) := by
  unfold stencilAccum Flt.zero
  rw [foldl_addD_mul_fin A hA]
  simp

theorem foldl_addF_mul_fin (A : Arith) (hA : ExactArith A) (x : Nat → ℚ)
    (es : List (Nat × ℚ)) (s0 : ℚ) :
    (finEntries es).foldl
        (fun s e => A.addF s (A.mulF ((fun i => Flt.fin (x i)) e.1) e.2)) (Flt.fin s0)
      = Flt.fin (s0 + (es.map (fun e => x e.1 * e.2)).sum) := by
  induction es generalizing s0 with
  | nil => simp [finEntries]
  | cons e rest ih =>
    have hcons : finEntries (e :: rest) = (e.1, Flt.fin e.2) :: finEntries rest := rfl
    rw [hcons, List.foldl_cons]
    simp only []
    rw [hA.mulF_fin, hA.addF_fin, ih]
    simp [add_assoc]

theorem directAccum_fin (A : Arith) (hA : ExactArith A) (x : Nat → ℚ)
    (es : List (Nat × ℚ)) :
    directAccum A (fun i => Flt.fin (x i)) (finEntries es)
      = Flt.fin ((es.map (fun e => x e.1 * e.2)).sum) := by
  unfold directAccum Flt.zero
  rw [foldl_addF_mul_fin A hA]
  simp

/-- A non-empty stored stencil comes from a resolved closest vertex and a weight
sum that is not zero, and is the list of entries with its weight sum. -/
theorem stencilFor_nonempty (A : Arith) (topo : TopologyHelper) (geo : GeodesicHelper)
    (charRoi : List Bool) (myAreas : Nat → Flt) (distance exponent cutoff : Flt) (i : Nat)
    (hne : (stencilFor A topo geo charRoi myAreas distance exponent cutoff i).m_weightlist
      ≠ []) :
    (resolveClosest topo geo charRoi i distance).1 ≠ -1 ∧
    (weightSum A (stencilEntries A geo charRoi myAreas exponent cutoff i
      (resolveClosest topo geo charRoi i distance).2)).eqF Flt.zero = false ∧
    stencilFor A topo geo charRoi myAreas distance exponent cutoff i
      = ⟨stencilEntries A geo charRoi myAreas exponent cutoff i
          (resolveClosest topo geo charRoi i distance).2,
        weightSum A (stencilEntries A geo charRoi myAreas exponent cutoff i
          (resolveClosest topo geo charRoi i distance).2)⟩ := by
  have hst := stencilFor_eq A topo geo charRoi myAreas distance exponent cutoff i
  by_cases hr : (resolveClosest topo geo charRoi i distance).1 = -1
  · rw [if_pos hr] at hst
    rw [hst] at hne
    exact absurd rfl hne
  · rw [if_neg hr] at hst
    by_cases hz : (weightSum A (stencilEntries A geo charRoi myAreas exponent cutoff i
        (resolveClosest topo geo charRoi i distance).2)).eqF Flt.zero = true
    · rw [if_pos hz] at hst
      rw [hst] at hne
      exact absurd rfl hne
    · rw [if_neg hz] at hst
      exact ⟨hr, by simpa using hz, hst⟩

theorem exactArith_pow_two (q : ℚ) :
    exactArith.powF (Flt.fin q) (Flt.fin 2) = Flt.fin (q ^ 2) := by
  simp [exactArith]

theorem exactArith_pow_two_pos (q : ℚ) (hq : 0 < q) :
    ∃ r : ℚ, 0 < r ∧ exactArith.powF (Flt.fin q) (Flt.fin 2) = Flt.fin r :=
  ⟨q ^ 2, by positivity, exactArith_pow_two q⟩

theorem exactArith_pow_two_mono (p q rp rq : ℚ) (hp : 0 < p) (hpq : p ≤ q)
    (h1 : exactArith.powF (Flt.fin p) (Flt.fin 2) = Flt.fin rp)
    (h2 : exactArith.powF (Flt.fin q) (Flt.fin 2) = Flt.fin rq) : rp ≤ rq := by
  rw [exactArith_pow_two] at h1 h2
  have e1 : p ^ 2 = rp := by injection h1
  have e2 : q ^ 2 = rq := by injection h2
  rw [← e1, ← e2]
  nlinarith [hp, hpq]

theorem flt_eqF_fin_zero (w : ℚ) : (Flt.fin w).eqF Flt.zero = decide (w = 0) := by
  simp [Flt.eqF, Flt.zero]

theorem flt_neF_fin_zero (w : ℚ) : (Flt.fin w).neF Flt.zero = !decide (w = 0) := by
  simp [Flt.neF, flt_eqF_fin_zero]

theorem sum_snd_const (l : List (Nat × Flt)) (a : ℚ) :
    ((l.map (fun p => (p.1, a))).map Prod.snd).sum = (l.length : ℚ) * a := by
  induction l with
  | nil => simp
  | cons p rest ih =>
    simp only [List.map_cons, List.sum_cons, List.length_cons, ih]
    push_cast
    ring

theorem sum_mul_const (l : List (Nat × Flt)) (x : Nat → ℚ) (a : ℚ) :
    ((l.map (fun p => (p.1, a))).map (fun e => x e.1 * e.2)).sum
      = (l.map (fun p => x p.1)).sum * a := by
  induction l with
  | nil => simp
  | cons p rest ih =>
    simp only [List.map_cons, List.sum_cons, ih]
    ring

/-- In exact arithmetic with `pow(1, e) = 1`, a candidate at the nearest distance
`d ≠ 0` has its area as weight. -/
theorem weight_at_closest (A : Arith) (hA : ExactArith A) (a d : ℚ) (hd : d ≠ 0)
    (exponent : Flt) (hpow : A.powF (Flt.fin 1) exponent = Flt.fin 1) :
    weight A (Flt.fin a) (Flt.fin d) (Flt.fin d) exponent = Flt.fin a := by
  unfold weight
  simp only []
  rw [hA.divF_fin d d hd, div_self hd]
  have hgt : (Flt.fin 1).gt tolerance = true := by
    simp only [Flt.gt, Flt.lt, tolerance, decide_eq_true_eq]
    norm_num
  rw [if_pos hgt, hpow, hA.divF_fin a 1 one_ne_zero, div_one]

/-- The output at a bad vertex whose resolved closest vertex exists and whose
entries are `(source, w)` pairs with rational weights of nonzero sum, for a
column of finite values, in exact arithmetic: the quotient of the two sums. -/
theorem processColumnStencils_fin (A : Arith) (hA : ExactArith A) (topo : TopologyHelper)
    (geo : GeodesicHelper) (colScratch : Nat → Flt) (x : Nat → ℚ) (numNodes : Nat)
    (myAreas badNodeData : Nat → Flt) (dataRoiVals : Option (Nat → Flt))
    (distance exponent : Flt) (v : Nat) (hv : v < numNodes)
    (hb : (badNodeData v).gt Flt.zero = true)
    (hres : (resolveClosest topo geo (classify numNodes badNodeData dataRoiVals).1 v
      distance).1 ≠ -1)
    (es : List (Nat × ℚ))
    (hent : stencilEntries A geo (classify numNodes badNodeData dataRoiVals).1 myAreas
      exponent (cutoffRatio A exponent) v
      (resolveClosest topo geo (classify numNodes badNodeData dataRoiVals).1 v distance).2
      = finEntries es)
    (hsum : (es.map Prod.snd).sum ≠ 0) :
    processColumnStencils A colScratch numNodes (fun i => Flt.fin (x i))
      (precomputeStencils A topo geo numNodes myAreas badNodeData dataRoiVals distance
        exponent) v
      = Flt.fin ((es.map (fun e => x e.1 * e.2)).sum / (es.map Prod.snd).sum) := by
  rw [processColumnStencils_precompute A topo geo colScratch _ numNodes myAreas badNodeData
    dataRoiVals distance exponent v hv hb, stencilFor_eq, if_neg hres, hent,
    weightSum_fin A hA]
  have hz : ¬ (Flt.fin ((es.map Prod.snd).sum)).eqF Flt.zero = true := by
    rw [flt_eqF_fin_zero]
    simpa using hsum
  rw [if_neg hz]
  have hlen : (finEntries es).length > 0 := by
    cases es with
    | nil => simp at hsum
    | cons e rest => simp [finEntries]
  show (if (finEntries es).length > 0 then
      A.divD (stencilAccum A (fun i => Flt.fin (x i)) (finEntries es))
        (Flt.fin ((es.map Prod.snd).sum))
    else Flt.zero) = _
  rw [if_pos hlen, stencilAccum_fin A hA, hA.divD_fin _ _ hsum]

theorem foldl_directStep (A : Arith) (charRoi : List Bool) (myAreas myInputData : Nat → Flt)
    (closestDist exponent : Flt) (cands : List (Nat × Flt)) (st : Flt × Flt) :
    cands.foldl (directStep A charRoi myAreas myInputData closestDist exponent) st
      = (((cands.filter (fun p => charRoi.getD p.1 false)).map
            (fun p => (p.1, weight A (myAreas p.1) p.2 closestDist exponent))).foldl
            (fun s e => A.addF s e.2) st.1,
          ((cands.filter (fun p => charRoi.getD p.1 false)).map
            (fun p => (p.1, weight A (myAreas p.1) p.2 closestDist exponent))).foldl
            (fun s e => A.addF s (A.mulF (myInputData e.1) e.2)) st.2) := by
  induction cands generalizing st with
  | nil => simp
  | cons p rest ih =>
    rw [List.foldl_cons]
    by_cases hp : charRoi.getD p.1 false = true
    · have hs : directStep A charRoi myAreas myInputData closestDist exponent st p
          = (A.addF st.1 (weight A (myAreas p.1) p.2 closestDist exponent),
              A.addF st.2 (A.mulF (myInputData p.1)
                (weight A (myAreas p.1) p.2 closestDist exponent))) := by
        unfold directStep
        rw [if_pos hp]
      have hf : (p :: rest).filter (fun p => charRoi.getD p.1 false)
          = p :: rest.filter (fun p => charRoi.getD p.1 false) :=
        List.filter_cons_of_pos hp
      rw [hs, ih, hf]
      simp only [List.map_cons, List.foldl_cons]
    · have hs : directStep A charRoi myAreas myInputData closestDist exponent st p = st := by
        unfold directStep
        rw [if_neg hp]
      have hf : (p :: rest).filter (fun p => charRoi.getD p.1 false)
          = rest.filter (fun p => charRoi.getD p.1 false) :=
        List.filter_cons_of_neg hp
      rw [hs, ih, hf]

/-- The weighted value the direct path computes, in terms of `stencilEntries`. -/
theorem directValue_weighted (A : Arith) (topo : TopologyHelper) (geo : GeodesicHelper)
    (charRoi : List Bool) (myInputData myAreas : Nat → Flt) (distance : Flt)
    (exponent cutoff : Flt) (i : Nat) :
    directValue A topo geo charRoi myInputData myAreas distance false exponent cutoff i
      = if (resolveClosest topo geo charRoi i distance).1 = -1 then Flt.zero
        else if (weightSum A (stencilEntries A geo charRoi myAreas exponent cutoff i
            (resolveClosest topo geo charRoi i distance).2)).neF Flt.zero = true then
          A.divF
            (directAccum A myInputData (stencilEntries A geo charRoi myAreas exponent cutoff i
              (resolveClosest topo geo charRoi i distance).2))
            (weightSum A (stencilEntries A geo charRoi myAreas exponent cutoff i
              (resolveClosest topo geo charRoi i distance).2))
        else Flt.zero := by
  unfold directValue
  by_cases hr : (resolveClosest topo geo charRoi i distance).1 = -1
  · simp [hr]
  · have hb : ((resolveClosest topo geo charRoi i distance).1 == -1) = false := by
      simpa using hr
    simp only [hb, Bool.false_eq_true, if_false, hr]
    rw [foldl_directStep]
    rfl

/-- In an exact arithmetic whose `pow` is positive on positive bases and in which
an infinite ratio, if one arises, gives a finite non-negative weight, the weight
of a non-negative finite area is a non-negative finite value, whatever the two
distances are. -/
theorem weight_nonneg (A : Arith) (hA : ExactArith A) (exponent : Flt)
    (hinf : ∀ p q : Flt, A.divF p q = Flt.pinf → ∀ a : ℚ, 0 ≤ a →
      ∃ w : ℚ, 0 ≤ w ∧ A.divF (Flt.fin a) (A.powF Flt.pinf exponent) = Flt.fin w)
    (hpow : ∀ q : ℚ, 0 < q → ∃ r : ℚ, 0 < r ∧ A.powF (Flt.fin q) exponent = Flt.fin r)
    (a : ℚ) (ha : 0 ≤ a) (dist closestDist : Flt) :
    ∃ w : ℚ, 0 ≤ w ∧ weight A (Flt.fin a) dist closestDist exponent = Flt.fin w := by
  have htol : (0 : ℚ) < 15099494 / 16777216 := by norm_num
  unfold weight
  simp only []
  by_cases hgt : (A.divF dist closestDist).gt tolerance = true
  · rw [if_pos hgt]
    cases hq : A.divF dist closestDist with
    | nan => rw [hq] at hgt; simp [Flt.gt, Flt.lt, tolerance] at hgt
    | ninf => rw [hq] at hgt; simp [Flt.gt, Flt.lt, tolerance] at hgt
    | pinf => exact hinf dist closestDist hq a ha
    | fin q =>
      rw [hq] at hgt
      have hq0 : (15099494 : ℚ) / 16777216 < q := by
        simpa [Flt.gt, Flt.lt, tolerance] using hgt
      obtain ⟨r, hr0, hr⟩ := hpow q (lt_trans htol hq0)
      refine ⟨a / r, div_nonneg ha (le_of_lt hr0), ?_⟩
      rw [hr, hA.divF_fin a r (ne_of_gt hr0)]
  · rw [if_neg hgt]
    obtain ⟨t, ht0, ht⟩ := hpow (15099494 / 16777216) htol
    have ht' : A.powF tolerance exponent = Flt.fin t := ht
    refine ⟨a / t, div_nonneg ha (le_of_lt ht0), ?_⟩
    rw [ht', hA.divF_fin a t (ne_of_gt ht0)]

theorem exists_finEntries (l : List (Nat × Flt))
    (h : ∀ e ∈ l, ∃ w : ℚ, 0 ≤ w ∧ e.2 = Flt.fin w) :
    ∃ es : List (Nat × ℚ), l = finEntries es ∧ ∀ e ∈ es, 0 ≤ e.2 := by
  induction l with
  | nil => exact ⟨[], rfl, by simp⟩
  | cons e rest ih =>
    obtain ⟨es, hes, hnn⟩ := ih (fun e1 he1 => h e1 (List.mem_cons_of_mem _ he1))
    obtain ⟨w, hw, hew⟩ := h e (List.mem_cons_self _ _)
    refine ⟨(e.1, w) :: es, ?_, ?_⟩
    · have : e = (e.1, Flt.fin w) := by rw [← hew]
      rw [this, hes]
      rfl
    · intro e1 he1
      rcases List.mem_cons.1 he1 with h1 | h1
      · rw [h1]; exact hw
      · exact hnn e1 h1

/-- The entries of a stencil have non-negative finite weights. -/
theorem stencilEntries_nonneg (A : Arith) (hA : ExactArith A) (geo : GeodesicHelper)
    (charRoi : List Bool) (ar : Nat → ℚ) (har : ∀ i, 0 ≤ ar i) (exponent cutoff : Flt)
    (hinf : ∀ p q : Flt, A.divF p q = Flt.pinf → ∀ a : ℚ, 0 ≤ a →
      ∃ w : ℚ, 0 ≤ w ∧ A.divF (Flt.fin a) (A.powF Flt.pinf exponent) = Flt.fin w)
    (hpow : ∀ q : ℚ, 0 < q → ∃ r : ℚ, 0 < r ∧ A.powF (Flt.fin q) exponent = Flt.fin r)
    (i : Nat) (closestDist : Flt) :
    ∃ es : List (Nat × ℚ),
      stencilEntries A geo charRoi (fun j => Flt.fin (ar j)) exponent cutoff i closestDist
        = finEntries es ∧ ∀ e ∈ es, 0 ≤ e.2 := by
  apply exists_finEntries
  intro e he
  rw [stencilEntries_eq_map, List.mem_map] at he
  obtain ⟨p, _, rfl⟩ := he
  exact weight_nonneg A hA exponent hinf hpow (ar p.1) (har p.1) p.2 closestDist

theorem sum_snd_nonneg (es : List (Nat × ℚ)) (h : ∀ e ∈ es, 0 ≤ e.2) :
    0 ≤ (es.map Prod.snd).sum := by
  apply List.sum_nonneg
  intro y hy
  rw [List.mem_map] at hy
  obtain ⟨e, he, rfl⟩ := hy
  exact h e he

theorem sum_mul_nonneg (es : List (Nat × ℚ)) (x : Nat → ℚ) (hx : ∀ i, 0 ≤ x i)
    (h : ∀ e ∈ es, 0 ≤ e.2) : 0 ≤ (es.map (fun e => x e.1 * e.2)).sum := by
  apply List.sum_nonneg
  intro y hy
  rw [List.mem_map] at hy
  obtain ⟨e, he, rfl⟩ := hy
  exact mul_nonneg (hx e.1) (h e he)

theorem processColumnNearest_precompute_not_bad (topo : TopologyHelper)
    (geo : GeodesicHelper) (colScratch myInputData : Nat → Flt) (numNodes : Nat)
    (badNodeData : Nat → Flt) (dataRoiVals : Option (Nat → Flt))
    (distance : Flt) (v : Nat) (hv : v < numNodes)
    (hb : (badNodeData v).gt Flt.zero = false) :
    processColumnNearest colScratch numNodes myInputData
        (precomputeNearest topo geo numNodes badNodeData dataRoiVals distance) v
      = myInputData v := by
  rw [processColumnNearest_eq, foldl_update_of_not_target (fun e : Nat × Int => e.1),
    precopy_apply, if_pos hv]
  intro e he
  rw [precomputeNearest_eq, List.mem_map] at he
  obtain ⟨i, hi, rfl⟩ := he
  intro hiv
  have := ((mem_badVertices _ _ _).1 hi).2
  simp only at hiv
  rw [hiv, hb] at this
  exact Bool.noConfusion this

theorem processColumnStencils_precompute_not_bad (A : Arith) (topo : TopologyHelper)
    (geo : GeodesicHelper) (colScratch myInputData : Nat → Flt) (numNodes : Nat)
    (myAreas badNodeData : Nat → Flt) (dataRoiVals : Option (Nat → Flt))
    (distance exponent : Flt) (v : Nat) (hv : v < numNodes)
    (hb : (badNodeData v).gt Flt.zero = false) :
    processColumnStencils A colScratch numNodes myInputData
        (precomputeStencils A topo geo numNodes myAreas badNodeData dataRoiVals distance
          exponent) v
      = myInputData v := by
  rw [processColumnStencils_eq, foldl_update_of_not_target (fun e : Nat × StencilElem => e.1),
    precopy_apply, if_pos hv]
  intro e he
  rw [precomputeStencils_eq, List.mem_map] at he
  obtain ⟨i, hi, rfl⟩ := he
  intro hiv
  have := ((mem_badVertices _ _ _).1 hi).2
  simp only at hiv
  rw [hiv, hb] at this
  exact Bool.noConfusion this

theorem exactArith_div_ne_pinf (p q : Flt) : exactArith.divF p q ≠ Flt.pinf := by
  cases p <;> cases q <;> simp [exactArith]
  split <;> simp

theorem exactArith_no_pinf {exponent : Flt} (p q : Flt) (h : exactArith.divF p q = Flt.pinf)
    (a : ℚ) (_ : 0 ≤ a) :
    ∃ w : ℚ, 0 ≤ w ∧ exactArith.divF (Flt.fin a) (exactArith.powF Flt.pinf exponent)
      = Flt.fin w :=
  absurd h (exactArith_div_ne_pinf p q)

theorem lineInputQ_nonneg (i : Nat) : 0 ≤ lineInputQ i := by
  unfold lineInputQ
  split <;> norm_num

/-- The value of a stencil entry built from non-negative finite weights, for a
column of non-negative finite values, is a non-negative finite value. -/
theorem stencilValue_nonneg (A : Arith) (hA : ExactArith A) (x : Nat → ℚ)
    (hx : ∀ i, 0 ≤ x i) (v : Nat) (es : List (Nat × ℚ)) (hes : ∀ e ∈ es, 0 ≤ e.2)
    (hz : (es.map Prod.snd).sum ≠ 0) :
    ∃ y : ℚ, 0 ≤ y ∧
      stencilValue A (fun i => Flt.fin (x i))
        (v, ⟨finEntries es, Flt.fin ((es.map Prod.snd).sum)⟩) = Flt.fin y := by
  refine ⟨(es.map (fun e => x e.1 * e.2)).sum / (es.map Prod.snd).sum,
    div_nonneg (sum_mul_nonneg es x hx hes) (sum_snd_nonneg es hes), ?_⟩
  have hlen : (finEntries es).length > 0 := by
    cases es with
    | nil => simp at hz
    | cons e rest => simp [finEntries]
  show (if (finEntries es).length > 0 then
      A.divD (stencilAccum A (fun i => Flt.fin (x i)) (finEntries es))
        (Flt.fin ((es.map Prod.snd).sum))
    else Flt.zero) = _
  rw [if_pos hlen, stencilAccum_fin A hA, hA.divD_fin _ _ hz]

/-- Started from two states with `closestNode == -1`, the neighbour loop ends with
the same `closestNode`, and with the same `closestDist` when one is found. -/
theorem fallbackLoop_acc_indep (charRoi : List Bool) (nbrs : List (Nat × Flt))
    (acc1 acc2 : Int × Flt) (h1 : acc1.1 = -1) (h2 : acc2.1 = -1) :
    (fallbackLoop charRoi nbrs acc1).1 = (fallbackLoop charRoi nbrs acc2).1 ∧
    ((fallbackLoop charRoi nbrs acc1).1 ≠ -1 →
      fallbackLoop charRoi nbrs acc1 = fallbackLoop charRoi nbrs acc2) := by
  induction nbrs generalizing acc1 acc2 with
  | nil =>
    refine ⟨?_, ?_⟩
    · show acc1.1 = acc2.1
      rw [h1, h2]
    · intro h
      exact absurd h1 h
  | cons p rest ih =>
    have hc1 : fallbackLoop charRoi (p :: rest) acc1
        = fallbackLoop charRoi rest (fallbackStep charRoi acc1 p) := rfl
    have hc2 : fallbackLoop charRoi (p :: rest) acc2
        = fallbackLoop charRoi rest (fallbackStep charRoi acc2 p) := rfl
    rw [hc1, hc2]
    by_cases hp : charRoi.getD p.1 false = true
    · have hs1 : fallbackStep charRoi acc1 p = ((p.1 : Int), p.2) := by
        unfold fallbackStep
        rw [if_pos]
        rw [hp]
        simp [h1]
      have hs2 : fallbackStep charRoi acc2 p = ((p.1 : Int), p.2) := by
        unfold fallbackStep
        rw [if_pos]
        rw [hp]
        simp [h2]
      rw [hs1, hs2]
      exact ⟨rfl, fun _ => rfl⟩
    · have hs1 : fallbackStep charRoi acc1 p = acc1 := by
        unfold fallbackStep
        rw [if_neg]
        intro h
        apply hp
        simp only [Bool.and_eq_true] at h
        exact h.1
      have hs2 : fallbackStep charRoi acc2 p = acc2 := by
        unfold fallbackStep
        rw [if_neg]
        intro h
        apply hp
        simp only [Bool.and_eq_true] at h
        exact h.1
      rw [hs1, hs2]
      exact ih acc1 acc2 h1 h2

/-- The stencil of a vertex is the same for two search distances for which the
nearest-valid query gives none both times or gives the same answer. -/
theorem stencilFor_same_query (A : Arith) (topo : TopologyHelper) (geo : GeodesicHelper)
    (charRoi : List Bool) (myAreas : Nat → Flt) (distance1 distance2 exponent cutoff : Flt)
    (i : Nat)
    (h : ((geo.getClosestNodeInRoi i charRoi distance1).1 = -1 ∧
        (geo.getClosestNodeInRoi i charRoi distance2).1 = -1) ∨
      geo.getClosestNodeInRoi i charRoi distance1
        = geo.getClosestNodeInRoi i charRoi distance2) :
    stencilFor A topo geo charRoi myAreas distance1 exponent cutoff i
      = stencilFor A topo geo charRoi myAreas distance2 exponent cutoff i := by
  rcases h with ⟨h1, h2⟩ | h
  · have hr1 : resolveClosest topo geo charRoi i distance1
        = fallbackLoop charRoi
            (pairUp (topo.getNodeNeighbors i)
              (geo.getGeoToTheseNodes i (topo.getNodeNeighbors i)))
            (geo.getClosestNodeInRoi i charRoi distance1) := by
      unfold resolveClosest
      simp only [h1, beq_self_eq_true, if_true]
    have hr2 : resolveClosest topo geo charRoi i distance2
        = fallbackLoop charRoi
            (pairUp (topo.getNodeNeighbors i)
              (geo.getGeoToTheseNodes i (topo.getNodeNeighbors i)))
            (geo.getClosestNodeInRoi i charRoi distance2) := by
      unfold resolveClosest
      simp only [h2, beq_self_eq_true, if_true]
    obtain ⟨hfst, hsame⟩ := fallbackLoop_acc_indep charRoi
      (pairUp (topo.getNodeNeighbors i) (geo.getGeoToTheseNodes i (topo.getNodeNeighbors i)))
      _ _ h1 h2
    rw [← hr1, ← hr2] at hfst hsame
    by_cases hn : (resolveClosest topo geo charRoi i distance1).1 = -1
    · rw [stencilFor_eq, stencilFor_eq A topo geo charRoi myAreas distance2, if_pos hn,
        if_pos (hfst ▸ hn)]
    · unfold stencilFor
      rw [hsame hn]
  · unfold stencilFor resolveClosest
    rw [h]

/-- A loop that writes `rule i` at index `i` over the first `k` indices of a
zero-filled vector. -/
theorem foldl_set_rule (N : Nat) (rule : Nat → Bool)
    (step : List Bool → Nat → List Bool)
    (hstep : ∀ roi i, step roi i = roi.set i (rule i)) (k : Nat) (hk : k ≤ N) :
    (List.range k).foldl step (List.replicate N false)
      = (List.range k).map rule ++ List.replicate (N - k) false := by
  induction k with
  | zero => simp
  | succ k ih =>
    rw [List.range_succ, List.foldl_append, ih (by omega)]
    simp only [List.foldl_cons, List.foldl_nil, hstep]
    have hrep : List.replicate (N - k) false = false :: List.replicate (N - (k + 1)) false := by
      have : N - k = (N - (k + 1)) + 1 := by omega
      rw [this, List.replicate_succ]
    have hlen : ((List.range k).map rule).length = k := by simp
    rw [hrep]
    have hset := set_length_append ((List.range k).map rule) false (rule k)
      (List.replicate (N - (k + 1)) false)
    rw [hlen] at hset
    rw [hset]
    simp

/-- The validity rule of the direct path. -/
theorem directCharRoi_eq (numNodes : Nat) (myInputData : Nat → Flt)
    (dataRoiVals : Option (Nat → Flt)) :
    directCharRoi numNodes myInputData dataRoiVals
      = (List.range numNodes).map (fun i =>
          (match dataRoiVals with
            | none => true
            | some vals => (vals i).gt Flt.zero) && (myInputData i).neF Flt.zero) := by
  cases dataRoiVals with
  | none =>
    have key := foldl_set_rule numNodes (fun i => true && (myInputData i).neF Flt.zero)
      (fun roi i => if (myInputData i).neF Flt.zero then roi.set i true else roi.set i false)
      (by
        intro roi i
        by_cases h : (myInputData i).neF Flt.zero = true
        · simp [h]
        · have h2 : (myInputData i).neF Flt.zero = false := by simpa using h
          simp [h2])
      numNodes (Nat.le_refl _)
    simp only [Nat.sub_self, List.replicate_zero, List.append_nil] at key
    unfold directCharRoi
    exact key
  | some vals =>
    have key := foldl_set_rule numNodes
      (fun i => (vals i).gt Flt.zero && (myInputData i).neF Flt.zero)
      (fun roi i =>
        if (vals i).gt Flt.zero && (myInputData i).neF Flt.zero then roi.set i true
        else roi.set i false)
      (by
        intro roi i
        by_cases h : ((vals i).gt Flt.zero && (myInputData i).neF Flt.zero) = true
        · simp [h]
        · have h2 : ((vals i).gt Flt.zero && (myInputData i).neF Flt.zero) = false := by
            simpa using h
          simp [h2])
      numNodes (Nat.le_refl _)
    simp only [Nat.sub_self, List.replicate_zero, List.append_nil] at key
    unfold directCharRoi
    exact key

/-- With a bad-vertex ROI that is positive exactly on the vertices the direct
path fills, the two paths build the same validity mask. -/
theorem classify_eq_directCharRoi (numNodes : Nat) (myInputData badNodeData : Nat → Flt)
    (dataRoiVals : Option (Nat → Flt))
    (hbad : ∀ i, i < numNodes →
      (badNodeData i).gt Flt.zero = directIsBad myInputData dataRoiVals i) :
    (classify numNodes badNodeData dataRoiVals).1
      = directCharRoi numNodes myInputData dataRoiVals := by
  rw [classify_eq, directCharRoi_eq]
  apply List.map_congr_left
  intro i hi
  have hlt : i < numNodes := List.mem_range.1 hi
  unfold validRule
  rw [hbad i hlt]
  unfold directIsBad Flt.neF
  cases dataRoiVals with
  | none => simp
  | some vals =>
    show (!((vals i).gt Flt.zero && (myInputData i).eqF Flt.zero) && (vals i).gt Flt.zero)
      = ((vals i).gt Flt.zero && !(myInputData i).eqF Flt.zero)
    cases (vals i).gt Flt.zero <;> cases (myInputData i).eqF Flt.zero <;> rfl

theorem weightSum_nil (A : Arith) : weightSum A [] = Flt.zero := rfl

theorem flt_eqF_zero_zero : Flt.zero.eqF Flt.zero = true := by
  simp [Flt.eqF, Flt.zero]

theorem processColumn_apply_ge (A : Arith) (topo : TopologyHelper) (geo : GeodesicHelper)
    (colScratch : Nat → Flt) (myInputData : Nat → Flt) (numNodes : Nat) (myAreas : Nat → Flt)
    (dataRoiVals : Option (Nat → Flt)) (distance : Flt) (nearest : Bool) (exponent : Flt)
    (v : Nat) (hv : ¬ v < numNodes) :
    processColumn A topo geo colScratch myInputData numNodes myAreas dataRoiVals distance
        nearest exponent v = colScratch v := by
  have key := foldl_range_update
    (fun i => if directIsBad myInputData dataRoiVals i then
        directValue A topo geo (directCharRoi numNodes myInputData dataRoiVals) myInputData
          myAreas distance nearest exponent (cutoffRatio A exponent) i
      else myInputData i) colScratch numNodes v
  rw [if_neg hv] at key
  have hf : (fun (col : Nat → Flt) (i : Nat) =>
      if directIsBad myInputData dataRoiVals i then
        Function.update col i
          (directValue A topo geo (directCharRoi numNodes myInputData dataRoiVals) myInputData
            myAreas distance nearest exponent (cutoffRatio A exponent) i)
      else Function.update col i (myInputData i))
      = (fun col i => Function.update col i
          (if directIsBad myInputData dataRoiVals i then
            directValue A topo geo (directCharRoi numNodes myInputData dataRoiVals) myInputData
              myAreas distance nearest exponent (cutoffRatio A exponent) i
          else myInputData i)) := by
    funext col i
    split <;> rfl
  exact (congrArg (fun f => List.foldl f colScratch (List.range numNodes) v) hf).trans key

theorem processColumnNearest_precompute_ge (topo : TopologyHelper)
    (geo : GeodesicHelper) (colScratch myInputData : Nat → Flt) (numNodes : Nat)
    (badNodeData : Nat → Flt) (dataRoiVals : Option (Nat → Flt))
    (distance : Flt) (v : Nat) (hv : ¬ v < numNodes) :
    processColumnNearest colScratch numNodes myInputData
        (precomputeNearest topo geo numNodes badNodeData dataRoiVals distance) v
      = colScratch v := by
  rw [processColumnNearest_eq, foldl_update_of_not_target (fun e : Nat × Int => e.1),
    precopy_apply, if_neg hv]
  intro e he
  rw [precomputeNearest_eq, List.mem_map] at he
  obtain ⟨i, hi, rfl⟩ := he
  intro hiv
  have := ((mem_badVertices _ _ _).1 hi).1
  simp only at hiv
  rw [hiv] at this
  exact hv this

theorem processColumnStencils_precompute_ge (A : Arith) (topo : TopologyHelper)
    (geo : GeodesicHelper) (colScratch myInputData : Nat → Flt) (numNodes : Nat)
    (myAreas badNodeData : Nat → Flt) (dataRoiVals : Option (Nat → Flt))
    (distance exponent : Flt) (v : Nat) (hv : ¬ v < numNodes) :
    processColumnStencils A colScratch numNodes myInputData
        (precomputeStencils A topo geo numNodes myAreas badNodeData dataRoiVals distance
          exponent) v
      = colScratch v := by
  rw [processColumnStencils_eq, foldl_update_of_not_target (fun e : Nat × StencilElem => e.1),
    precopy_apply, if_neg hv]
  intro e he
  rw [precomputeStencils_eq, List.mem_map] at he
  obtain ⟨i, hi, rfl⟩ := he
  intro hiv
  have := ((mem_badVertices _ _ _).1 hi).1
  simp only at hiv
  rw [hiv] at this
  exact hv this

/-- When `double` and `float` addition agree, the two accumulations agree. -/
theorem stencilAccum_eq_directAccum (A : Arith) (hadd : A.addD = A.addF)
    (myInputData : Nat → Flt) (entries : List (Nat × Flt)) :
    stencilAccum A myInputData entries = directAccum A myInputData entries := by
  unfold stencilAccum directAccum
  rw [hadd]

/-- When `double` and `float` arithmetic agree, the value the stencil applier
writes for the stored stencil of a vertex is the weighted value of the direct
path. -/
theorem stencilValue_eq_directValue (A : Arith) (hadd : A.addD = A.addF)
    (hdiv : A.divD = A.divF) (topo : TopologyHelper) (geo : GeodesicHelper)
    (charRoi : List Bool) (myInputData myAreas : Nat → Flt) (distance : Flt)
    (exponent cutoff : Flt) (v : Nat) :
    stencilValue A myInputData
        (v, stencilFor A topo geo charRoi myAreas distance exponent cutoff v)
      = directValue A topo geo charRoi myInputData myAreas distance false exponent cutoff v := by
  rw [directValue_weighted, stencilFor_eq]
  by_cases hr : (resolveClosest topo geo charRoi v distance).1 = -1
  · rw [if_pos hr, if_pos hr]
    rfl
  · rw [if_neg hr, if_neg hr]
    generalize stencilEntries A geo charRoi myAreas exponent cutoff v
      (resolveClosest topo geo charRoi v distance).2 = entries
    by_cases hz : (weightSum A entries).eqF Flt.zero = true
    · have hnz : ¬ (weightSum A entries).neF Flt.zero = true := by
        unfold Flt.neF
        rw [hz]
        simp
      rw [if_pos hz, if_neg hnz]
      rfl
    · have hnz : (weightSum A entries).neF Flt.zero = true := by
        unfold Flt.neF
        simpa using hz
      rw [if_neg hz, if_pos hnz]
      have hlen : entries.length > 0 := by
        cases entries with
        | nil =>
          exfalso
          apply hz
          rw [weightSum_nil]
          exact flt_eqF_zero_zero
        | cons e rest => simp
      show (if entries.length > 0 then
          A.divD (stencilAccum A myInputData entries) (weightSum A entries)
        else Flt.zero) = _
      rw [if_pos hlen, stencilAccum_eq_directAccum A hadd, hdiv]

theorem resolveClosest_of_query_none (topo : TopologyHelper) (geo : GeodesicHelper)
    (charRoi : List Bool) (i : Nat) (distance : Flt)
    (hq : (geo.getClosestNodeInRoi i charRoi distance).1 = -1) :
    resolveClosest topo geo charRoi i distance
      = fallbackLoop charRoi
          (pairUp (topo.getNodeNeighbors i)
            (geo.getGeoToTheseNodes i (topo.getNodeNeighbors i)))
          (geo.getClosestNodeInRoi i charRoi distance) := by
  unfold resolveClosest
  simp only [hq, beq_self_eq_true, if_true]

theorem resolveClosest_of_query_some (topo : TopologyHelper) (geo : GeodesicHelper)
    (charRoi : List Bool) (i : Nat) (distance : Flt)
    (hq : (geo.getClosestNodeInRoi i charRoi distance).1 ≠ -1) :
    resolveClosest topo geo charRoi i distance = geo.getClosestNodeInRoi i charRoi distance := by
  unfold resolveClosest
  have hb : ((geo.getClosestNodeInRoi i charRoi distance).1 == -1) = false := by
    simpa using hq
  simp only [hb, Bool.false_eq_true, if_false]

/-- A vertex with a valid direct neighbour is always resolved. -/
theorem resolveClosest_resolved (topo : TopologyHelper) (geo : GeodesicHelper)
    (charRoi : List Bool) (i : Nat) (distance : Flt)
    (hex : ∃ n ∈ topo.getNodeNeighbors i, charRoi.getD n false = true) :
    (resolveClosest topo geo charRoi i distance).1 ≠ -1 := by
  obtain ⟨n, hn, hnv⟩ := hex
  by_cases hq : (geo.getClosestNodeInRoi i charRoi distance).1 = -1
  · rw [resolveClosest_of_query_none topo geo charRoi i distance hq]
    intro h
    have inv := fallbackLoop_inv charRoi
      (pairUp (topo.getNodeNeighbors i) (geo.getGeoToTheseNodes i (topo.getNodeNeighbors i)))
      _ hq
    obtain ⟨p, hp, hp1⟩ := exists_mem_pairUp (topo.getNodeNeighbors i)
      (geo.getGeoToTheseNodes i (topo.getNodeNeighbors i)) n hn
    have := inv.1.1 h p hp
    rw [hp1, hnv] at this
    exact Bool.noConfusion this
  · rw [resolveClosest_of_query_some topo geo charRoi i distance hq]
    exact hq

/-- When the query finds nothing, a resolved closest vertex is a valid direct
neighbour. -/
theorem resolveClosest_fallback_valid (topo : TopologyHelper) (geo : GeodesicHelper)
    (charRoi : List Bool) (i : Nat) (distance : Flt)
    (hq : (geo.getClosestNodeInRoi i charRoi distance).1 = -1)
    (hr : (resolveClosest topo geo charRoi i distance).1 ≠ -1) :
    ∃ n ∈ topo.getNodeNeighbors i, charRoi.getD n false = true ∧
      (resolveClosest topo geo charRoi i distance).1 = (n : Int) := by
  have inv := fallbackLoop_inv charRoi
    (pairUp (topo.getNodeNeighbors i) (geo.getGeoToTheseNodes i (topo.getNodeNeighbors i)))
    _ hq
  rw [← resolveClosest_of_query_none topo geo charRoi i distance hq] at inv
  obtain ⟨pre, p, post, hl, hp, hpv, _, _⟩ := inv.2 hr
  have hpm : p ∈ pairUp (topo.getNodeNeighbors i)
      (geo.getGeoToTheseNodes i (topo.getNodeNeighbors i)) := by
    rw [hl]
    simp
  exact ⟨p.1, mem_pairUp_fst _ _ p hpm, hpv, by rw [hp]⟩

/-- Every source of the entries of a stencil has a true validity-mask entry. -/
theorem stencilEntries_valid (A : Arith) (geo : GeodesicHelper) (charRoi : List Bool)
    (myAreas : Nat → Flt) (exponent cutoff : Flt) (i : Nat) (closestDist : Flt)
    (e : Nat × Flt)
    (he : e ∈ stencilEntries A geo charRoi myAreas exponent cutoff i closestDist) :
    charRoi.getD e.1 false = true := by
  rw [stencilEntries_eq_map, List.mem_map] at he
  obtain ⟨p, hp, rfl⟩ := he
  unfold validCandidates at hp
  exact (List.mem_filter.1 hp).2

/-- Every source of a stored stencil has a true validity-mask entry. -/
theorem stencilFor_valid (A : Arith) (topo : TopologyHelper) (geo : GeodesicHelper)
    (charRoi : List Bool) (myAreas : Nat → Flt) (distance exponent cutoff : Flt) (i : Nat)
    (e : Nat × Flt)
    (he : e ∈ (stencilFor A topo geo charRoi myAreas distance exponent cutoff i).m_weightlist) :
    charRoi.getD e.1 false = true := by
  have hne : (stencilFor A topo geo charRoi myAreas distance exponent cutoff i).m_weightlist
      ≠ [] := List.ne_nil_of_mem he
  obtain ⟨_, _, hst⟩ := stencilFor_nonempty A topo geo charRoi myAreas distance exponent
    cutoff i hne
  rw [hst] at he
  exact stencilEntries_valid A geo charRoi myAreas exponent cutoff i _ e he

theorem ieeeArith_exact : ExactArith ieeeArith where
  mulF_fin := fun _ _ => rfl
  addF_fin := fun _ _ => rfl
  divF_fin := fun x y hy => by simp [ieeeArith, hy]
  addD_fin := fun _ _ => rfl
  divD_fin := fun x y hy => by simp [ieeeArith, exactArith, hy]

/-- When `0/0` is NaN, a candidate at distance `0` from a target whose nearest
distance is `0` has the weight `area / 0.9^e`. -/
theorem weight_colocated (A : Arith) (h00 : A.divF (Flt.fin 0) (Flt.fin 0) = Flt.nan)
    (area exponent : Flt) :
    weight A area (Flt.fin 0) (Flt.fin 0) exponent
      = A.divF area (A.powF tolerance exponent) := by
  unfold weight
  simp only []
  rw [h00]
  have : Flt.nan.gt tolerance = false := flt_nan_not_gt _
  rw [this]
  simp

/-- With the IEEE rules for `+inf`, a candidate at a positive distance from a
target whose nearest distance is `0` has the weight `0`. -/
theorem weight_far (A : Arith) (exponent : Flt)
    (hd0 : ∀ d : ℚ, 0 < d → A.divF (Flt.fin d) (Flt.fin 0) = Flt.pinf)
    (hpinf : A.powF Flt.pinf exponent = Flt.pinf)
    (hdivinf : ∀ a : ℚ, A.divF (Flt.fin a) Flt.pinf = Flt.fin 0)
    (a d : ℚ) (hd : 0 < d) :
    weight A (Flt.fin a) (Flt.fin d) (Flt.fin 0) exponent = Flt.fin 0 := by
  unfold weight
  simp only []
  rw [hd0 d hd]
  have : Flt.pinf.gt tolerance = true := rfl
  rw [if_pos this, hpinf, hdivinf]

theorem coLocated_cons_pos (p : Nat × Flt) (rest : List (Nat × Flt)) (h : p.2 = Flt.fin 0) :
    coLocated (p :: rest) = p :: coLocated rest := by
  unfold coLocated
  exact List.filter_cons_of_pos (by simpa using h)

theorem coLocated_cons_neg (p : Nat × Flt) (rest : List (Nat × Flt)) (h : p.2 ≠ Flt.fin 0) :
    coLocated (p :: rest) = coLocated rest := by
  unfold coLocated
  exact List.filter_cons_of_neg (by simpa using h)

theorem sum_weights_coLocated (cands : List (Nat × Flt)) (ar : Nat → ℚ) (t : ℚ) :
    ((cands.map (fun p => (p.1, if p.2 = Flt.fin 0 then ar p.1 / t else 0))).map
        Prod.snd).sum
      = ((coLocated cands).map (fun p => ar p.1)).sum / t := by
  induction cands with
  | nil => simp [coLocated]
  | cons p rest ih =>
    by_cases h : p.2 = Flt.fin 0
    · rw [coLocated_cons_pos p rest h]
      simp only [List.map_cons, List.sum_cons, ih, h, if_true]
      ring
    · rw [coLocated_cons_neg p rest h]
      simp only [List.map_cons, List.sum_cons, ih, h, if_false]
      ring

theorem sum_products_coLocated (cands : List (Nat × Flt)) (x ar : Nat → ℚ) (t : ℚ) :
    ((cands.map (fun p => (p.1, if p.2 = Flt.fin 0 then ar p.1 / t else 0))).map
        (fun e => x e.1 * e.2)).sum
      = ((coLocated cands).map (fun p => x p.1 * ar p.1)).sum / t := by
  induction cands with
  | nil => simp [coLocated]
  | cons p rest ih =>
    by_cases h : p.2 = Flt.fin 0
    · rw [coLocated_cons_pos p rest h]
      simp only [List.map_cons, List.sum_cons, ih, h, if_true]
      ring
    · rw [coLocated_cons_neg p rest h]
      simp only [List.map_cons, List.sum_cons, ih, h, if_false]
      ring

theorem sum_const_area (l : List (Nat × Flt)) (ar : Nat → ℚ) (a : ℚ)
    (h : ∀ p ∈ l, ar p.1 = a) :
    (l.map (fun p => ar p.1)).sum = (l.length : ℚ) * a := by
  induction l with
  | nil => simp
  | cons p rest ih =>
    simp only [List.map_cons, List.sum_cons, List.length_cons,
      ih (fun q hq => h q (List.mem_cons_of_mem _ hq)), h p (List.mem_cons_self _ _)]
    push_cast
    ring

theorem sum_mul_const_area (l : List (Nat × Flt)) (x ar : Nat → ℚ) (a : ℚ)
    (h : ∀ p ∈ l, ar p.1 = a) :
    (l.map (fun p => x p.1 * ar p.1)).sum = (l.map (fun p => x p.1)).sum * a := by
  induction l with
  | nil => simp
  | cons p rest ih =>
    simp only [List.map_cons, List.sum_cons,
      ih (fun q hq => h q (List.mem_cons_of_mem _ hq)), h p (List.mem_cons_self _ _)]
    ring

theorem stack_candidates :
    validCandidates ieeeArith stackGeo (classify 3 stackBad none).1
      (cutoffRatio ieeeArith (Flt.fin 2)) 0 (Flt.fin 0) = [(1, Flt.fin 0), (2, Flt.fin 0)] := by
  decide!

theorem stack_candidates_finite :
    ∀ p ∈ validCandidates ieeeArith stackGeo (classify 3 stackBad none).1
      (cutoffRatio ieeeArith (Flt.fin 2)) 0 (Flt.fin 0), ∃ d : ℚ, 0 ≤ d ∧ p.2 = Flt.fin d := by
  rw [stack_candidates]
  intro p hp
  simp only [List.mem_cons, List.mem_singleton, List.not_mem_nil, or_false] at hp
  rcases hp with h | h <;> exact ⟨0, le_refl _, by rw [h]⟩

theorem stack_area_sum :
    ((coLocated (validCandidates ieeeArith stackGeo (classify 3 stackBad none).1
      (cutoffRatio ieeeArith (Flt.fin 2)) 0 (Flt.fin 0))).map
        (fun p => stackAreasQ p.1)).sum ≠ 0 := by
  rw [stack_candidates]
  decide!

theorem ieeeArith_div_zero (d : ℚ) (hd : 0 < d) :
    ieeeArith.divF (Flt.fin d) (Flt.fin 0) = Flt.pinf := by
  simp [ieeeArith, ne_of_gt hd, hd]

theorem cutoffRatioOfTest_fin (t : ℚ) :
    cutoffRatioOfTest (Flt.fin t)
      = if 1 < t ∧ t < 3 / 2 then
          (if 9227469 / 8388608 < t then Flt.fin t else onePointOne)
        else onePointFive := by
  simp only [cutoffRatioOfTest, Flt.gt, Flt.lt, one, onePointFive, onePointOne,
    Bool.and_eq_true, decide_eq_true_eq]

theorem cutoffRatioOfTest_bounds (test : Flt) :
    ∃ q : ℚ, cutoffRatioOfTest test = Flt.fin q ∧ 9227469 / 8388608 ≤ q ∧ q ≤ 3 / 2 := by
  cases test with
  | nan => exact ⟨3 / 2, rfl, by norm_num, le_refl _⟩
  | ninf => exact ⟨3 / 2, rfl, by norm_num, le_refl _⟩
  | pinf => exact ⟨3 / 2, rfl, by norm_num, le_refl _⟩
  | fin t =>
    rw [cutoffRatioOfTest_fin]
    by_cases h : 1 < t ∧ t < 3 / 2
    · rw [if_pos h]
      by_cases h2 : (9227469 / 8388608 : ℚ) < t
      · rw [if_pos h2]
        exact ⟨t, rfl, le_of_lt h2, le_of_lt h.2⟩
      · rw [if_neg h2]
        exact ⟨9227469 / 8388608, rfl, le_refl _, by norm_num⟩
    · rw [if_neg h]
      exact ⟨3 / 2, rfl, by norm_num, le_refl _⟩

theorem cutoffRatioOfTest_mono (t1 t2 : ℚ) (hgt : 1 < t2) (hle : t2 ≤ t1) :
    ∃ c1 c2 : ℚ, cutoffRatioOfTest (Flt.fin t1) = Flt.fin c1 ∧
      cutoffRatioOfTest (Flt.fin t2) = Flt.fin c2 ∧ c2 ≤ c1 := by
  have E1 := cutoffRatioOfTest_fin t1
  have E2 := cutoffRatioOfTest_fin t2
  have h1 : 1 < t1 := lt_of_lt_of_le hgt hle
  by_cases a1 : t1 < 3 / 2
  · have a2 : t2 < 3 / 2 := lt_of_le_of_lt hle a1
    rw [if_pos (And.intro h1 a1)] at E1
    rw [if_pos (And.intro hgt a2)] at E2
    by_cases b2 : (9227469 / 8388608 : ℚ) < t2
    · rw [if_pos b2] at E2
      rw [if_pos (lt_of_lt_of_le b2 hle)] at E1
      exact ⟨t1, t2, E1, E2, hle⟩
    · rw [if_neg b2] at E2
      by_cases b1 : (9227469 / 8388608 : ℚ) < t1
      · rw [if_pos b1] at E1
        exact ⟨t1, _, E1, E2, le_of_lt b1⟩
      · rw [if_neg b1] at E1
        exact ⟨_, _, E1, E2, le_refl _⟩
  · rw [if_neg (fun h => a1 h.2)] at E1
    obtain ⟨c2, hc2, _, hle2⟩ := cutoffRatioOfTest_bounds (Flt.fin t2)
    exact ⟨3 / 2, c2, E1, hc2, hle2⟩

theorem mem_precomputeStencils (A : Arith) (topo : TopologyHelper) (geo : GeodesicHelper)
    (numNodes : Nat) (myAreas badNodeData : Nat → Flt) (dataRoiVals : Option (Nat → Flt))
    (distance exponent : Flt) (e : Nat × StencilElem) :
    e ∈ precomputeStencils A topo geo numNodes myAreas badNodeData dataRoiVals distance
        exponent ↔
      (e.1 < numNodes ∧ (badNodeData e.1).gt Flt.zero = true) ∧
      e.2 = stencilFor A topo geo (classify numNodes badNodeData dataRoiVals).1 myAreas
        distance exponent (cutoffRatio A exponent) e.1 := by
  rw [precomputeStencils_eq, List.mem_map]
  constructor
  · rintro ⟨i, hi, rfl⟩
    exact ⟨(mem_badVertices _ _ _).1 hi, rfl⟩
  · rintro ⟨hb, h2⟩
    refine ⟨e.1, (mem_badVertices _ _ _).2 hb, ?_⟩
    rw [← h2]

theorem classify_valid (numNodes : Nat) (badNodeData : Nat → Flt)
    (dataRoiVals : Option (Nat → Flt)) (v : Nat)
    (h : (classify numNodes badNodeData dataRoiVals).1.getD v false = true) :
    v < numNodes ∧ validRule badNodeData dataRoiVals v = true := by
  by_cases hv : v < numNodes
  · rw [classify_getD numNodes badNodeData dataRoiVals v hv] at h
    exact ⟨hv, h⟩
  · exfalso
    rw [classify_eq] at h
    rw [List.getD_eq_default _ _ (by simpa using hv)] at h
    exact Bool.noConfusion h

theorem validRule_true (badNodeData : Nat → Flt) (dataRoiVals : Option (Nat → Flt)) (v : Nat)
    (h : validRule badNodeData dataRoiVals v = true) :
    (badNodeData v).gt Flt.zero = false ∧
    (∀ vals, dataRoiVals = some vals → (vals v).gt Flt.zero = true) := by
  unfold validRule at h
  rw [Bool.and_eq_true] at h
  refine ⟨by simpa using h.1, ?_⟩
  intro vals hvals
  have h2 := h.2
  rw [hvals] at h2
  exact h2

theorem stencilValue_empty (A : Arith) (myInputData : Nat → Flt) (e : Nat × StencilElem)
    (h : e.2.m_weightlist = []) : stencilValue A myInputData e = Flt.zero := by
  unfold stencilValue
  rw [h]
  rfl

theorem stencilValue_nonempty (A : Arith) (myInputData : Nat → Flt) (e : Nat × StencilElem)
    (h : e.2.m_weightlist ≠ []) :
    stencilValue A myInputData e
      = A.divD (stencilAccum A myInputData e.2.m_weightlist) e.2.m_weightsum := by
  unfold stencilValue
  rw [if_pos (List.length_pos.2 h)]

theorem foldl_addD_mul_congr (A : Arith) (x1 x2 : Nat → Flt) (l : List (Nat × Flt))
    (h : ∀ w ∈ l, x1 w.1 = x2 w.1) (acc : Flt) :
    l.foldl (fun accum w => A.addD accum (A.mulF (x1 w.1) w.2)) acc
      = l.foldl (fun accum w => A.addD accum (A.mulF (x2 w.1) w.2)) acc := by
  induction l generalizing acc with
  | nil => rfl
  | cons a rest ih =>
    rw [List.foldl_cons, List.foldl_cons, h a (List.mem_cons_self a rest)]
    exact ih (fun w hw => h w (List.mem_cons_of_mem a hw)) _

theorem stencilAccum_congr (A : Arith) (x1 x2 : Nat → Flt) (l : List (Nat × Flt))
    (h : ∀ w ∈ l, x1 w.1 = x2 w.1) : stencilAccum A x1 l = stencilAccum A x2 l :=
  foldl_addD_mul_congr A x1 x2 l h Flt.zero

theorem stencilValue_congr (A : Arith) (x1 x2 : Nat → Flt) (e : Nat × StencilElem)
    (h : ∀ w ∈ e.2.m_weightlist, x1 w.1 = x2 w.1) :
    stencilValue A x1 e = stencilValue A x2 e := by
  unfold stencilValue
  rw [stencilAccum_congr A x1 x2 _ h]

theorem lineInputAlt_agree (i : Nat)
    (h : (classify 3 lineBad none).1.getD i false = true) : lineInput i = lineInputAlt i := by
  unfold lineInputAlt
  by_cases hi : i = 1
  · subst hi
    exact absurd h (by decide)
  · rw [if_neg hi]

theorem sum_mul_bounds (es : List (Nat × ℚ)) (x : Nat → ℚ) (lo hi : ℚ)
    (hnn : ∀ e ∈ es, 0 ≤ e.2) (hb : ∀ e ∈ es, lo ≤ x e.1 ∧ x e.1 ≤ hi) :
    lo * (es.map Prod.snd).sum ≤ (es.map (fun e => x e.1 * e.2)).sum ∧
    (es.map (fun e => x e.1 * e.2)).sum ≤ hi * (es.map Prod.snd).sum := by
  induction es with
  | nil => simp
  | cons a rest ih =>
    obtain ⟨ih1, ih2⟩ := ih (fun e he => hnn e (List.mem_cons_of_mem a he))
      (fun e he => hb e (List.mem_cons_of_mem a he))
    have ha := hnn a (List.mem_cons_self a rest)
    obtain ⟨hb1, hb2⟩ := hb a (List.mem_cons_self a rest)
    simp only [List.map_cons, List.sum_cons]
    constructor
    · nlinarith [mul_le_mul_of_nonneg_right hb1 ha]
    · nlinarith [mul_le_mul_of_nonneg_right hb2 ha]

theorem weighted_mean_bounds (es : List (Nat × ℚ)) (x : Nat → ℚ) (lo hi : ℚ)
    (hnn : ∀ e ∈ es, 0 ≤ e.2) (hz : (es.map Prod.snd).sum ≠ 0)
    (hb : ∀ e ∈ es, lo ≤ x e.1 ∧ x e.1 ≤ hi) :
    lo ≤ (es.map (fun e => x e.1 * e.2)).sum / (es.map Prod.snd).sum ∧
    (es.map (fun e => x e.1 * e.2)).sum / (es.map Prod.snd).sum ≤ hi := by
  have hpos : 0 < (es.map Prod.snd).sum :=
    lt_of_le_of_ne (sum_snd_nonneg es hnn) (Ne.symm hz)
  obtain ⟨h1, h2⟩ := sum_mul_bounds es x lo hi hnn hb
  exact ⟨(le_div_iff₀ hpos).2 h1, (div_le_iff₀ hpos).2 h2⟩

theorem mem_finEntries (es : List (Nat × ℚ)) (e : Nat × ℚ) (he : e ∈ es) :
    (e.1, Flt.fin e.2) ∈ finEntries es :=
  List.mem_map.2 ⟨e, he, rfl⟩

theorem exists_min_max_source (l : List (Nat × Flt)) (x : Nat → ℚ) (hne : l ≠ []) :
    ∃ smin ∈ l, ∃ smax ∈ l, ∀ s ∈ l, x smin.1 ≤ x s.1 ∧ x s.1 ≤ x smax.1 := by
  induction l with
  | nil => exact absurd rfl hne
  | cons a rest ih =>
    by_cases hr : rest = []
    · subst hr
      refine ⟨a, List.mem_cons_self a [], a, List.mem_cons_self a [], ?_⟩
      intro s hs
      rw [List.mem_singleton] at hs
      subst hs
      exact ⟨le_refl _, le_refl _⟩
    · obtain ⟨m, hm, M, hM, hall⟩ := ih hr
      have hmin : ∃ m2 ∈ a :: rest, x m2.1 ≤ x a.1 ∧ x m2.1 ≤ x m.1 := by
        by_cases h : x a.1 ≤ x m.1
        · exact ⟨a, List.mem_cons_self a rest, le_refl _, h⟩
        · exact ⟨m, List.mem_cons_of_mem a hm, le_of_lt (not_le.mp h), le_refl _⟩
      have hmax : ∃ M2 ∈ a :: rest, x a.1 ≤ x M2.1 ∧ x M.1 ≤ x M2.1 := by
        by_cases h : x M.1 ≤ x a.1
        · exact ⟨a, List.mem_cons_self a rest, le_refl _, h⟩
        · exact ⟨M, List.mem_cons_of_mem a hM, le_of_lt (not_le.mp h), le_refl _⟩
      obtain ⟨m2, hm2, hm2a, hm2m⟩ := hmin
      obtain ⟨M2, hM2, hM2a, hM2M⟩ := hmax
      refine ⟨m2, hm2, M2, hM2, ?_⟩
      intro s hs
      rcases List.mem_cons.1 hs with hsa | hsr
      · subst hsa
        exact ⟨hm2a, hM2a⟩
      · exact ⟨le_trans hm2m (hall s hsr).1, le_trans (hall s hsr).2 hM2M⟩

theorem foldl_update_mem {β : Type} (tgt : β → Nat) (val : β → Flt) (l : List β)
    (hnd : (l.map tgt).Nodup) (c : Nat → Flt) (e : β) (he : e ∈ l) :
    l.foldl (fun col e => Function.update col (tgt e) (val e)) c (tgt e) = val e := by
  induction l generalizing c with
  | nil => exact absurd he (List.not_mem_nil e)
  | cons a rest ih =>
    rw [List.map_cons, List.nodup_cons] at hnd
    rw [List.foldl_cons]
    rcases List.mem_cons.1 he with hea | her
    · subst hea
      rw [foldl_update_of_not_target tgt val rest _ (tgt e)
        (fun e2 he2 heq => hnd.1 (List.mem_map.2 ⟨e2, he2, heq⟩))]
      exact Function.update_same _ _ _
    · exact ih hnd.2 _ her

theorem foldl_update_perm {β : Type} (tgt : β → Nat) (val : β → Flt) (l1 l2 : List β)
    (hp : l1.Perm l2) (hnd : (l1.map tgt).Nodup) (c : Nat → Flt) :
    l1.foldl (fun col e => Function.update col (tgt e) (val e)) c
      = l2.foldl (fun col e => Function.update col (tgt e) (val e)) c := by
  have hnd2 : (l2.map tgt).Nodup := (hp.map tgt).nodup_iff.1 hnd
  funext v
  by_cases h : ∃ e ∈ l1, tgt e = v
  · obtain ⟨e, he, rfl⟩ := h
    rw [foldl_update_mem tgt val l1 hnd c e he,
      foldl_update_mem tgt val l2 hnd2 c e (hp.mem_iff.1 he)]
  · have h1 : ∀ e ∈ l1, tgt e ≠ v := fun e he heq => h ⟨e, he, heq⟩
    have h2 : ∀ e ∈ l2, tgt e ≠ v := fun e he heq => h ⟨e, hp.mem_iff.2 he, heq⟩
    rw [foldl_update_of_not_target tgt val l1 c v h1,
      foldl_update_of_not_target tgt val l2 c v h2]

theorem processColumnStencils_perm (A : Arith) (colScratch : Nat → Flt) (numNodes : Nat)
    (myInputData : Nat → Flt) (l1 l2 : List (Nat × StencilElem)) (hp : l1.Perm l2)
    (hnd : (l1.map Prod.fst).Nodup) :
    processColumnStencils A colScratch numNodes myInputData l1
      = processColumnStencils A colScratch numNodes myInputData l2 := by
  rw [processColumnStencils_eq, processColumnStencils_eq]
  exact foldl_update_perm Prod.fst (stencilValue A myInputData) l1 l2 hp hnd _

theorem processColumnNearest_perm (colScratch : Nat → Flt) (numNodes : Nat)
    (myInputData : Nat → Flt) (l1 l2 : List (Nat × Int)) (hp : l1.Perm l2)
    (hnd : (l1.map Prod.fst).Nodup) :
    processColumnNearest colScratch numNodes myInputData l1
      = processColumnNearest colScratch numNodes myInputData l2 := by
  rw [processColumnNearest_eq, processColumnNearest_eq]
  exact foldl_update_perm Prod.fst (nearestValue myInputData) l1 l2 hp hnd _

theorem compactLoopIn_eq {β : Type} (order : List Nat) (badNodeData : Nat → Flt)
    (entry : Nat → β) (slots : List β)
    (h : slots.length = (order.filter (fun i => (badNodeData i).gt Flt.zero)).length) :
    (compactLoopIn order badNodeData entry slots).1
      = (order.filter (fun i => (badNodeData i).gt Flt.zero)).map entry := by
  have key := compactLoop_aux badNodeData entry order [] slots h
  unfold compactLoopIn
  simp only [List.nil_append, List.length_nil] at key
  rw [key]

theorem filter_order_perm (order : List Nat) (numNodes : Nat) (badNodeData : Nat → Flt)
    (horder : order.Perm (List.range numNodes)) :
    (order.filter (fun i => (badNodeData i).gt Flt.zero)).Perm
      (badVertices numNodes badNodeData) :=
  horder.filter _

theorem precomputeStencilsIn_eq (order : List Nat) (A : Arith) (topo : TopologyHelper)
    (geo : GeodesicHelper) (numNodes : Nat) (myAreas : Nat → Flt) (badNodeData : Nat → Flt)
    (dataRoiVals : Option (Nat → Flt)) (distance exponent : Flt)
    (horder : order.Perm (List.range numNodes)) :
    precomputeStencilsIn order A topo geo numNodes myAreas badNodeData dataRoiVals distance
        exponent
      = (order.filter (fun i => (badNodeData i).gt Flt.zero)).map (fun i =>
          (i, stencilFor A topo geo (classify numNodes badNodeData dataRoiVals).1 myAreas
            distance exponent (cutoffRatio A exponent) i)) := by
  unfold precomputeStencilsIn
  apply compactLoopIn_eq
  rw [List.length_replicate, classify_eq]
  exact ((filter_order_perm order numNodes badNodeData horder).length_eq).symm

theorem precomputeNearestIn_eq (order : List Nat) (topo : TopologyHelper)
    (geo : GeodesicHelper) (numNodes : Nat) (badNodeData : Nat → Flt)
    (dataRoiVals : Option (Nat → Flt)) (distance : Flt)
    (horder : order.Perm (List.range numNodes)) :
    precomputeNearestIn order topo geo numNodes badNodeData dataRoiVals distance
      = (order.filter (fun i => (badNodeData i).gt Flt.zero)).map (fun i =>
          (i, (resolveClosest topo geo (classify numNodes badNodeData dataRoiVals).1 i
            distance).1)) := by
  unfold precomputeNearestIn
  apply compactLoopIn_eq
  rw [List.length_replicate, classify_eq]
  exact ((filter_order_perm order numNodes badNodeData horder).length_eq).symm

theorem nearestValue_congr (x1 x2 : Nat → Flt) (e : Nat × Int)
    (h : e.2 ≠ -1 → x1 e.2.toNat = x2 e.2.toNat) :
    nearestValue x1 e = nearestValue x2 e := by
  unfold nearestValue
  by_cases he : e.2 = -1
  · rw [if_neg (by simp [he]), if_neg (by simp [he])]
  · rw [if_pos (by simpa using he), if_pos (by simpa using he)]
    exact h he

theorem resolveClosest_valid (topo : TopologyHelper) (geo : GeodesicHelper)
    (charRoi : List Bool) (i : Nat) (distance : Flt)
    (hq : (geo.getClosestNodeInRoi i charRoi distance).1 ≠ -1 →
      0 ≤ (geo.getClosestNodeInRoi i charRoi distance).1 ∧
      charRoi.getD (geo.getClosestNodeInRoi i charRoi distance).1.toNat false = true)
    (hr : (resolveClosest topo geo charRoi i distance).1 ≠ -1) :
    charRoi.getD (resolveClosest topo geo charRoi i distance).1.toNat false = true := by
  by_cases h : (geo.getClosestNodeInRoi i charRoi distance).1 = -1
  · obtain ⟨n, _, hn, heq⟩ := resolveClosest_fallback_valid topo geo charRoi i distance h hr
    rw [heq, Int.toNat_ofNat]
    exact hn
  · rw [resolveClosest_of_query_some topo geo charRoi i distance h]
    exact (hq h).2

theorem foldl_update_congr {β : Type} (tgt : β → Nat) (val : β → Flt) (l : List β)
    (c1 c2 : Nat → Flt) (v : Nat) (h : c1 v = c2 v) :
    l.foldl (fun col e => Function.update col (tgt e) (val e)) c1 v
      = l.foldl (fun col e => Function.update col (tgt e) (val e)) c2 v := by
  induction l generalizing c1 c2 with
  | nil => exact h
  | cons a rest ih =>
    rw [List.foldl_cons, List.foldl_cons]
    apply ih
    by_cases hv : v = tgt a
    · rw [hv, Function.update_same, Function.update_same]
    · rw [Function.update_noteq hv, Function.update_noteq hv]
      exact h

theorem processColumnStencils_scratch (A : Arith) (c1 c2 : Nat → Flt) (numNodes : Nat)
    (myInputData : Nat → Flt) (myStencils : List (Nat × StencilElem)) (v : Nat)
    (hv : v < numNodes) :
    processColumnStencils A c1 numNodes myInputData myStencils v
      = processColumnStencils A c2 numNodes myInputData myStencils v := by
  rw [processColumnStencils_eq, processColumnStencils_eq]
  apply foldl_update_congr Prod.fst (stencilValue A myInputData)
  rw [precopy_apply, precopy_apply, if_pos hv, if_pos hv]

theorem processColumnNearest_scratch (c1 c2 : Nat → Flt) (numNodes : Nat)
    (myInputData : Nat → Flt) (myNearest : List (Nat × Int)) (v : Nat)
    (hv : v < numNodes) :
    processColumnNearest c1 numNodes myInputData myNearest v
      = processColumnNearest c2 numNodes myInputData myNearest v := by
  rw [processColumnNearest_eq, processColumnNearest_eq]
  apply foldl_update_congr Prod.fst (nearestValue myInputData)
  rw [precopy_apply, precopy_apply, if_pos hv, if_pos hv]

theorem processColumn_scratch (A : Arith) (topo : TopologyHelper) (geo : GeodesicHelper)
    (c1 c2 : Nat → Flt) (myInputData : Nat → Flt) (numNodes : Nat) (myAreas : Nat → Flt)
    (dataRoiVals : Option (Nat → Flt)) (distance : Flt) (nearest : Bool) (exponent : Flt)
    (v : Nat) (hv : v < numNodes) :
    processColumn A topo geo c1 myInputData numNodes myAreas dataRoiVals distance nearest
        exponent v
      = processColumn A topo geo c2 myInputData numNodes myAreas dataRoiVals distance nearest
        exponent v := by
  rw [processColumn_apply A topo geo c1 myInputData numNodes myAreas dataRoiVals distance
      nearest exponent v hv,
    processColumn_apply A topo geo c2 myInputData numNodes myAreas dataRoiVals distance
      nearest exponent v hv]

theorem runColumn_ready (A : Arith) (myMetric : MetricFile) (mySurf : SurfaceFile)
    (distance : Flt) (badNodeRoi dataRoi : Option MetricFile) (nearest : Bool)
    (exponent : Flt) (inCol : Nat) (l : Locals)
    (h : ListsReady A mySurf distance badNodeRoi dataRoi nearest exponent l) :
    ListsReady A mySurf distance badNodeRoi dataRoi nearest exponent
      (runColumn A myMetric mySurf distance badNodeRoi dataRoi nearest exponent inCol l) := by
  cases badNodeRoi with
  | none => exact True.intro
  | some bad =>
    cases nearest with
    | true => exact h
    | false => exact h

theorem runColumn_colScratch (A : Arith) (myMetric : MetricFile) (mySurf : SurfaceFile)
    (distance : Flt) (badNodeRoi dataRoi : Option MetricFile) (nearest : Bool)
    (exponent : Flt) (inCol : Nat) (l : Locals)
    (h : ListsReady A mySurf distance badNodeRoi dataRoi nearest exponent l)
    (i : Nat) (hi : i < mySurf.numberOfNodes) :
    (runColumn A myMetric mySurf distance badNodeRoi dataRoi nearest exponent inCol
        l).colScratch i
      = dilateColumn A mySurf distance badNodeRoi dataRoi nearest exponent
          (myMetric.values inCol) i := by
  cases badNodeRoi with
  | none =>
    exact processColumn_scratch A _ _ _ _ _ _ _ _ _ _ _ i hi
  | some bad =>
    cases nearest with
    | true =>
      have h2 : l.myNearest = precomputeNearest mySurf.topologyHelper mySurf.geodesicHelper
          mySurf.numberOfNodes (bad.values 0) (dataRoi.map (fun r => r.values 0)) distance :=
        h
      show processColumnNearest l.colScratch mySurf.numberOfNodes (myMetric.values inCol)
          l.myNearest i = _
      rw [h2]
      exact processColumnNearest_scratch _ _ _ _ _ i hi
    | false =>
      have h2 : l.myStencils = precomputeStencils A mySurf.topologyHelper
          mySurf.geodesicHelper mySurf.numberOfNodes mySurf.nodeAreas (bad.values 0)
          (dataRoi.map (fun r => r.values 0)) distance exponent := h
      show processColumnStencils A l.colScratch mySurf.numberOfNodes (myMetric.values inCol)
          l.myStencils i = _
      rw [h2]
      exact processColumnStencils_scratch A _ _ _ _ _ i hi

theorem columnStep_values (A : Arith) (myMetric : MetricFile) (mySurf : SurfaceFile)
    (distance : Flt) (badNodeRoi dataRoi : Option MetricFile) (nearest : Bool)
    (exponent : Flt) (st : DilateState) (c k i : Nat) :
    (columnStep A myMetric mySurf distance badNodeRoi dataRoi nearest exponent st
        c).myMetricOut.values k i
      = if k = c then
          (if i < st.myMetricOut.numberOfNodes then
            (runColumn A myMetric mySurf distance badNodeRoi dataRoi nearest exponent c
              st.locals).colScratch i
          else st.myMetricOut.values c i)
        else st.myMetricOut.values k i := by
  unfold columnStep MetricFile.setValuesForColumn MetricFile.setColumnName
    MetricFile.setPalette
  by_cases hk : k = c
  · subst hk
    simp only [Function.update_same, if_true]
  · simp only [Function.update_noteq hk, if_neg hk]

theorem columnStep_shape (A : Arith) (myMetric : MetricFile) (mySurf : SurfaceFile)
    (distance : Flt) (badNodeRoi dataRoi : Option MetricFile) (nearest : Bool)
    (exponent : Flt) (st : DilateState) (c : Nat) :
    (columnStep A myMetric mySurf distance badNodeRoi dataRoi nearest exponent st
        c).myMetricOut.numberOfNodes = st.myMetricOut.numberOfNodes ∧
    (columnStep A myMetric mySurf distance badNodeRoi dataRoi nearest exponent st
        c).myMetricOut.numberOfColumns = st.myMetricOut.numberOfColumns ∧
    (columnStep A myMetric mySurf distance badNodeRoi dataRoi nearest exponent st c).locals
      = runColumn A myMetric mySurf distance badNodeRoi dataRoi nearest exponent c
          st.locals :=
  ⟨rfl, rfl, rfl⟩

theorem foldl_columnStep (A : Arith) (myMetric : MetricFile) (mySurf : SurfaceFile)
    (distance : Flt) (badNodeRoi dataRoi : Option MetricFile) (nearest : Bool)
    (exponent : Flt) (st : DilateState)
    (hn : st.myMetricOut.numberOfNodes = mySurf.numberOfNodes)
    (hl : ListsReady A mySurf distance badNodeRoi dataRoi nearest exponent st.locals)
    (m : Nat) :
    ListsReady A mySurf distance badNodeRoi dataRoi nearest exponent
      ((List.range m).foldl
        (columnStep A myMetric mySurf distance badNodeRoi dataRoi nearest exponent)
        st).locals ∧
    ((List.range m).foldl
        (columnStep A myMetric mySurf distance badNodeRoi dataRoi nearest exponent)
        st).myMetricOut.numberOfNodes = mySurf.numberOfNodes ∧
    ((List.range m).foldl
        (columnStep A myMetric mySurf distance badNodeRoi dataRoi nearest exponent)
        st).myMetricOut.numberOfColumns = st.myMetricOut.numberOfColumns ∧
    (∀ k i, k < m → i < mySurf.numberOfNodes →
      ((List.range m).foldl
          (columnStep A myMetric mySurf distance badNodeRoi dataRoi nearest exponent)
          st).myMetricOut.values k i
        = dilateColumn A mySurf distance badNodeRoi dataRoi nearest exponent
            (myMetric.values k) i) := by
  induction m with
  | zero =>
    exact ⟨hl, hn, rfl, fun k i hk _ => absurd hk (Nat.not_lt_zero k)⟩
  | succ m ih =>
    obtain ⟨ihl, ihn, ihc, ihv⟩ := ih
    rw [List.range_succ, List.foldl_append, List.foldl_cons, List.foldl_nil]
    obtain ⟨sn, sc, sl⟩ := columnStep_shape A myMetric mySurf distance badNodeRoi dataRoi
      nearest exponent
      ((List.range m).foldl
        (columnStep A myMetric mySurf distance badNodeRoi dataRoi nearest exponent) st) m
    refine ⟨?_, ?_, ?_, ?_⟩
    · rw [sl]
      exact runColumn_ready A myMetric mySurf distance badNodeRoi dataRoi nearest exponent m
        _ ihl
    · rw [sn]
      exact ihn
    · rw [sc]
      exact ihc
    · intro k i hk hi
      rw [columnStep_values]
      by_cases hkm : k = m
      · rw [if_pos hkm, ihn, if_pos hi, hkm]
        exact runColumn_colScratch A myMetric mySurf distance badNodeRoi dataRoi nearest
          exponent m _ ihl i hi
      · rw [if_neg hkm]
        exact ihv k i (lt_of_le_of_ne (Nat.lt_succ_iff.1 hk) hkm) hi

theorem dilateBody_all_columns (A : Arith) (myMetric : MetricFile) (mySurf : SurfaceFile)
    (distance : Flt) (badNodeRoi dataRoi : Option MetricFile) (nearest : Bool)
    (exponent : Flt) (myMetricOut : MetricFile) :
    (dilateBody A myMetric mySurf distance badNodeRoi dataRoi (-1) nearest exponent
        myMetricOut).myMetricOut.numberOfColumns = myMetric.numberOfColumns ∧
    (dilateBody A myMetric mySurf distance badNodeRoi dataRoi (-1) nearest exponent
        myMetricOut).myMetricOut.numberOfNodes = mySurf.numberOfNodes ∧
    (∀ k i, k < myMetric.numberOfColumns → i < mySurf.numberOfNodes →
      (dilateBody A myMetric mySurf distance badNodeRoi dataRoi (-1) nearest exponent
          myMetricOut).myMetricOut.values k i
        = dilateColumn A mySurf distance badNodeRoi dataRoi nearest exponent
            (myMetric.values k) i) := by
  cases badNodeRoi with
  | none =>
    have key := foldl_columnStep A myMetric mySurf distance none dataRoi nearest exponent
      { myMetricOut := (myMetricOut.setStructure mySurf.m_structure).setNumberOfNodesAndColumns
          mySurf.numberOfNodes myMetric.numberOfColumns,
        locals := ⟨[], [], fun _ => Flt.zero⟩,
        steps := [] } rfl True.intro myMetric.numberOfColumns
    exact ⟨key.2.2.1, key.2.1, key.2.2.2⟩
  | some bad =>
    cases nearest with
    | true =>
      have key := foldl_columnStep A myMetric mySurf distance (some bad) dataRoi true exponent
        { myMetricOut :=
            (myMetricOut.setStructure mySurf.m_structure).setNumberOfNodesAndColumns
              mySurf.numberOfNodes myMetric.numberOfColumns,
          locals := ⟨[], precomputeNearest mySurf.topologyHelper mySurf.geodesicHelper
            mySurf.numberOfNodes (bad.values 0) (dataRoi.map (fun r => r.values 0)) distance,
            fun _ => Flt.zero⟩,
          steps := [Step.precomputeNearest] } rfl rfl myMetric.numberOfColumns
      exact ⟨key.2.2.1, key.2.1, key.2.2.2⟩
    | false =>
      have key := foldl_columnStep A myMetric mySurf distance (some bad) dataRoi false
        exponent
        { myMetricOut :=
            (myMetricOut.setStructure mySurf.m_structure).setNumberOfNodesAndColumns
              mySurf.numberOfNodes myMetric.numberOfColumns,
          locals := ⟨precomputeStencils A mySurf.topologyHelper mySurf.geodesicHelper
            mySurf.numberOfNodes mySurf.nodeAreas (bad.values 0)
            (dataRoi.map (fun r => r.values 0)) distance exponent, [],
            fun _ => Flt.zero⟩,
          steps := [Step.precomputeStencils] } rfl rfl myMetric.numberOfColumns
      exact ⟨key.2.2.1, key.2.1, key.2.2.2⟩

theorem int_natCast_beq_neg_one (k : Nat) : ((k : Int) == -1) = false := by
  rw [beq_eq_false_iff_ne]
  omega

theorem setValuesForColumn_values (m : MetricFile) (c : Nat) (vals : Nat → Flt) (i : Nat)
    (hi : i < m.numberOfNodes) : (m.setValuesForColumn c vals).values c i = vals i := by
  unfold MetricFile.setValuesForColumn
  simp only [Function.update_same, if_pos hi]

theorem dilateBody_one_column (A : Arith) (myMetric : MetricFile) (mySurf : SurfaceFile)
    (distance : Flt) (badNodeRoi dataRoi : Option MetricFile) (nearest : Bool)
    (exponent : Flt) (myMetricOut : MetricFile) (k : Nat) :
    (dilateBody A myMetric mySurf distance badNodeRoi dataRoi (k : Int) nearest exponent
        myMetricOut).myMetricOut.numberOfColumns = 1 ∧
    (dilateBody A myMetric mySurf distance badNodeRoi dataRoi (k : Int) nearest exponent
        myMetricOut).myMetricOut.numberOfNodes = mySurf.numberOfNodes ∧
    (∀ i, i < mySurf.numberOfNodes →
      (dilateBody A myMetric mySurf distance badNodeRoi dataRoi (k : Int) nearest exponent
          myMetricOut).myMetricOut.values 0 i
        = dilateColumn A mySurf distance badNodeRoi dataRoi nearest exponent
            (myMetric.values k) i) := by
  unfold dilateBody
  simp only [int_natCast_beq_neg_one, Bool.false_eq_true, if_false, Int.toNat_ofNat]
  refine ⟨rfl, rfl, ?_⟩
  intro i hi
  rw [setValuesForColumn_values _ _ _ _ (by exact hi)]
  cases badNodeRoi with
  | none =>
    exact runColumn_colScratch A myMetric mySurf distance none dataRoi nearest exponent k _
      True.intro i hi
  | some bad =>
    cases nearest with
    | true =>
      refine runColumn_colScratch A myMetric mySurf distance (some bad) dataRoi true exponent
        k _ ?_ i hi
      exact rfl
    | false =>
      refine runColumn_colScratch A myMetric mySurf distance (some bad) dataRoi false
        exponent k _ ?_ i hi
      exact rfl

theorem validate_column (myMetric : MetricFile) (mySurf : SurfaceFile) (distance : Flt)
    (badNodeRoi dataRoi : Option MetricFile) (k : Nat) (hk : k < myMetric.numberOfColumns)
    (h : validate myMetric mySurf distance badNodeRoi dataRoi (-1) = none) :
    validate myMetric mySurf distance badNodeRoi dataRoi (k : Int) = none := by
  have h0 : ¬ (validate myMetric mySurf distance badNodeRoi dataRoi (-1)).isSome = true := by
    rw [h]
    exact Bool.false_ne_true
  rw [validate_isSome_iff] at h0
  by_contra hne
  have hs : (validate myMetric mySurf distance badNodeRoi dataRoi (k : Int)).isSome = true :=
    Option.ne_none_iff_isSome.1 hne
  rw [validate_isSome_iff] at hs
  rcases hs with a | b | c | d | e | f
  · exact h0 (Or.inl a)
  · exact h0 (Or.inr (Or.inl b))
  · exact h0 (Or.inr (Or.inr (Or.inl c)))
  · omega
  · omega
  · exact h0 (Or.inr (Or.inr (Or.inr (Or.inr (Or.inr f)))))

theorem AlgorithmMetricDilate_ok (A : Arith) (myMetric : MetricFile) (mySurf : SurfaceFile)
    (distance : Flt) (myMetricOut : MetricFile) (badNodeRoi dataRoi : Option MetricFile)
    (columnNum : Int) (nearest : Bool) (exponent : Flt)
    (h : validate myMetric mySurf distance badNodeRoi dataRoi columnNum = none) :
    (AlgorithmMetricDilate A myMetric mySurf distance myMetricOut badNodeRoi dataRoi
        columnNum nearest exponent).error = none ∧
    (AlgorithmMetricDilate A myMetric mySurf distance myMetricOut badNodeRoi dataRoi
        columnNum nearest exponent).myMetricOut
      = (dilateBody A myMetric mySurf distance badNodeRoi dataRoi columnNum nearest exponent
          myMetricOut).myMetricOut := by
  unfold AlgorithmMetricDilate
  rw [h]
  exact ⟨rfl, rfl⟩

theorem flt_nn_fin (x : ℚ) : (Flt.fin x).lt Flt.zero = false ↔ 0 ≤ x := by
  simp [Flt.lt, Flt.zero]

theorem pow2_pos (k : Int) : 0 < pow2 k := by
  unfold pow2
  split
  · positivity
  · positivity

theorem roundEven_nonneg (m : ℚ) (hm : 0 ≤ m) : 0 ≤ roundEven m := by
  have hf : (0 : Int) ≤ m.num / (m.den : Int) :=
    Int.ediv_nonneg (Rat.num_nonneg.2 hm) (Int.ofNat_nonneg _)
  unfold roundEven
  simp only []
  split
  · exact hf
  · split
    · omega
    · split
      · exact hf
      · omega

theorem roundMag_nonneg (p : Nat) (emin : Int) (q : ℚ) (hq : 0 ≤ q) :
    0 ≤ roundMag p emin q := by
  unfold roundMag
  simp only []
  apply mul_nonneg
  · exact_mod_cast roundEven_nonneg _ (div_nonneg hq (le_of_lt (pow2_pos _)))
  · exact le_of_lt (pow2_pos _)

theorem roundTo_nn (p : Nat) (emin emax1 : Int) (q : ℚ) (hq : 0 ≤ q) :
    (roundTo p emin emax1 q).lt Flt.zero = false := by
  unfold roundTo
  by_cases h0 : q = 0
  · rw [if_pos h0]
    exact (flt_nn_fin 0).2 (le_refl _)
  · have hpos : 0 < q := lt_of_le_of_ne hq (Ne.symm h0)
    rw [if_neg h0]
    simp only [if_pos hpos]
    split
    · rfl
    · exact (flt_nn_fin _).2 (roundMag_nonneg p emin _ (abs_nonneg q))

theorem flt_nn_cases (a : Flt) (h : a.lt Flt.zero = false) :
    a = Flt.nan ∨ a = Flt.pinf ∨ ∃ q : ℚ, 0 ≤ q ∧ a = Flt.fin q := by
  cases a with
  | nan => exact Or.inl rfl
  | ninf => exact absurd h (by decide)
  | pinf => exact Or.inr (Or.inl rfl)
  | fin q => exact Or.inr (Or.inr ⟨q, (flt_nn_fin q).1 h, rfl⟩)

theorem infOfSign_nn (s : ℚ) (hs : 0 ≤ s) : (infOfSign s).lt Flt.zero = false := by
  unfold infOfSign
  split
  · rfl
  · rw [if_neg (not_lt.2 hs)]
    rfl

theorem extAdd_nn (rnd : ℚ → Flt) (hrnd : ∀ q, 0 ≤ q → (rnd q).lt Flt.zero = false)
    (a b : Flt) (ha : a.lt Flt.zero = false) (hb : b.lt Flt.zero = false) :
    (extAdd rnd a b).lt Flt.zero = false := by
  rcases flt_nn_cases a ha with rfl | rfl | ⟨x, hx, rfl⟩ <;>
    rcases flt_nn_cases b hb with rfl | rfl | ⟨y, hy, rfl⟩ <;>
    first
      | rfl
      | exact hrnd _ (add_nonneg hx hy)

theorem extMul_nn (rnd : ℚ → Flt) (hrnd : ∀ q, 0 ≤ q → (rnd q).lt Flt.zero = false)
    (a b : Flt) (ha : a.lt Flt.zero = false) (hb : b.lt Flt.zero = false) :
    (extMul rnd a b).lt Flt.zero = false := by
  rcases flt_nn_cases a ha with rfl | rfl | ⟨x, hx, rfl⟩ <;>
    rcases flt_nn_cases b hb with rfl | rfl | ⟨y, hy, rfl⟩ <;>
    first
      | rfl
      | exact hrnd _ (mul_nonneg hx hy)
      | exact infOfSign_nn _ hx
      | exact infOfSign_nn _ hy

theorem extDiv_nn (rnd : ℚ → Flt) (hrnd : ∀ q, 0 ≤ q → (rnd q).lt Flt.zero = false)
    (a b : Flt) (ha : a.lt Flt.zero = false) (hb : b.lt Flt.zero = false) :
    (extDiv rnd a b).lt Flt.zero = false := by
  rcases flt_nn_cases a ha with rfl | rfl | ⟨x, hx, rfl⟩ <;>
    rcases flt_nn_cases b hb with rfl | rfl | ⟨y, hy, rfl⟩ <;>
    first
      | rfl
      | (show (if 0 ≤ y then Flt.pinf else Flt.ninf).lt Flt.zero = false
         rw [if_pos hy]
         rfl)
      | (show (if y = 0 then infOfSign x else rnd (x / y)).lt Flt.zero = false
         split
         · exact infOfSign_nn _ hx
         · exact hrnd _ (div_nonneg hx hy))

theorem floatArith_nonneg : NonNegArith floatArith where
  mulF_nn := extMul_nn roundF (roundTo_nn 24 (-126) 128)
  addF_nn := extAdd_nn roundF (roundTo_nn 24 (-126) 128)
  divF_nn := extDiv_nn roundF (roundTo_nn 24 (-126) 128)
  powF_nn := by
    intro a b ha
    rcases flt_nn_cases a ha with rfl | rfl | ⟨x, hx, rfl⟩
    · rfl
    · cases b with
      | fin y =>
        show (if 0 < y then Flt.pinf else if y = 0 then Flt.fin 1 else Flt.fin 0).lt Flt.zero
          = false
        split
        · rfl
        · split
          · decide
          · decide
      | nan => rfl
      | pinf => rfl
      | ninf => rfl
    · cases b with
      | fin y =>
        show (if x = 10 ∧ y = 1 / 2 then sqrtTenF
          else if y.den = 1 ∧ 0 ≤ y.num then roundF (x ^ y.num.toNat) else Flt.nan).lt Flt.zero
          = false
        split
        · exact (flt_nn_fin _).2 (by norm_num)
        · split
          · exact roundTo_nn 24 (-126) 128 _ (pow_nonneg hx _)
          · rfl
      | nan => rfl
      | pinf => rfl
      | ninf => rfl
  addD_nn := extAdd_nn roundD (roundTo_nn 53 (-1022) 1024)
  divD_nn := by
    intro a b ha hb
    have h := extDiv_nn roundD (roundTo_nn 53 (-1022) 1024) a b ha hb
    show (match extDiv roundD a b with
      | Flt.fin q => roundF q
      | r => r).lt Flt.zero = false
    rcases flt_nn_cases _ h with h1 | h1 | ⟨q, hq, h1⟩
    · rw [h1]
      rfl
    · rw [h1]
      rfl
    · rw [h1]
      exact roundTo_nn 24 (-126) 128 q hq

theorem flt_zero_nn : Flt.zero.lt Flt.zero = false :=
  (flt_nn_fin 0).2 (le_refl _)

theorem flt_tolerance_nn : tolerance.lt Flt.zero = false :=
  (flt_nn_fin _).2 (by norm_num)

theorem flt_gt_tolerance_nn (x : Flt) (h : x.gt tolerance = true) :
    x.lt Flt.zero = false := by
  cases x with
  | nan => exact absurd h (by simp [Flt.gt, Flt.lt, tolerance])
  | ninf => exact absurd h (by simp [Flt.gt, Flt.lt, tolerance])
  | pinf => rfl
  | fin q =>
    have hq : (15099494 : ℚ) / 16777216 < q := by
      simpa [Flt.gt, Flt.lt, tolerance] using h
    exact (flt_nn_fin q).2 (le_trans (by norm_num) (le_of_lt hq))

theorem weight_nn (A : Arith) (hA : NonNegArith A) (area dist closestDist exponent : Flt)
    (harea : area.lt Flt.zero = false) :
    (weight A area dist closestDist exponent).lt Flt.zero = false := by
  unfold weight
  simp only []
  split
  · rename_i hgt
    exact hA.divF_nn _ _ harea (hA.powF_nn _ _ (flt_gt_tolerance_nn _ hgt))
  · exact hA.divF_nn _ _ harea (hA.powF_nn _ _ flt_tolerance_nn)

theorem foldl_nn {β : Type} (f : Flt → β → Flt) (l : List β)
    (h : ∀ s e, e ∈ l → s.lt Flt.zero = false → (f s e).lt Flt.zero = false)
    (s0 : Flt) (hs0 : s0.lt Flt.zero = false) :
    (l.foldl f s0).lt Flt.zero = false := by
  induction l generalizing s0 with
  | nil => exact hs0
  | cons a rest ih =>
    rw [List.foldl_cons]
    exact ih (fun s e he hs => h s e (List.mem_cons_of_mem a he) hs) _
      (h s0 a (List.mem_cons_self a rest) hs0)

theorem stencilEntries_nn (A : Arith) (hA : NonNegArith A) (geo : GeodesicHelper)
    (charRoi : List Bool) (myAreas : Nat → Flt)
    (har : ∀ i, (myAreas i).lt Flt.zero = false) (exponent cutoff : Flt) (i : Nat)
    (closestDist : Flt) (e : Nat × Flt)
    (he : e ∈ stencilEntries A geo charRoi myAreas exponent cutoff i closestDist) :
    e.2.lt Flt.zero = false := by
  unfold stencilEntries at he
  obtain ⟨p, _, rfl⟩ := List.mem_map.1 he
  exact weight_nn A hA _ _ _ _ (har p.1)

theorem weightSum_nn (A : Arith) (hA : NonNegArith A) (l : List (Nat × Flt))
    (hl : ∀ e ∈ l, e.2.lt Flt.zero = false) : (weightSum A l).lt Flt.zero = false :=
  foldl_nn _ l (fun s e he hs => hA.addF_nn s e.2 hs (hl e he)) Flt.zero flt_zero_nn

theorem stencilAccum_nn (A : Arith) (hA : NonNegArith A) (x : Nat → Flt)
    (hx : ∀ i, (x i).lt Flt.zero = false) (l : List (Nat × Flt))
    (hl : ∀ e ∈ l, e.2.lt Flt.zero = false) : (stencilAccum A x l).lt Flt.zero = false :=
  foldl_nn _ l (fun s e he hs => hA.addD_nn s _ hs (hA.mulF_nn _ _ (hx e.1) (hl e he)))
    Flt.zero flt_zero_nn

theorem directAccum_nn (A : Arith) (hA : NonNegArith A) (x : Nat → Flt)
    (hx : ∀ i, (x i).lt Flt.zero = false) (l : List (Nat × Flt))
    (hl : ∀ e ∈ l, e.2.lt Flt.zero = false) : (directAccum A x l).lt Flt.zero = false :=
  foldl_nn _ l (fun s e he hs => hA.addF_nn s _ hs (hA.mulF_nn _ _ (hx e.1) (hl e he)))
    Flt.zero flt_zero_nn

theorem stencilValue_nn (A : Arith) (hA : NonNegArith A) (topo : TopologyHelper)
    (geo : GeodesicHelper) (charRoi : List Bool) (x myAreas : Nat → Flt)
    (hx : ∀ i, (x i).lt Flt.zero = false) (har : ∀ i, (myAreas i).lt Flt.zero = false)
    (distance exponent cutoff : Flt) (v : Nat) :
    (stencilValue A x
      (v, stencilFor A topo geo charRoi myAreas distance exponent cutoff v)).lt Flt.zero
      = false := by
  have hent := stencilEntries_nn A hA geo charRoi myAreas har exponent cutoff v
    (resolveClosest topo geo charRoi v distance).2
  rw [stencilFor_eq]
  split
  · exact flt_zero_nn
  · split
    · exact flt_zero_nn
    · unfold stencilValue
      simp only []
      split
      · exact hA.divD_nn _ _ (stencilAccum_nn A hA x hx _ hent) (weightSum_nn A hA _ hent)
      · exact flt_zero_nn

theorem directValue_nn (A : Arith) (hA : NonNegArith A) (topo : TopologyHelper)
    (geo : GeodesicHelper) (charRoi : List Bool) (x myAreas : Nat → Flt)
    (hx : ∀ i, (x i).lt Flt.zero = false) (har : ∀ i, (myAreas i).lt Flt.zero = false)
    (distance : Flt) (nearest : Bool) (exponent cutoff : Flt) (v : Nat) :
    (directValue A topo geo charRoi x myAreas distance nearest exponent cutoff v).lt Flt.zero
      = false := by
  cases nearest with
  | true =>
    by_cases hr : (resolveClosest topo geo charRoi v distance).1 = -1
    · rw [directValue_none A topo geo _ _ _ _ _ _ _ _ hr]
      exact flt_zero_nn
    · rw [directValue_nearest A topo geo _ _ _ _ _ _ _ hr]
      exact hx _
  | false =>
    have hent := stencilEntries_nn A hA geo charRoi myAreas har exponent cutoff v
      (resolveClosest topo geo charRoi v distance).2
    rw [directValue_weighted]
    split
    · exact flt_zero_nn
    · split
      · exact hA.divF_nn _ _ (directAccum_nn A hA x hx _ hent) (weightSum_nn A hA _ hent)
      · exact flt_zero_nn

theorem nearestValue_nn (x : Nat → Flt) (hx : ∀ i, (x i).lt Flt.zero = false)
    (e : Nat × Int) : (nearestValue x e).lt Flt.zero = false := by
  unfold nearestValue
  split
  · exact hx _
  · exact flt_zero_nn

theorem weight_bounded_exact (A : Arith) (hA : ExactArith A) (a d d0 e : ℚ)
    (ha : 0 ≤ a) (he : 0 ≤ e) (hd0 : 0 < d0)
    (hpos : ∀ q : ℚ, 0 < q → ∃ r : ℚ, 0 < r ∧ A.powF (Flt.fin q) (Flt.fin e) = Flt.fin r)
    (hmono : 0 ≤ e → ∀ p q rp rq : ℚ, 0 < p → p ≤ q →
      A.powF (Flt.fin p) (Flt.fin e) = Flt.fin rp →
      A.powF (Flt.fin q) (Flt.fin e) = Flt.fin rq → rp ≤ rq) :
    ∃ w t : ℚ, weight A (Flt.fin a) (Flt.fin d) (Flt.fin d0) (Flt.fin e) = Flt.fin w ∧
      A.powF tolerance (Flt.fin e) = Flt.fin t ∧ 0 < t ∧ 0 ≤ w ∧ w ≤ a / t := by
  have htol : (0 : ℚ) < 15099494 / 16777216 := by norm_num
  obtain ⟨t, ht0, ht⟩ := hpos (15099494 / 16777216) htol
  have ht' : A.powF tolerance (Flt.fin e) = Flt.fin t := ht
  unfold weight
  simp only []
  rw [hA.divF_fin d d0 (ne_of_gt hd0)]
  by_cases hgt : (Flt.fin (d / d0)).gt tolerance = true
  · have hq : (15099494 : ℚ) / 16777216 < d / d0 := by
      simpa [Flt.gt, Flt.lt, tolerance] using hgt
    obtain ⟨r, hr0, hr⟩ := hpos (d / d0) (lt_trans htol hq)
    have htr : t ≤ r := hmono he _ _ t r htol (le_of_lt hq) ht hr
    refine ⟨a / r, t, ?_, ht', ht0, div_nonneg ha (le_of_lt hr0), ?_⟩
    · rw [if_pos hgt, hr, hA.divF_fin a r (ne_of_gt hr0)]
    · exact div_le_div_of_nonneg_left ha ht0 htr
  · refine ⟨a / t, t, ?_, ht', ht0, div_nonneg ha (le_of_lt ht0), le_refl _⟩
    rw [if_neg hgt, ht', hA.divF_fin a t (ne_of_gt ht0)]

theorem output_nonneg_exact (A : Arith) (hA : ExactArith A) (topo : TopologyHelper)
    (geo : GeodesicHelper) (colScratch : Nat → Flt) (x ar : Nat → ℚ)
    (hx : ∀ i, 0 ≤ x i) (har : ∀ i, 0 ≤ ar i) (numNodes : Nat) (exponent : Flt)
    (hinf : ∀ p q : Flt, A.divF p q = Flt.pinf → ∀ a : ℚ, 0 ≤ a →
      ∃ w : ℚ, 0 ≤ w ∧ A.divF (Flt.fin a) (A.powF Flt.pinf exponent) = Flt.fin w)
    (hpow : ∀ q : ℚ, 0 < q → ∃ r : ℚ, 0 < r ∧ A.powF (Flt.fin q) exponent = Flt.fin r)
    (v : Nat) (hv : v < numNodes) :
    (∀ (badNodeData : Nat → Flt) (dataRoiVals : Option (Nat → Flt)) (distance : Flt),
      ∃ y : ℚ, 0 ≤ y ∧
        processColumnNearest colScratch numNodes (fun i => Flt.fin (x i))
          (precomputeNearest topo geo numNodes badNodeData dataRoiVals distance) v
          = Flt.fin y) ∧
    (∀ (badNodeData : Nat → Flt) (dataRoiVals : Option (Nat → Flt)) (distance : Flt),
      ∃ y : ℚ, 0 ≤ y ∧
        processColumnStencils A colScratch numNodes (fun i => Flt.fin (x i))
          (precomputeStencils A topo geo numNodes (fun i => Flt.fin (ar i)) badNodeData
            dataRoiVals distance exponent) v
          = Flt.fin y) ∧
    (∀ (dataRoiVals : Option (Nat → Flt)) (distance : Flt) (nearest : Bool),
      ∃ y : ℚ, 0 ≤ y ∧
        processColumn A topo geo colScratch (fun i => Flt.fin (x i)) numNodes
          (fun i => Flt.fin (ar i)) dataRoiVals distance nearest exponent v
          = Flt.fin y) := by
  refine ⟨?_, ?_, ?_⟩
  · intro badNodeData dataRoiVals distance
    by_cases hb : (badNodeData v).gt Flt.zero = true
    · rw [processColumnNearest_precompute topo geo colScratch _ numNodes badNodeData
        dataRoiVals distance v hv hb]
      unfold nearestValue
      split
      · exact ⟨_, hx _, rfl⟩
      · exact ⟨0, le_refl _, rfl⟩
    · have hb2 : (badNodeData v).gt Flt.zero = false := by simpa using hb
      rw [processColumnNearest_precompute_not_bad topo geo colScratch _ numNodes badNodeData
        dataRoiVals distance v hv hb2]
      exact ⟨_, hx v, rfl⟩
  · intro badNodeData dataRoiVals distance
    by_cases hb : (badNodeData v).gt Flt.zero = true
    · rw [processColumnStencils_precompute A topo geo colScratch _ numNodes _ badNodeData
        dataRoiVals distance exponent v hv hb, stencilFor_eq]
      by_cases hr : (resolveClosest topo geo (classify numNodes badNodeData dataRoiVals).1 v
          distance).1 = -1
      · rw [if_pos hr]
        exact ⟨0, le_refl _, rfl⟩
      · rw [if_neg hr]
        obtain ⟨es, hes, hnn⟩ := stencilEntries_nonneg A hA geo
          (classify numNodes badNodeData dataRoiVals).1 ar har exponent
          (cutoffRatio A exponent) hinf hpow v
          (resolveClosest topo geo (classify numNodes badNodeData dataRoiVals).1 v
            distance).2
        rw [hes, weightSum_fin A hA, flt_eqF_fin_zero]
        by_cases hz : (es.map Prod.snd).sum = 0
        · rw [if_pos (by simpa using hz)]
          exact ⟨0, le_refl _, rfl⟩
        · rw [if_neg (by simpa using hz)]
          exact stencilValue_nonneg A hA x hx v es hnn hz
    · have hb2 : (badNodeData v).gt Flt.zero = false := by simpa using hb
      rw [processColumnStencils_precompute_not_bad A topo geo colScratch _ numNodes _
        badNodeData dataRoiVals distance exponent v hv hb2]
      exact ⟨_, hx v, rfl⟩
  · intro dataRoiVals distance nearest
    rw [processColumn_apply _ _ _ _ _ _ _ _ _ _ _ _ hv]
    split
    · cases nearest with
      | true =>
        by_cases hr : (resolveClosest topo geo
            (directCharRoi numNodes (fun i => Flt.fin (x i)) dataRoiVals) v distance).1 = -1
        · rw [directValue_none A topo geo _ _ _ _ _ _ _ _ hr]
          exact ⟨0, le_refl _, rfl⟩
        · rw [directValue_nearest A topo geo _ _ _ _ _ _ _ hr]
          exact ⟨_, hx _, rfl⟩
      | false =>
        rw [directValue_weighted]
        by_cases hr : (resolveClosest topo geo
            (directCharRoi numNodes (fun i => Flt.fin (x i)) dataRoiVals) v distance).1 = -1
        · rw [if_pos hr]
          exact ⟨0, le_refl _, rfl⟩
        · rw [if_neg hr]
          obtain ⟨es, hes, hnn⟩ := stencilEntries_nonneg A hA geo
            (directCharRoi numNodes (fun i => Flt.fin (x i)) dataRoiVals) ar har exponent
            (cutoffRatio A exponent) hinf hpow v
            (resolveClosest topo geo
              (directCharRoi numNodes (fun i => Flt.fin (x i)) dataRoiVals) v distance).2
          rw [hes, weightSum_fin A hA, flt_neF_fin_zero, directAccum_fin A hA]
          by_cases hz : (es.map Prod.snd).sum = 0
          · rw [if_neg (by simp [hz])]
            exact ⟨0, le_refl _, rfl⟩
          · rw [if_pos (by simp [hz]), hA.divF_fin _ _ hz]
            exact ⟨_, div_nonneg (sum_mul_nonneg es x hx hnn) (sum_snd_nonneg es hnn), rfl⟩
    · exact ⟨_, hx v, rfl⟩

theorem lineInput_nn (i : Nat) : (lineInput i).lt Flt.zero = false := by
  unfold lineInput
  split <;> exact (flt_nn_fin _).2 (by norm_num)

theorem hugeAreas_nn (i : Nat) : (hugeAreas i).lt Flt.zero = false :=
  (flt_nn_fin _).2 (by norm_num [fltMax])

theorem output_not_negative (A : Arith) (hA : NonNegArith A) (topo : TopologyHelper)
    (geo : GeodesicHelper) (colScratch x ar : Nat → Flt)
    (hx : ∀ i, (x i).lt Flt.zero = false) (har : ∀ i, (ar i).lt Flt.zero = false)
    (numNodes : Nat) (exponent : Flt) (v : Nat) (hv : v < numNodes) :
    (∀ (badNodeData : Nat → Flt) (dataRoiVals : Option (Nat → Flt)) (distance : Flt),
      (processColumnNearest colScratch numNodes x
        (precomputeNearest topo geo numNodes badNodeData dataRoiVals distance) v).lt Flt.zero
        = false) ∧
    (∀ (badNodeData : Nat → Flt) (dataRoiVals : Option (Nat → Flt)) (distance : Flt),
      (processColumnStencils A colScratch numNodes x
        (precomputeStencils A topo geo numNodes ar badNodeData dataRoiVals distance
          exponent) v).lt Flt.zero = false) ∧
    (∀ (dataRoiVals : Option (Nat → Flt)) (distance : Flt) (nearest : Bool),
      (processColumn A topo geo colScratch x numNodes ar dataRoiVals distance nearest
        exponent v).lt Flt.zero = false) := by
  refine ⟨?_, ?_, ?_⟩
  · intro badNodeData dataRoiVals distance
    by_cases hb : (badNodeData v).gt Flt.zero = true
    · rw [processColumnNearest_precompute topo geo colScratch x numNodes badNodeData
        dataRoiVals distance v hv hb]
      exact nearestValue_nn x hx _
    · have hb2 : (badNodeData v).gt Flt.zero = false := by simpa using hb
      rw [processColumnNearest_precompute_not_bad topo geo colScratch x numNodes badNodeData
        dataRoiVals distance v hv hb2]
      exact hx v
  · intro badNodeData dataRoiVals distance
    by_cases hb : (badNodeData v).gt Flt.zero = true
    · rw [processColumnStencils_precompute A topo geo colScratch x numNodes ar badNodeData
        dataRoiVals distance exponent v hv hb]
      exact stencilValue_nn A hA topo geo _ x ar hx har distance exponent _ v
    · have hb2 : (badNodeData v).gt Flt.zero = false := by simpa using hb
      rw [processColumnStencils_precompute_not_bad A topo geo colScratch x numNodes ar
        badNodeData dataRoiVals distance exponent v hv hb2]
      exact hx v
  · intro dataRoiVals distance nearest
    rw [processColumn_apply A topo geo colScratch x numNodes ar dataRoiVals distance nearest
      exponent v hv]
    split
    · exact directValue_nn A hA topo geo _ x ar hx har distance nearest exponent _ v
    · exact hx v

theorem stencilValue_fin (A : Arith) (hA : ExactArith A) (topo : TopologyHelper)
    (geo : GeodesicHelper) (charRoi : List Bool) (x : Nat → ℚ) (myAreas : Nat → Flt)
    (distance exponent cutoff : Flt) (v : Nat)
    (hres : (resolveClosest topo geo charRoi v distance).1 ≠ -1)
    (es : List (Nat × ℚ))
    (hent : stencilEntries A geo charRoi myAreas exponent cutoff v
      (resolveClosest topo geo charRoi v distance).2 = finEntries es)
    (hsum : (es.map Prod.snd).sum ≠ 0) :
    stencilValue A (fun i => Flt.fin (x i))
        (v, stencilFor A topo geo charRoi myAreas distance exponent cutoff v)
      = Flt.fin ((es.map (fun e => x e.1 * e.2)).sum / (es.map Prod.snd).sum) := by
  rw [stencilFor_eq, if_neg hres, hent, weightSum_fin A hA]
  have hz : ¬ (Flt.fin ((es.map Prod.snd).sum)).eqF Flt.zero = true := by
    rw [flt_eqF_fin_zero]
    simpa using hsum
  rw [if_neg hz]
  have hlen : (finEntries es).length > 0 := by
    cases es with
    | nil => simp at hsum
    | cons e rest => simp [finEntries]
  show (if (finEntries es).length > 0 then
      A.divD (stencilAccum A (fun i => Flt.fin (x i)) (finEntries es))
        (Flt.fin ((es.map Prod.snd).sum))
    else Flt.zero) = _
  rw [if_pos hlen, stencilAccum_fin A hA, hA.divD_fin _ _ hsum]

theorem directValue_fin (A : Arith) (hA : ExactArith A) (topo : TopologyHelper)
    (geo : GeodesicHelper) (charRoi : List Bool) (x : Nat → ℚ) (myAreas : Nat → Flt)
    (distance exponent cutoff : Flt) (v : Nat)
    (hres : (resolveClosest topo geo charRoi v distance).1 ≠ -1)
    (es : List (Nat × ℚ))
    (hent : stencilEntries A geo charRoi myAreas exponent cutoff v
      (resolveClosest topo geo charRoi v distance).2 = finEntries es)
    (hsum : (es.map Prod.snd).sum ≠ 0) :
    directValue A topo geo charRoi (fun i => Flt.fin (x i)) myAreas distance false exponent
        cutoff v
      = Flt.fin ((es.map (fun e => x e.1 * e.2)).sum / (es.map Prod.snd).sum) := by
  rw [directValue_weighted, if_neg hres, hent, weightSum_fin A hA, flt_neF_fin_zero,
    directAccum_fin A hA]
  rw [if_pos (by simp [hsum]), hA.divF_fin _ _ hsum]

theorem zero_distance_weights (A : Arith) (hA : ExactArith A) (exponent : Flt) (t : ℚ)
    (h00 : A.divF (Flt.fin 0) (Flt.fin 0) = Flt.nan)
    (hd0 : ∀ d : ℚ, 0 < d → A.divF (Flt.fin d) (Flt.fin 0) = Flt.pinf)
    (hpinf : A.powF Flt.pinf exponent = Flt.pinf)
    (hdivinf : ∀ a : ℚ, A.divF (Flt.fin a) Flt.pinf = Flt.fin 0)
    (ht : A.powF tolerance exponent = Flt.fin t) (ht0 : t ≠ 0) :
    (∀ a : ℚ, weight A (Flt.fin a) (Flt.fin 0) (Flt.fin 0) exponent = Flt.fin (a / t)) ∧
    (∀ a d : ℚ, 0 < d → weight A (Flt.fin a) (Flt.fin d) (Flt.fin 0) exponent = Flt.fin 0) := by
  refine ⟨?_, ?_⟩
  · intro a
    rw [weight_colocated A h00, ht, hA.divF_fin _ _ ht0]
  · intro a d hd
    exact weight_far A exponent hd0 hpinf hdivinf a d hd

theorem zero_distance_mean (A : Arith) (hA : ExactArith A) (geo : GeodesicHelper)
    (charRoi : List Bool) (x ar : Nat → ℚ) (exponent cutoff : Flt) (v : Nat) (t : ℚ)
    (h00 : A.divF (Flt.fin 0) (Flt.fin 0) = Flt.nan)
    (hd0 : ∀ d : ℚ, 0 < d → A.divF (Flt.fin d) (Flt.fin 0) = Flt.pinf)
    (hpinf : A.powF Flt.pinf exponent = Flt.pinf)
    (hdivinf : ∀ a : ℚ, A.divF (Flt.fin a) Flt.pinf = Flt.fin 0)
    (ht : A.powF tolerance exponent = Flt.fin t) (ht0 : t ≠ 0)
    (hcand : ∀ p ∈ validCandidates A geo charRoi cutoff v (Flt.fin 0),
      ∃ d : ℚ, 0 ≤ d ∧ p.2 = Flt.fin d)
    (hsum : ((coLocated (validCandidates A geo charRoi cutoff v (Flt.fin 0))).map
      (fun p => ar p.1)).sum ≠ 0) :
    ∃ es : List (Nat × ℚ),
      stencilEntries A geo charRoi (fun i => Flt.fin (ar i)) exponent cutoff v (Flt.fin 0)
        = finEntries es ∧
      (es.map Prod.snd).sum ≠ 0 ∧
      (es.map (fun e => x e.1 * e.2)).sum / (es.map Prod.snd).sum
        = ((coLocated (validCandidates A geo charRoi cutoff v (Flt.fin 0))).map
            (fun p => x p.1 * ar p.1)).sum
          / ((coLocated (validCandidates A geo charRoi cutoff v (Flt.fin 0))).map
            (fun p => ar p.1)).sum := by
  obtain ⟨hw0, hw1⟩ := zero_distance_weights A hA exponent t h00 hd0 hpinf hdivinf ht ht0
  refine ⟨(validCandidates A geo charRoi cutoff v (Flt.fin 0)).map
    (fun p => (p.1, if p.2 = Flt.fin 0 then ar p.1 / t else 0)), ?_, ?_, ?_⟩
  · rw [stencilEntries_eq_map]
    unfold finEntries
    rw [List.map_map]
    apply List.map_congr_left
    intro p hp
    simp only [Function.comp]
    by_cases h : p.2 = Flt.fin 0
    · rw [h, hw0, if_pos rfl]
    · obtain ⟨d, hd, hpd⟩ := hcand p hp
      have hd0' : 0 < d := by
        rcases lt_or_eq_of_le hd with h1 | h1
        · exact h1
        · exfalso
          apply h
          rw [hpd, ← h1]
      rw [if_neg h, hpd, hw1 _ d hd0']
  · rw [sum_weights_coLocated]
    exact div_ne_zero hsum ht0
  · rw [sum_weights_coLocated, sum_products_coLocated]
    exact div_div_div_cancel_right₀ ht0 _ _

theorem equal_area_mean (l : List (Nat × Flt)) (x ar : Nat → ℚ) (a : ℚ)
    (hsum : (l.map (fun p => ar p.1)).sum ≠ 0) (ha : ∀ p ∈ l, ar p.1 = a) :
    (l.map (fun p => x p.1 * ar p.1)).sum / (l.map (fun p => ar p.1)).sum
      = (l.map (fun p => x p.1)).sum / (l.length : ℚ) := by
  have hsa := sum_const_area l ar a ha
  have hsm := sum_mul_const_area l x ar a ha
  have ha0 : a ≠ 0 := by
    intro h0
    apply hsum
    rw [hsa, h0, mul_zero]
  rw [hsm, hsa]
  exact mul_div_mul_right _ _ ha0

theorem stack_direct_candidates :
    validCandidates ieeeArith stackGeo
      (directCharRoi 3 (fun i => Flt.fin (stackInputQ i)) none)
      (cutoffRatio ieeeArith (Flt.fin 2)) 0 (Flt.fin 0) = [(1, Flt.fin 0), (2, Flt.fin 0)] := by
  decide!

theorem stack_direct_candidates_finite :
    ∀ p ∈ validCandidates ieeeArith stackGeo
      (directCharRoi 3 (fun i => Flt.fin (stackInputQ i)) none)
      (cutoffRatio ieeeArith (Flt.fin 2)) 0 (Flt.fin 0), ∃ d : ℚ, 0 ≤ d ∧ p.2 = Flt.fin d := by
  rw [stack_direct_candidates]
  intro p hp
  simp only [List.mem_cons, List.mem_singleton, List.not_mem_nil, or_false] at hp
  rcases hp with h | h <;> exact ⟨0, le_refl _, by rw [h]⟩

theorem stack_direct_area_sum :
    ((coLocated (validCandidates ieeeArith stackGeo
      (directCharRoi 3 (fun i => Flt.fin (stackInputQ i)) none)
      (cutoffRatio ieeeArith (Flt.fin 2)) 0 (Flt.fin 0))).map
        (fun p => stackAreasQ p.1)).sum ≠ 0 := by
  rw [stack_direct_candidates]
  decide!

/-! ## The claims -/

/-- C1. Identity on the vertices that are not filled.  For a vertex `v` of the
mesh: (a) each of the two appliers leaves `colScratch[v] = myInputData[v]` when
`v` is the target of no entry of the list, hence after `precomputeNearest` or
`precomputeStencils` every vertex whose bad-ROI value is not `> 0` is output
unchanged; (b) the direct `processColumn` outputs the input value at every vertex
whose input is nonzero or whose data-ROI value, when a data ROI is given, is not
`> 0`. -/
theorem identity_on_non_targets (A : Arith) (topo : TopologyHelper) (geo : GeodesicHelper)
    (colScratch myInputData : Nat → Flt) (numNodes v : Nat) (hv : v < numNodes) :
    (∀ myNearest : List (Nat × Int), (∀ e ∈ myNearest, e.1 ≠ v) →
      processColumnNearest colScratch numNodes myInputData myNearest v = myInputData v) ∧
    (∀ myStencils : List (Nat × StencilElem), (∀ e ∈ myStencils, e.1 ≠ v) →
      processColumnStencils A colScratch numNodes myInputData myStencils v = myInputData v) ∧
    (∀ (badNodeData : Nat → Flt) (dataRoiVals : Option (Nat → Flt)) (distance : Flt),
      (badNodeData v).gt Flt.zero = false →
      processColumnNearest colScratch numNodes myInputData
        (precomputeNearest topo geo numNodes badNodeData dataRoiVals distance) v
        = myInputData v) ∧
    (∀ (myAreas badNodeData : Nat → Flt) (dataRoiVals : Option (Nat → Flt))
      (distance exponent : Flt),
      (badNodeData v).gt Flt.zero = false →
      processColumnStencils A colScratch numNodes myInputData
        (precomputeStencils A topo geo numNodes myAreas badNodeData dataRoiVals distance
          exponent) v
        = myInputData v) ∧
    (∀ (myAreas : Nat → Flt) (dataRoiVals : Option (Nat → Flt)) (distance : Flt)
      (nearest : Bool) (exponent : Flt),
      ((myInputData v).neF Flt.zero = true ∨
        ∃ vals, dataRoiVals = some vals ∧ (vals v).gt Flt.zero = false) →
      processColumn A topo geo colScratch myInputData numNodes myAreas dataRoiVals distance
        nearest exponent v = myInputData v) := by
  have hN : ∀ myNearest : List (Nat × Int), (∀ e ∈ myNearest, e.1 ≠ v) →
      processColumnNearest colScratch numNodes myInputData myNearest v = myInputData v := by
    intro l hl
    rw [processColumnNearest_eq,
      foldl_update_of_not_target (fun e : Nat × Int => e.1) _ l _ v hl, precopy_apply, if_pos hv]
  have hS : ∀ myStencils : List (Nat × StencilElem), (∀ e ∈ myStencils, e.1 ≠ v) →
      processColumnStencils A colScratch numNodes myInputData myStencils v = myInputData v := by
    intro l hl
    rw [processColumnStencils_eq,
      foldl_update_of_not_target (fun e : Nat × StencilElem => e.1) _ l _ v hl, precopy_apply,
      if_pos hv]
  refine ⟨hN, hS, ?_, ?_, ?_⟩
  · intro badNodeData dataRoiVals distance hb
    apply hN
    intro e he
    rw [precomputeNearest_eq, List.mem_map] at he
    obtain ⟨i, hi, rfl⟩ := he
    intro hiv
    have := ((mem_badVertices _ _ _).1 hi).2
    simp only at hiv
    rw [hiv, hb] at this
    exact Bool.noConfusion this
  · intro myAreas badNodeData dataRoiVals distance exponent hb
    apply hS
    intro e he
    rw [precomputeStencils_eq, List.mem_map] at he
    obtain ⟨i, hi, rfl⟩ := he
    intro hiv
    have := ((mem_badVertices _ _ _).1 hi).2
    simp only at hiv
    rw [hiv, hb] at this
    exact Bool.noConfusion this
  · intro myAreas dataRoiVals distance nearest exponent h
    rw [processColumn_apply _ _ _ _ _ _ _ _ _ _ _ _ hv]
    have hbad : directIsBad myInputData dataRoiVals v = false := by
      unfold directIsBad
      rcases h with h | ⟨vals, rfl, h⟩
      · unfold Flt.neF at h
        have : (myInputData v).eqF Flt.zero = false := by simpa using h
        simp [this]
      · simp [h]
    simp [hbad]

/-- Witness for C1 on the line mesh `0 - 1 - 2` with vertex `1` bad: vertex `0`
keeps its input value on every path. -/
theorem identity_on_non_targets_witness :
    processColumnNearest (fun _ => Flt.zero) 3 lineInput [(1, 0)] 0 = lineInput 0 ∧
    processColumnStencils exactArith (fun _ => Flt.zero) 3 lineInput [(1, StencilElem.empty)] 0
      = lineInput 0 ∧
    processColumnNearest (fun _ => Flt.zero) 3 lineInput
      (precomputeNearest lineTopo lineGeo 3 lineBad none (Flt.fin 1)) 0 = lineInput 0 ∧
    processColumnStencils exactArith (fun _ => Flt.zero) 3 lineInput
      (precomputeStencils exactArith lineTopo lineGeo 3 lineAreas lineBad none (Flt.fin 1)
        (Flt.fin 2)) 0 = lineInput 0 ∧
    processColumn exactArith lineTopo lineGeo (fun _ => Flt.zero) lineInput 3 lineAreas none
      (Flt.fin 1) false (Flt.fin 2) 0 = lineInput 0 :=
  have h := identity_on_non_targets exactArith lineTopo lineGeo (fun _ => Flt.zero) lineInput
    3 0 (by decide)
  ⟨h.1 [(1, 0)] (by decide), h.2.1 [(1, StencilElem.empty)] (by decide),
    h.2.2.1 lineBad none (Flt.fin 1) (by decide),
    h.2.2.2.1 lineAreas lineBad none (Flt.fin 1) (Flt.fin 2) (by decide),
    h.2.2.2.2 lineAreas none (Flt.fin 1) false (Flt.fin 2) (Or.inl (by decide))⟩

/-- C3. Nearest mode.  For a bad vertex `v` the output is the input value at the
resolved source vertex, copied without arithmetic, when a source was resolved,
and `0` when the resolved source is the sentinel `-1`: on the precomputed path
(`precomputeNearest`, whose entry for `v` holds the resolved source, followed by
`processColumn`) and on the direct path with `nearest = true`. -/
theorem nearest_mode_output (A : Arith) (topo : TopologyHelper) (geo : GeodesicHelper)
    (colScratch myInputData : Nat → Flt) (numNodes v : Nat) (hv : v < numNodes) :
    (∀ (badNodeData : Nat → Flt) (dataRoiVals : Option (Nat → Flt)) (distance : Flt),
      (badNodeData v).gt Flt.zero = true →
      let closestNode :=
        (resolveClosest topo geo (classify numNodes badNodeData dataRoiVals).1 v distance).1
      let myNearest := precomputeNearest topo geo numNodes badNodeData dataRoiVals distance
      let out := processColumnNearest colScratch numNodes myInputData myNearest v
      (v, closestNode) ∈ myNearest ∧
      (closestNode ≠ -1 → out = myInputData closestNode.toNat) ∧
      (closestNode = -1 → out = Flt.zero)) ∧
    (∀ (myAreas : Nat → Flt) (dataRoiVals : Option (Nat → Flt)) (distance exponent : Flt),
      directIsBad myInputData dataRoiVals v = true →
      let closestNode :=
        (resolveClosest topo geo (directCharRoi numNodes myInputData dataRoiVals) v distance).1
      let out := processColumn A topo geo colScratch myInputData numNodes myAreas dataRoiVals
        distance true exponent v
      (closestNode ≠ -1 → out = myInputData closestNode.toNat) ∧
      (closestNode = -1 → out = Flt.zero)) := by
  refine ⟨?_, ?_⟩
  · intro badNodeData dataRoiVals distance hb closestNode myNearest out
    have hout : out = nearestValue myInputData (v, closestNode) :=
      processColumnNearest_precompute topo geo colScratch myInputData numNodes badNodeData
        dataRoiVals distance v hv hb
    refine ⟨?_, ?_, ?_⟩
    · show (v, closestNode) ∈ precomputeNearest topo geo numNodes badNodeData dataRoiVals
        distance
      rw [precomputeNearest_eq, List.mem_map]
      exact ⟨v, (mem_badVertices _ _ _).2 ⟨hv, hb⟩, rfl⟩
    · intro h
      rw [hout]
      simp [nearestValue, h]
    · intro h
      rw [hout]
      simp [nearestValue, h]
  · intro myAreas dataRoiVals distance exponent hb closestNode out
    have hout : out = directValue A topo geo (directCharRoi numNodes myInputData dataRoiVals)
        myInputData myAreas distance true exponent (cutoffRatio A exponent) v := by
      show processColumn A topo geo colScratch myInputData numNodes myAreas dataRoiVals
        distance true exponent v = _
      rw [processColumn_apply _ _ _ _ _ _ _ _ _ _ _ _ hv, if_pos hb]
    refine ⟨?_, ?_⟩
    · intro h
      rw [hout]
      exact directValue_nearest A topo geo _ _ _ _ _ _ _ h
    · intro h
      rw [hout]
      exact directValue_none A topo geo _ _ _ _ _ _ _ _ h

/-- Witness for C3 on the line mesh: the bad vertex `1` takes the value of its
resolved source on the precomputed path, and the zero-valued vertex `1` does so
on the direct path. -/
theorem nearest_mode_output_witness :
    processColumnNearest (fun _ => Flt.zero) 3 lineInput
        (precomputeNearest lineTopo lineGeo 3 lineBad none (Flt.fin 1)) 1
      = lineInput (resolveClosest lineTopo lineGeo (classify 3 lineBad none).1 1
          (Flt.fin 1)).1.toNat ∧
    processColumn exactArith lineTopo lineGeo (fun _ => Flt.zero) lineInput 3 lineAreas none
        (Flt.fin 1) true (Flt.fin 2) 1
      = lineInput (resolveClosest lineTopo lineGeo (directCharRoi 3 lineInput none) 1
          (Flt.fin 1)).1.toNat :=
  have h := nearest_mode_output exactArith lineTopo lineGeo (fun _ => Flt.zero) lineInput 3 1
    (by decide)
  ⟨(h.1 lineBad none (Flt.fin 1) (by decide)).2.1 (by decide),
    (h.2 lineAreas none (Flt.fin 1) (Flt.fin 2) (by decide)).1 (by decide)⟩

/-- C4. A bad vertex for which the geodesic oracle finds no valid vertex within
`searchDistance` and none of whose direct neighbours is valid gets the output
value `0.0`: in nearest mode and in weighted mode on the precomputed path, and
for either value of `nearest` on the direct path. -/
theorem unreachable_vertex_output_zero (A : Arith) (topo : TopologyHelper)
    (geo : GeodesicHelper) (colScratch myInputData : Nat → Flt) (numNodes v : Nat)
    (hv : v < numNodes) :
    (∀ (myAreas badNodeData : Nat → Flt) (dataRoiVals : Option (Nat → Flt))
      (distance exponent : Flt),
      (badNodeData v).gt Flt.zero = true →
      (geo.getClosestNodeInRoi v (classify numNodes badNodeData dataRoiVals).1 distance).1
        = -1 →
      (∀ n ∈ topo.getNodeNeighbors v,
        (classify numNodes badNodeData dataRoiVals).1.getD n false = false) →
      processColumnNearest colScratch numNodes myInputData
          (precomputeNearest topo geo numNodes badNodeData dataRoiVals distance) v
        = Flt.zero ∧
      processColumnStencils A colScratch numNodes myInputData
          (precomputeStencils A topo geo numNodes myAreas badNodeData dataRoiVals distance
            exponent) v
        = Flt.zero) ∧
    (∀ (myAreas : Nat → Flt) (dataRoiVals : Option (Nat → Flt)) (distance : Flt)
      (nearest : Bool) (exponent : Flt),
      directIsBad myInputData dataRoiVals v = true →
      (geo.getClosestNodeInRoi v (directCharRoi numNodes myInputData dataRoiVals) distance).1
        = -1 →
      (∀ n ∈ topo.getNodeNeighbors v,
        (directCharRoi numNodes myInputData dataRoiVals).getD n false = false) →
      processColumn A topo geo colScratch myInputData numNodes myAreas dataRoiVals distance
        nearest exponent v = Flt.zero) := by
  refine ⟨?_, ?_⟩
  · intro myAreas badNodeData dataRoiVals distance exponent hb hq hn
    have hnone := resolveClosest_none topo geo _ v distance hq hn
    refine ⟨?_, ?_⟩
    · rw [processColumnNearest_precompute topo geo colScratch myInputData numNodes badNodeData
        dataRoiVals distance v hv hb]
      simp [nearestValue, hnone]
    · rw [processColumnStencils_precompute A topo geo colScratch myInputData numNodes myAreas
        badNodeData dataRoiVals distance exponent v hv hb, stencilFor_eq, if_pos hnone]
      simp [stencilValue, StencilElem.empty]
  · intro myAreas dataRoiVals distance nearest exponent hb hq hn
    have hnone := resolveClosest_none topo geo _ v distance hq hn
    rw [processColumn_apply _ _ _ _ _ _ _ _ _ _ _ _ hv, if_pos hb]
    exact directValue_none A topo geo _ _ _ _ _ _ _ _ hnone

/-- Witness for C4 on the line mesh: with every vertex bad (respectively every
input value zero) vertex `1` has no valid vertex at all and is output as `0`. -/
theorem unreachable_vertex_output_zero_witness :
    (processColumnNearest (fun _ => Flt.fin 9) 3 lineInput
        (precomputeNearest lineTopo lineGeo 3 lineAllBad none (Flt.fin 1)) 1 = Flt.zero ∧
      processColumnStencils exactArith (fun _ => Flt.fin 9) 3 lineInput
        (precomputeStencils exactArith lineTopo lineGeo 3 lineAreas lineAllBad none (Flt.fin 1)
          (Flt.fin 2)) 1 = Flt.zero) ∧
    processColumn exactArith lineTopo lineGeo (fun _ => Flt.fin 9) lineZeros 3 lineAreas none
      (Flt.fin 1) false (Flt.fin 2) 1 = Flt.zero :=
  ⟨(unreachable_vertex_output_zero exactArith lineTopo lineGeo (fun _ => Flt.fin 9) lineInput
      3 1 (by decide)).1 lineAreas lineAllBad none (Flt.fin 1) (Flt.fin 2) (by decide)
      (by decide) (by decide),
    (unreachable_vertex_output_zero exactArith lineTopo lineGeo (fun _ => Flt.fin 9) lineZeros
      3 1 (by decide)).2 lineAreas none (Flt.fin 1) false (Flt.fin 2) (by decide)
      (by decide) (by decide)⟩

/-- C5. Classification rule of `precomputeStencils` and `precomputeNearest`.
A vertex is a fill target (it has an entry in the precomputed list) iff it is a
vertex of the mesh whose bad-ROI value is strictly positive; a NaN bad-ROI value
is not bad.  The validity mask has one entry per vertex, and the entry of `v` is
true iff `v` is not bad and either no data ROI is supplied or the data-ROI value
of `v` is strictly positive.  The number of entries of each precomputed list is
the `badCount` of the first loop, the number of bad vertices. -/
theorem classification_rule (A : Arith) (topo : TopologyHelper) (geo : GeodesicHelper)
    (numNodes : Nat) (myAreas badNodeData : Nat → Flt) (dataRoiVals : Option (Nat → Flt))
    (distance exponent : Flt) :
    let myNearest := precomputeNearest topo geo numNodes badNodeData dataRoiVals distance
    let myStencils := precomputeStencils A topo geo numNodes myAreas badNodeData dataRoiVals
      distance exponent
    let charRoi := (classify numNodes badNodeData dataRoiVals).1
    let badCount := (classify numNodes badNodeData dataRoiVals).2
    (∀ v, v ∈ myNearest.map Prod.fst ↔ v < numNodes ∧ (badNodeData v).gt Flt.zero = true) ∧
    (∀ v, v ∈ myStencils.map Prod.fst ↔ v < numNodes ∧ (badNodeData v).gt Flt.zero = true) ∧
    (∀ v, badNodeData v = Flt.nan →
      (badNodeData v).gt Flt.zero = false ∧ v ∉ myNearest.map Prod.fst ∧
        v ∉ myStencils.map Prod.fst) ∧
    charRoi.length = numNodes ∧
    (∀ v, v < numNodes →
      (charRoi.getD v false = true ↔
        (badNodeData v).gt Flt.zero = false ∧
          (dataRoiVals = none ∨ ∃ vals, dataRoiVals = some vals ∧ (vals v).gt Flt.zero = true))) ∧
    badCount = ((List.range numNodes).filter (fun i => (badNodeData i).gt Flt.zero)).length ∧
    myNearest.length = badCount ∧
    myStencils.length = badCount := by
  intro myNearest myStencils charRoi badCount
  have hN : myNearest.map Prod.fst = badVertices numNodes badNodeData :=
    precomputeNearest_targets topo geo numNodes badNodeData dataRoiVals distance
  have hS : myStencils.map Prod.fst = badVertices numNodes badNodeData :=
    precomputeStencils_targets A topo geo numNodes myAreas badNodeData dataRoiVals distance
      exponent
  have hC : classify numNodes badNodeData dataRoiVals
      = ((List.range numNodes).map (validRule badNodeData dataRoiVals),
          (badVertices numNodes badNodeData).length) := classify_eq _ _ _
  refine ⟨?_, ?_, ?_, ?_, ?_, ?_, ?_, ?_⟩
  · intro v
    rw [hN]
    exact mem_badVertices _ _ _
  · intro v
    rw [hS]
    exact mem_badVertices _ _ _
  · intro v hnan
    have hgt : (badNodeData v).gt Flt.zero = false := by
      rw [hnan]
      exact flt_nan_not_gt _
    refine ⟨hgt, ?_, ?_⟩
    · rw [hN, mem_badVertices]
      intro h
      rw [hgt] at h
      exact Bool.noConfusion h.2
    · rw [hS, mem_badVertices]
      intro h
      rw [hgt] at h
      exact Bool.noConfusion h.2
  · show (classify numNodes badNodeData dataRoiVals).1.length = numNodes
    rw [hC]
    simp
  · intro v hv
    show (classify numNodes badNodeData dataRoiVals).1.getD v false = true ↔ _
    rw [classify_getD _ _ _ _ hv]
    unfold validRule
    cases dataRoiVals with
    | none => simp
    | some vals => simp
  · show (classify numNodes badNodeData dataRoiVals).2 = _
    rw [hC]
    rfl
  · show myNearest.length = (classify numNodes badNodeData dataRoiVals).2
    rw [hC, ← hN, List.length_map]
  · show myStencils.length = (classify numNodes badNodeData dataRoiVals).2
    rw [hC, ← hS, List.length_map]

/-- Witness for C5 on the line mesh with a NaN in the bad-vertex ROI and a data
ROI: the NaN vertex `0` is not a target, and the mask entry of vertex `2` is
characterised by the rule. -/
theorem classification_rule_witness :
    ((lineNanBad 0).gt Flt.zero = false ∧
      0 ∉ (precomputeNearest lineTopo lineGeo 3 lineNanBad (some lineDataRoi)
        (Flt.fin 1)).map Prod.fst ∧
      0 ∉ (precomputeStencils exactArith lineTopo lineGeo 3 lineAreas lineNanBad
        (some lineDataRoi) (Flt.fin 1) (Flt.fin 2)).map Prod.fst) ∧
    ((classify 3 lineNanBad (some lineDataRoi)).1.getD 2 false = true ↔
      (lineNanBad 2).gt Flt.zero = false ∧
        (some lineDataRoi = none ∨
          ∃ vals, some lineDataRoi = some vals ∧ (vals 2).gt Flt.zero = true)) :=
  have h := classification_rule exactArith lineTopo lineGeo 3 lineAreas lineNanBad
    (some lineDataRoi) (Flt.fin 1) (Flt.fin 2)
  ⟨h.2.2.1 0 rfl, h.2.2.2.2.1 2 (by decide)⟩

/-- C6. After `precomputeStencils` (respectively `precomputeNearest`) every vertex
of the mesh whose bad-ROI value is `> 0` is the target of exactly one entry of
`myStencils` (respectively `myNearest`), and a vertex whose bad-ROI value is not
`> 0` is the target of no entry. -/
theorem each_bad_vertex_exactly_once (A : Arith) (topo : TopologyHelper)
    (geo : GeodesicHelper) (numNodes : Nat) (myAreas badNodeData : Nat → Flt)
    (dataRoiVals : Option (Nat → Flt)) (distance exponent : Flt) (v : Nat) :
    let myNearest := precomputeNearest topo geo numNodes badNodeData dataRoiVals distance
    let myStencils := precomputeStencils A topo geo numNodes myAreas badNodeData dataRoiVals
      distance exponent
    (v < numNodes → (badNodeData v).gt Flt.zero = true →
      (myStencils.map Prod.fst).count v = 1 ∧ (myNearest.map Prod.fst).count v = 1) ∧
    ((badNodeData v).gt Flt.zero = false →
      (myStencils.map Prod.fst).count v = 0 ∧ (myNearest.map Prod.fst).count v = 0) := by
  intro myNearest myStencils
  have hN : myNearest.map Prod.fst = badVertices numNodes badNodeData :=
    precomputeNearest_targets topo geo numNodes badNodeData dataRoiVals distance
  have hS : myStencils.map Prod.fst = badVertices numNodes badNodeData :=
    precomputeStencils_targets A topo geo numNodes myAreas badNodeData dataRoiVals distance
      exponent
  rw [hN, hS]
  refine ⟨?_, ?_⟩
  · intro hv hb
    have hmem : v ∈ badVertices numNodes badNodeData := (mem_badVertices _ _ _).2 ⟨hv, hb⟩
    have h1 := List.count_eq_one_of_mem (badVertices_nodup numNodes badNodeData) hmem
    exact ⟨h1, h1⟩
  · intro hb
    have hmem : v ∉ badVertices numNodes badNodeData := by
      rw [mem_badVertices]
      intro h
      rw [hb] at h
      exact Bool.noConfusion h.2
    have h0 := List.count_eq_zero_of_not_mem hmem
    exact ⟨h0, h0⟩

/-- Witness for C6 on the line mesh with vertex `1` bad: vertex `1` is a target
exactly once, vertex `0` never. -/
theorem each_bad_vertex_exactly_once_witness :
    (((precomputeStencils exactArith lineTopo lineGeo 3 lineAreas lineBad none (Flt.fin 1)
        (Flt.fin 2)).map Prod.fst).count 1 = 1 ∧
      ((precomputeNearest lineTopo lineGeo 3 lineBad none (Flt.fin 1)).map Prod.fst).count 1
        = 1) ∧
    (((precomputeStencils exactArith lineTopo lineGeo 3 lineAreas lineBad none (Flt.fin 1)
        (Flt.fin 2)).map Prod.fst).count 0 = 0 ∧
      ((precomputeNearest lineTopo lineGeo 3 lineBad none (Flt.fin 1)).map Prod.fst).count 0
        = 0) :=
  ⟨(each_bad_vertex_exactly_once exactArith lineTopo lineGeo 3 lineAreas lineBad none
      (Flt.fin 1) (Flt.fin 2) 1).1 (by decide) (by decide),
    (each_bad_vertex_exactly_once exactArith lineTopo lineGeo 3 lineAreas lineBad none
      (Flt.fin 1) (Flt.fin 2) 0).2 (by decide)⟩

/-- C7. Neighbour fallback, for any validity mask, vertex `v` and search distance.
When the nearest-valid query of the oracle returns none (`-1`), the resolved
closest vertex is none iff `v` has no valid direct neighbour; otherwise the
resolved pair `(closestNode, closestDist)` is an element `(nodeList[j], distList[j])`
of the neighbour list of `v` that is valid, no valid direct neighbour has a
strictly smaller distance (so, the distances being numbers and not NaN, its
distance is at most that of every valid direct neighbour), and no valid direct
neighbour earlier in the list has the same distance (the earliest one wins a
tie).  Hence a vertex with a valid direct neighbour is always resolved, whatever
the search distance is. -/
theorem neighbour_fallback (topo : TopologyHelper) (geo : GeodesicHelper)
    (charRoi : List Bool) (v : Nat) (distance : Flt) :
    let nodeList := topo.getNodeNeighbors v
    let distList := geo.getGeoToTheseNodes v nodeList
    let res := resolveClosest topo geo charRoi v distance
    ((geo.getClosestNodeInRoi v charRoi distance).1 = -1 →
      (res.1 = -1 ↔ ∀ n ∈ nodeList, charRoi.getD n false = false) ∧
      (res.1 ≠ -1 → ∃ pre p post,
        pairUp nodeList distList = pre ++ p :: post ∧
        res = ((p.1 : Int), p.2) ∧
        p.1 ∈ nodeList ∧
        charRoi.getD p.1 false = true ∧
        (∀ q ∈ pairUp nodeList distList, charRoi.getD q.1 false = true → q.2.lt p.2 = false) ∧
        ((∀ q ∈ pairUp nodeList distList, q.2 ≠ Flt.nan) →
          ∀ q ∈ pairUp nodeList distList, charRoi.getD q.1 false = true →
            p.2 = q.2 ∨ p.2.lt q.2 = true) ∧
        (∀ q ∈ pre, charRoi.getD q.1 false = true → q.2 ≠ p.2))) ∧
    ((∃ n ∈ nodeList, charRoi.getD n false = true) → res.1 ≠ -1) := by
  intro nodeList distList res
  have hres : (geo.getClosestNodeInRoi v charRoi distance).1 = -1 →
      res = fallbackLoop charRoi (pairUp nodeList distList)
        (geo.getClosestNodeInRoi v charRoi distance) := by
    intro hq
    show resolveClosest topo geo charRoi v distance = _
    unfold resolveClosest
    simp only [hq, beq_self_eq_true, if_true]
  have hiff : (geo.getClosestNodeInRoi v charRoi distance).1 = -1 →
      (res.1 = -1 ↔ ∀ n ∈ nodeList, charRoi.getD n false = false) := by
    intro hq
    have inv := fallbackLoop_inv charRoi (pairUp nodeList distList) _ hq
    rw [← hres hq] at inv
    constructor
    · intro h n hn
      obtain ⟨p, hp, hp1⟩ := exists_mem_pairUp nodeList distList n hn
      rw [← hp1]
      exact inv.1.1 h p hp
    · intro h
      exact inv.1.2 (fun q hqm => h q.1 (mem_pairUp_fst _ _ _ hqm))
  refine ⟨?_, ?_⟩
  · intro hq
    refine ⟨hiff hq, ?_⟩
    intro hne
    have inv := fallbackLoop_inv charRoi (pairUp nodeList distList) _ hq
    rw [← hres hq] at inv
    obtain ⟨pre, p, post, hl, hp, hpv, hmin, hpre⟩ := inv.2 hne
    have hpm : p ∈ pairUp nodeList distList := by
      rw [hl]
      simp
    refine ⟨pre, p, post, hl, hp, mem_pairUp_fst nodeList distList p hpm, hpv, hmin, ?_, hpre⟩
    intro hnan q hq hqv
    exact flt_lt_total (hnan p hpm) (hnan q hq) (hmin q hq hqv)
  · intro hex
    obtain ⟨n, hn, hnv⟩ := hex
    by_cases hq : (geo.getClosestNodeInRoi v charRoi distance).1 = -1
    · intro h
      have := (hiff hq).1 h n hn
      rw [hnv] at this
      exact Bool.noConfusion this
    · show (resolveClosest topo geo charRoi v distance).1 ≠ -1
      unfold resolveClosest
      have hb : ((geo.getClosestNodeInRoi v charRoi distance).1 == -1) = false := by
        simpa using hq
      simp only [hb, Bool.false_eq_true, if_false]
      exact hq

/-- Witness for C7 on the line mesh with vertex `1` bad and search distance `0`:
the oracle finds nothing, and vertex `1` is still resolved, from its valid
neighbour `0`. -/
theorem neighbour_fallback_witness :
    ((resolveClosest lineTopo lineGeo (classify 3 lineBad none).1 1 (Flt.fin 0)).1 = -1 ↔
      ∀ n ∈ lineTopo.getNodeNeighbors 1, (classify 3 lineBad none).1.getD n false = false) ∧
    (resolveClosest lineTopo lineGeo (classify 3 lineBad none).1 1 (Flt.fin 0)).1 ≠ -1 :=
  have h := neighbour_fallback lineTopo lineGeo (classify 3 lineBad none).1 1 (Flt.fin 0)
  ⟨(h.1 (by decide)).1, h.2 ⟨0, by decide, by decide⟩⟩

/-- C8. The constructor fails with a configuration error if and only if the
surface and input metric vertex counts differ, or a bad-vertex ROI is supplied
whose vertex count differs from the surface's, or a data ROI is supplied whose
vertex count differs from the surface's, or `columnNum < -1`, or `columnNum` is
at least the input's column count, or `distance < 0`; in every other case it
completes without error. -/
theorem constructor_fails_iff (A : Arith) (myMetric : MetricFile) (mySurf : SurfaceFile)
    (distance : Flt) (myMetricOut : MetricFile) (badNodeRoi dataRoi : Option MetricFile)
    (columnNum : Int) (nearest : Bool) (exponent : Flt) :
    ((AlgorithmMetricDilate A myMetric mySurf distance myMetricOut badNodeRoi dataRoi columnNum
        nearest exponent).error.isSome = true ↔
      (mySurf.numberOfNodes ≠ myMetric.numberOfNodes ∨
        (∃ r, badNodeRoi = some r ∧ r.numberOfNodes ≠ mySurf.numberOfNodes) ∨
        (∃ r, dataRoi = some r ∧ r.numberOfNodes ≠ mySurf.numberOfNodes) ∨
        columnNum < -1 ∨ columnNum ≥ (myMetric.numberOfColumns : Int) ∨
        distance.lt Flt.zero = true)) ∧
    ((AlgorithmMetricDilate A myMetric mySurf distance myMetricOut badNodeRoi dataRoi columnNum
        nearest exponent).error = none ↔
      ¬ (mySurf.numberOfNodes ≠ myMetric.numberOfNodes ∨
        (∃ r, badNodeRoi = some r ∧ r.numberOfNodes ≠ mySurf.numberOfNodes) ∨
        (∃ r, dataRoi = some r ∧ r.numberOfNodes ≠ mySurf.numberOfNodes) ∨
        columnNum < -1 ∨ columnNum ≥ (myMetric.numberOfColumns : Int) ∨
        distance.lt Flt.zero = true)) := by
  rw [AlgorithmMetricDilate_error]
  have key := validate_isSome_iff myMetric mySurf distance badNodeRoi dataRoi columnNum
  refine ⟨key, ?_⟩
  rw [← key]
  cases validate myMetric mySurf distance badNodeRoi dataRoi columnNum <;> simp

/-- C9. Atomicity of a validation failure.  Whenever the constructor fails with
a configuration error, the output metric is exactly what it was before the call
and no precomputation or column processing has been performed; this is the case
for every negative search distance. -/
theorem validation_failure_atomic (A : Arith) (myMetric : MetricFile) (mySurf : SurfaceFile)
    (distance : Flt) (myMetricOut : MetricFile) (badNodeRoi dataRoi : Option MetricFile)
    (columnNum : Int) (nearest : Bool) (exponent : Flt) :
    ((AlgorithmMetricDilate A myMetric mySurf distance myMetricOut badNodeRoi dataRoi columnNum
        nearest exponent).error.isSome = true →
      (AlgorithmMetricDilate A myMetric mySurf distance myMetricOut badNodeRoi dataRoi columnNum
        nearest exponent).myMetricOut = myMetricOut ∧
      (AlgorithmMetricDilate A myMetric mySurf distance myMetricOut badNodeRoi dataRoi columnNum
        nearest exponent).steps = []) ∧
    (distance.lt Flt.zero = true →
      (AlgorithmMetricDilate A myMetric mySurf distance myMetricOut badNodeRoi dataRoi columnNum
        nearest exponent).error.isSome = true ∧
      (AlgorithmMetricDilate A myMetric mySurf distance myMetricOut badNodeRoi dataRoi columnNum
        nearest exponent).myMetricOut = myMetricOut ∧
      (AlgorithmMetricDilate A myMetric mySurf distance myMetricOut badNodeRoi dataRoi columnNum
        nearest exponent).steps = []) := by
  have hfail : (AlgorithmMetricDilate A myMetric mySurf distance myMetricOut badNodeRoi dataRoi
        columnNum nearest exponent).error.isSome = true →
      (AlgorithmMetricDilate A myMetric mySurf distance myMetricOut badNodeRoi dataRoi columnNum
        nearest exponent).myMetricOut = myMetricOut ∧
      (AlgorithmMetricDilate A myMetric mySurf distance myMetricOut badNodeRoi dataRoi columnNum
        nearest exponent).steps = [] := by
    unfold AlgorithmMetricDilate
    cases validate myMetric mySurf distance badNodeRoi dataRoi columnNum with
    | none => intro h; simp at h
    | some msg => intro _; exact ⟨rfl, rfl⟩
  refine ⟨hfail, ?_⟩
  intro hneg
  have herr : (AlgorithmMetricDilate A myMetric mySurf distance myMetricOut badNodeRoi dataRoi
      columnNum nearest exponent).error.isSome = true := by
    rw [AlgorithmMetricDilate_error, validate_isSome_iff]
    exact Or.inr (Or.inr (Or.inr (Or.inr (Or.inr hneg))))
  exact ⟨herr, hfail herr⟩

/-- Witness for C9: the call on the line mesh with search distance `-1` fails and
leaves the earlier contents of the output file in place. -/
theorem validation_failure_atomic_witness :
    (AlgorithmMetricDilate exactArith lineMetric lineSurf (Flt.fin (-1)) lineOut none none (-1)
        false (Flt.fin 2)).error.isSome = true ∧
    (AlgorithmMetricDilate exactArith lineMetric lineSurf (Flt.fin (-1)) lineOut none none (-1)
        false (Flt.fin 2)).myMetricOut = lineOut ∧
    (AlgorithmMetricDilate exactArith lineMetric lineSurf (Flt.fin (-1)) lineOut none none (-1)
        false (Flt.fin 2)).steps = [] :=
  (validation_failure_atomic exactArith lineMetric lineSurf (Flt.fin (-1)) lineOut none none
    (-1) false (Flt.fin 2)).2 (by decide)

/-- C10 as stated fails for the default exponent `2.0`: `pow(10.0f, 0.5f)` is the
finite value 3.1622777, greater than `1.1`, and the cutoff ratio is `1.5`, not
that value. -/
theorem cutoff_ratio_default_exponent_counterexample :
    sqrtTenArith.powF ten (sqrtTenArith.divF one (Flt.fin 2)) = sqrtTenF ∧
    sqrtTenF.gt onePointOne = true ∧
    cutoffRatio sqrtTenArith (Flt.fin 2) = onePointFive ∧
    cutoffRatio sqrtTenArith (Flt.fin 2) ≠ sqrtTenArith.powF ten
      (sqrtTenArith.divF one (Flt.fin 2)) := by
  decide!

/-- C10, amended.  With `test = pow(10.0f, 1.0f / exponent)`: when `test` is
greater than `1.1` and less than `1.5` the cutoff ratio equals `test`; when
`test` is greater than `1.1` and not less than `1.5` the cutoff ratio is `1.5`. -/
theorem cutoff_ratio_formula (A : Arith) (exponent : Flt) :
    (((A.powF ten (A.divF one exponent)).gt onePointOne = true ∧
        (A.powF ten (A.divF one exponent)).lt onePointFive = true) →
      cutoffRatio A exponent = A.powF ten (A.divF one exponent)) ∧
    (((A.powF ten (A.divF one exponent)).gt onePointOne = true ∧
        (A.powF ten (A.divF one exponent)).lt onePointFive = false) →
      cutoffRatio A exponent = onePointFive) := by
  unfold cutoffRatio cutoffRatioOfTest
  generalize A.powF ten (A.divF one exponent) = test
  refine ⟨?_, ?_⟩
  · rintro ⟨h1, h2⟩
    have h0 : test.gt one = true :=
      flt_lt_trans (by decide! : one.lt onePointOne = true) h1
    simp [h0, h1, h2]
  · rintro ⟨_, h2⟩
    simp [h2]

/-- Witness for the amended C10: a `pow` value of `1.25` is kept as the cutoff
ratio, and the value 3.1622777 of the default exponent gives `1.5`. -/
theorem cutoff_ratio_formula_witness :
    cutoffRatio flatPowArith (Flt.fin 10)
      = flatPowArith.powF ten (flatPowArith.divF one (Flt.fin 10)) ∧
    cutoffRatio sqrtTenArith (Flt.fin 2) = onePointFive :=
  ⟨(cutoff_ratio_formula flatPowArith (Flt.fin 10)).1 (by decide!),
    (cutoff_ratio_formula sqrtTenArith (Flt.fin 2)).2 (by decide!)⟩

/-- C11. Cutoff ratio lower clamp.  With `test = pow(10.0f, 1.0f / exponent)`:
when `test` is greater than `1` and not greater than `1.1`, the cutoff ratio is
exactly `1.1`. -/
theorem cutoff_ratio_lower_clamp (A : Arith) (exponent : Flt)
    (h1 : (A.powF ten (A.divF one exponent)).gt one = true)
    (h2 : (A.powF ten (A.divF one exponent)).gt onePointOne = false) :
    cutoffRatio A exponent = onePointOne := by
  unfold cutoffRatio cutoffRatioOfTest
  generalize A.powF ten (A.divF one exponent) = test at h1 h2
  have h3 : test.lt onePointFive = true := by
    cases test with
    | nan => simp [Flt.gt, Flt.lt, one] at h1
    | ninf => simp [Flt.gt, Flt.lt, one] at h1
    | pinf => simp [Flt.gt, Flt.lt, onePointOne] at h2
    | fin q =>
      simp only [Flt.gt, Flt.lt, onePointOne, decide_eq_false_iff_not, not_lt] at h2
      simp only [Flt.lt, onePointFive, decide_eq_true_eq]
      have : (9227469 : ℚ) / 8388608 < 3 / 2 := by norm_num
      exact lt_of_le_of_lt h2 this
  simp [h1, h2, h3]

/-- Witness for C11: a `pow` value of `1.05` is clamped to `1.1`. -/
theorem cutoff_ratio_lower_clamp_witness :
    cutoffRatio lowPowArith (Flt.fin 47) = onePointOne :=
  cutoff_ratio_lower_clamp lowPowArith (Flt.fin 47) (by decide!) (by decide!)

/-- C12. Cutoff ratio fallback.  With `test = pow(10.0f, 1.0f / exponent)`: when
`test` is not greater than `1`, as for every negative exponent, the cutoff ratio
is the default `1.5`. -/
theorem cutoff_ratio_fallback (A : Arith) (exponent : Flt)
    (h1 : (A.powF ten (A.divF one exponent)).gt one = false) :
    cutoffRatio A exponent = onePointFive := by
  unfold cutoffRatio cutoffRatioOfTest
  simp [h1]

/-- Witness for C12: for the exponent `-1`, `10^(1/e)` is `0.1` and the cutoff
ratio is `1.5`. -/
theorem cutoff_ratio_fallback_witness :
    zpowArith.powF ten (zpowArith.divF one (Flt.fin (-1))) = Flt.fin (1 / 10) ∧
    cutoffRatio zpowArith (Flt.fin (-1)) = onePointFive :=
  ⟨by decide!, cutoff_ratio_fallback zpowArith (Flt.fin (-1)) (by decide!)⟩

/-- C13 as stated fails in `float` arithmetic, with `d = 0` and `d0 = 1` in each
case.  For the area `0` and the exponent `1000` the power `pow(0.9f, 1000)`
underflows to `0` and the weight `0 / 0` is NaN, for which `weight >= 0` fails.
For the area FLT_MAX and the exponent `2` the quotient overflows and the weight
is `+inf`.  For the area `1` and the exponent `1` the quotient `1 / 0.9f` is
rounded up to 1.11111116, above the bound `1 / 0.9f`. -/
theorem weight_bounds_counterexample :
    floatArith.powF tolerance (Flt.fin 1000) = Flt.fin 0 ∧
    weight floatArith (Flt.fin 0) (Flt.fin 0) (Flt.fin 1) (Flt.fin 1000) = Flt.nan ∧
    Flt.nan.ge Flt.zero = false ∧
    weight floatArith (Flt.fin fltMax) (Flt.fin 0) (Flt.fin 1) (Flt.fin 2) = Flt.pinf ∧
    weight floatArith (Flt.fin 1) (Flt.fin 0) (Flt.fin 1) (Flt.fin 1)
      = Flt.fin (9320676 / 8388608) ∧
    (1 : ℚ) / (15099494 / 16777216) ^ 1 < 9320676 / 8388608 := by
  decide!

/-- C13, amended.  (1) In an arithmetic that never makes a negative value out of
operands that are not negative, as IEEE arithmetic with its rounding, overflow
and underflow, the weight of a vertex whose area is not negative is not negative:
it is a finite value `≥ 0`, `+inf` or NaN, for every distance, nearest distance
and exponent.  (2) In exact arithmetic, where quotients of finite values are
exact and `pow(·, e)` is finite, positive on positive bases and monotone in the
base, for every area `a ≥ 0`, exponent `e ≥ 0`, nearest distance `d0 > 0` and
every distance `d` the weight is a finite value `w` with `0 ≤ w ≤ a / t`, where
`t` is `pow(0.9f, e)`. -/
theorem weight_nonneg_and_bounded (A : Arith) :
    (NonNegArith A → ∀ area dist closestDist exponent : Flt, area.lt Flt.zero = false →
      (weight A area dist closestDist exponent).lt Flt.zero = false) ∧
    (ExactArith A → ∀ a d d0 e : ℚ, 0 ≤ a → 0 ≤ e → 0 < d0 →
      (∀ q : ℚ, 0 < q → ∃ r : ℚ, 0 < r ∧ A.powF (Flt.fin q) (Flt.fin e) = Flt.fin r) →
      (0 ≤ e → ∀ p q rp rq : ℚ, 0 < p → p ≤ q →
        A.powF (Flt.fin p) (Flt.fin e) = Flt.fin rp →
        A.powF (Flt.fin q) (Flt.fin e) = Flt.fin rq → rp ≤ rq) →
      ∃ w t : ℚ, weight A (Flt.fin a) (Flt.fin d) (Flt.fin d0) (Flt.fin e) = Flt.fin w ∧
        A.powF tolerance (Flt.fin e) = Flt.fin t ∧ 0 < t ∧ 0 ≤ w ∧ w ≤ a / t) :=
  ⟨fun hA area dist closestDist exponent harea =>
      weight_nn A hA area dist closestDist exponent harea,
    fun hA a d d0 e ha he hd0 hpos hmono =>
      weight_bounded_exact A hA a d d0 e ha he hd0 hpos hmono⟩

/-- Witness for the amended C13: in `floatArith` the weight of the area FLT_MAX
with exponent `2` is not negative; in exact arithmetic with the exponent `2`, the
area `3`, the distance `2` and the nearest distance `1` the weight is bounded. -/
theorem weight_nonneg_and_bounded_witness :
    (weight floatArith (Flt.fin fltMax) (Flt.fin 0) (Flt.fin 1) (Flt.fin 2)).lt Flt.zero
      = false ∧
    ∃ w t : ℚ, weight exactArith (Flt.fin 3) (Flt.fin 2) (Flt.fin 1) (Flt.fin 2) = Flt.fin w ∧
      exactArith.powF tolerance (Flt.fin 2) = Flt.fin t ∧ 0 < t ∧ 0 ≤ w ∧ w ≤ 3 / t :=
  ⟨(weight_nonneg_and_bounded floatArith).1 floatArith_nonneg (Flt.fin fltMax) (Flt.fin 0)
      (Flt.fin 1) (Flt.fin 2) (by decide!),
    (weight_nonneg_and_bounded exactArith).2 exactArith_exact 3 2 1 2 (by norm_num)
      (by norm_num) (by norm_num) exactArith_pow_two_pos (fun _ => exactArith_pow_two_mono)⟩

/-- C14. Weighted mode with a single source, in exact arithmetic.  For a bad
vertex `v` whose stencil holds exactly one entry `(s, w)` with a finite weight,
and a column of finite values: the stored weight sum is `w`, it is not zero, and
the output at `v` is the input value at `s`. -/
theorem single_source_output (A : Arith) (hA : ExactArith A) (topo : TopologyHelper)
    (geo : GeodesicHelper) (colScratch : Nat → Flt) (x : Nat → ℚ) (numNodes : Nat)
    (myAreas badNodeData : Nat → Flt) (dataRoiVals : Option (Nat → Flt))
    (distance exponent : Flt) (v : Nat) (hv : v < numNodes)
    (hb : (badNodeData v).gt Flt.zero = true) (s : Nat) (w : ℚ)
    (hone : (stencilFor A topo geo (classify numNodes badNodeData dataRoiVals).1 myAreas
      distance exponent (cutoffRatio A exponent) v).m_weightlist = [(s, Flt.fin w)]) :
    (stencilFor A topo geo (classify numNodes badNodeData dataRoiVals).1 myAreas
      distance exponent (cutoffRatio A exponent) v).m_weightsum = Flt.fin w ∧
    w ≠ 0 ∧
    processColumnStencils A colScratch numNodes (fun i => Flt.fin (x i))
      (precomputeStencils A topo geo numNodes myAreas badNodeData dataRoiVals distance
        exponent) v = Flt.fin (x s) := by
  have hne : (stencilFor A topo geo (classify numNodes badNodeData dataRoiVals).1 myAreas
      distance exponent (cutoffRatio A exponent) v).m_weightlist ≠ [] := by
    rw [hone]
    exact List.cons_ne_nil _ _
  obtain ⟨_, hz, hst⟩ := stencilFor_nonempty A topo geo _ myAreas distance exponent _ v hne
  have hent : stencilEntries A geo (classify numNodes badNodeData dataRoiVals).1 myAreas
      exponent (cutoffRatio A exponent) v
      (resolveClosest topo geo (classify numNodes badNodeData dataRoiVals).1 v distance).2
      = finEntries [(s, w)] := by
    rw [hst] at hone
    exact hone
  rw [hent] at hz hst
  have hsum : weightSum A (finEntries [(s, w)]) = Flt.fin w := by
    rw [weightSum_fin A hA]
    simp
  rw [hsum] at hz hst
  have hw : w ≠ 0 := by
    rw [flt_eqF_fin_zero] at hz
    simpa using hz
  refine ⟨by rw [hst], hw, ?_⟩
  rw [processColumnStencils_precompute A topo geo colScratch _ numNodes myAreas badNodeData
    dataRoiVals distance exponent v hv hb, hst]
  have hacc : stencilAccum A (fun i => Flt.fin (x i)) (finEntries [(s, w)])
      = Flt.fin (x s * w) := by
    rw [stencilAccum_fin A hA]
    simp
  show (if (finEntries [(s, w)]).length > 0 then
      A.divD (stencilAccum A (fun i => Flt.fin (x i)) (finEntries [(s, w)])) (Flt.fin w)
    else Flt.zero) = _
  rw [if_pos (by simp [finEntries]), hacc, hA.divD_fin _ _ hw]
  congr 1
  field_simp

/-- Witness for C14 on the line mesh with vertex `1` bad and a data ROI that
leaves vertex `2` as the only source: the output at vertex `1` is the value `7`
of vertex `2`. -/
theorem single_source_output_witness :
    (stencilFor exactArith lineTopo lineGeo (classify 3 lineBad (some lineDataRoi)).1 lineAreas
      (Flt.fin 1) (Flt.fin 2) (cutoffRatio exactArith (Flt.fin 2)) 1).m_weightsum
      = Flt.fin 1 ∧
    (1 : ℚ) ≠ 0 ∧
    processColumnStencils exactArith (fun _ => Flt.zero) 3 (fun i => Flt.fin (lineInputQ i))
      (precomputeStencils exactArith lineTopo lineGeo 3 lineAreas lineBad (some lineDataRoi)
        (Flt.fin 1) (Flt.fin 2)) 1 = Flt.fin (lineInputQ 2) :=
  single_source_output exactArith exactArith_exact lineTopo lineGeo (fun _ => Flt.zero)
    lineInputQ 3 lineAreas lineBad (some lineDataRoi) (Flt.fin 1) (Flt.fin 2) 1 (by decide)
    (by decide) 2 1 (by decide!)

/-- C15 as stated fails in `float` arithmetic.  On the line mesh with vertex `1`
bad, the exponent `2` and the search distance `1`, the valid candidates `0` and
`2` both lie at the distance `1`, which is the nearest distance, and have equal
areas.  With the areas FLT_MAX and the values `5` and `7` the weight sum
overflows to `+inf` and the output is NaN, not the mean `6`.  With the areas `3`
and the value 1.70000005 at both candidates each product rounds to 5.10000038
and the output is 1.70000017, not the mean 1.70000005. -/
theorem equal_weights_counterexample :
    resolveClosest lineTopo lineGeo (classify 3 lineBad none).1 1 (Flt.fin 1)
      = (0, Flt.fin 1) ∧
    validCandidates floatArith lineGeo (classify 3 lineBad none).1
      (cutoffRatio floatArith (Flt.fin 2)) 1 (Flt.fin 1) = [(0, Flt.fin 1), (2, Flt.fin 1)] ∧
    processColumnStencils floatArith (fun _ => Flt.zero) 3 lineInput
      (precomputeStencils floatArith lineTopo lineGeo 3 hugeAreas lineBad none (Flt.fin 1)
        (Flt.fin 2)) 1 = Flt.nan ∧
    lineInputF 0 = Flt.fin onePointSevenF ∧
    lineInputF 2 = Flt.fin onePointSevenF ∧
    floatArith.mulF (Flt.fin onePointSevenF) (Flt.fin 3) = Flt.fin (10695476 / 2097152) ∧
    processColumnStencils floatArith (fun _ => Flt.zero) 3 lineInputF
      (precomputeStencils floatArith lineTopo lineGeo 3 threeAreas lineBad none (Flt.fin 1)
        (Flt.fin 2)) 1 = Flt.fin (14260635 / 8388608) ∧
    (14260635 / 8388608 : ℚ) ≠ (onePointSevenF + onePointSevenF) / 2 := by
  decide!

/-- C15, amended.  Equal-weight case on the precomputed path, in exact arithmetic
(exact on finite operands) with `pow(1, e) = 1`.  Let `v` be
a bad vertex with a resolved closest vertex at distance `d > 0`, whose valid
candidates within the cutoff radius all lie at the distance `d` and all have the
same area `a > 0`, at least one candidate being there.  Then for every exponent
and every column of finite values the weighted-mode output at `v` is the
arithmetic mean of the candidates' input values. -/
theorem equal_weights_give_mean (A : Arith) (hA : ExactArith A) (topo : TopologyHelper)
    (geo : GeodesicHelper) (colScratch : Nat → Flt) (x : Nat → ℚ) (numNodes : Nat)
    (myAreas badNodeData : Nat → Flt) (dataRoiVals : Option (Nat → Flt))
    (distance exponent : Flt) (v : Nat) (hv : v < numNodes)
    (hb : (badNodeData v).gt Flt.zero = true) (a d : ℚ) (ha : 0 < a) (hd : 0 < d)
    (hres : (resolveClosest topo geo (classify numNodes badNodeData dataRoiVals).1 v
      distance).1 ≠ -1)
    (hdist : (resolveClosest topo geo (classify numNodes badNodeData dataRoiVals).1 v
      distance).2 = Flt.fin d)
    (hpow : A.powF (Flt.fin 1) exponent = Flt.fin 1)
    (hne : validCandidates A geo (classify numNodes badNodeData dataRoiVals).1
      (cutoffRatio A exponent) v (Flt.fin d) ≠ [])
    (hall : ∀ p ∈ validCandidates A geo (classify numNodes badNodeData dataRoiVals).1
      (cutoffRatio A exponent) v (Flt.fin d), p.2 = Flt.fin d ∧ myAreas p.1 = Flt.fin a) :
    processColumnStencils A colScratch numNodes (fun i => Flt.fin (x i))
      (precomputeStencils A topo geo numNodes myAreas badNodeData dataRoiVals distance
        exponent) v
      = Flt.fin (((validCandidates A geo (classify numNodes badNodeData dataRoiVals).1
            (cutoffRatio A exponent) v (Flt.fin d)).map (fun p => x p.1)).sum
          / ((validCandidates A geo (classify numNodes badNodeData dataRoiVals).1
            (cutoffRatio A exponent) v (Flt.fin d)).length : ℚ)) := by
  generalize hc : validCandidates A geo (classify numNodes badNodeData dataRoiVals).1
    (cutoffRatio A exponent) v (Flt.fin d) = cands at hne hall
  have hent : stencilEntries A geo (classify numNodes badNodeData dataRoiVals).1 myAreas
      exponent (cutoffRatio A exponent) v
      (resolveClosest topo geo (classify numNodes badNodeData dataRoiVals).1 v distance).2
      = finEntries (cands.map (fun p => (p.1, a))) := by
    rw [stencilEntries_eq_map, hdist, hc]
    unfold finEntries
    rw [List.map_map]
    apply List.map_congr_left
    intro p hp
    obtain ⟨h1, h2⟩ := hall p hp
    simp only [Function.comp]
    rw [h1, h2, weight_at_closest A hA a d (ne_of_gt hd) exponent hpow]
  have hlen : (0 : ℚ) < (cands.length : ℚ) := by
    have : 0 < cands.length := List.length_pos.2 hne
    exact_mod_cast this
  have hsum : ((cands.map (fun p => (p.1, a))).map Prod.snd).sum ≠ 0 := by
    rw [sum_snd_const]
    exact ne_of_gt (mul_pos hlen ha)
  rw [processColumnStencils_fin A hA topo geo colScratch x numNodes myAreas badNodeData
    dataRoiVals distance exponent v hv hb hres _ hent hsum, sum_snd_const, sum_mul_const]
  congr 1
  exact mul_div_mul_right _ _ (ne_of_gt ha)

/-- Witness for the amended C15: the hexagon of seven vertices with the centre bad, exponent
`2`, six neighbours at distance `1` with equal areas; the centre takes the mean
of the six neighbour values. -/
theorem equal_weights_give_mean_witness :
    processColumnStencils exactArith (fun _ => Flt.zero) 7 (fun i => Flt.fin (hexInputQ i))
        (precomputeStencils exactArith hexTopo hexGeo 7 hexAreas hexBad none (Flt.fin 1)
          (Flt.fin 2)) 0
      = Flt.fin (((validCandidates exactArith hexGeo (classify 7 hexBad none).1
            (cutoffRatio exactArith (Flt.fin 2)) 0 (Flt.fin 1)).map
              (fun p => hexInputQ p.1)).sum
          / ((validCandidates exactArith hexGeo (classify 7 hexBad none).1
            (cutoffRatio exactArith (Flt.fin 2)) 0 (Flt.fin 1)).length : ℚ)) ∧
    (validCandidates exactArith hexGeo (classify 7 hexBad none).1
      (cutoffRatio exactArith (Flt.fin 2)) 0 (Flt.fin 1)).map Prod.fst = [1, 2, 3, 4, 5, 6] :=
  ⟨equal_weights_give_mean exactArith exactArith_exact hexTopo hexGeo (fun _ => Flt.zero)
    hexInputQ 7 hexAreas hexBad none (Flt.fin 1) (Flt.fin 2) 0 (by decide) (by decide) 2 1
    (by norm_num) (by norm_num) (by decide!) (by decide!) (by decide!) (by decide!)
    (by decide!), by decide!⟩

/-- C16 as stated fails in `float` arithmetic when the weights overflow.  On the
line mesh with vertex `1` bad (on the direct path: holding the value `0`), the
input values `5` and `7` at the vertices `0` and `2`, all areas FLT_MAX, the
exponent `2` and the search distance `1`, both weights are FLT_MAX, their `float`
sum is `+inf`, both products are `+inf`, and the output `inf / inf` at vertex `1`
is NaN on the precomputed and on the direct path; `NaN >= 0` is false. -/
theorem output_nonneg_counterexample :
    (∀ i, i < 3 → (lineInput i).ge Flt.zero = true) ∧
    (∀ i, i < 3 → (hugeAreas i).ge Flt.zero = true) ∧
    (stencilFor floatArith lineTopo lineGeo (classify 3 lineBad none).1 hugeAreas (Flt.fin 1)
      (Flt.fin 2) (cutoffRatio floatArith (Flt.fin 2)) 1).m_weightlist
      = [(0, Flt.fin fltMax), (2, Flt.fin fltMax)] ∧
    (stencilFor floatArith lineTopo lineGeo (classify 3 lineBad none).1 hugeAreas (Flt.fin 1)
      (Flt.fin 2) (cutoffRatio floatArith (Flt.fin 2)) 1).m_weightsum = Flt.pinf ∧
    processColumnStencils floatArith (fun _ => Flt.zero) 3 lineInput
      (precomputeStencils floatArith lineTopo lineGeo 3 hugeAreas lineBad none (Flt.fin 1)
        (Flt.fin 2)) 1 = Flt.nan ∧
    processColumn floatArith lineTopo lineGeo (fun _ => Flt.zero) lineInput 3 hugeAreas none
      (Flt.fin 1) false (Flt.fin 2) 1 = Flt.nan ∧
    Flt.nan.ge Flt.zero = false := by
  decide!

/-- C16, amended.  (1) In an arithmetic that never makes a negative value out of
operands that are not negative, as IEEE arithmetic with its rounding, overflow
and underflow: if no input value of the column and no vertex area is negative,
then the output at every vertex `v` of the mesh is not negative, that is a finite
value `≥ 0`, `+inf` or NaN, in nearest mode and in weighted mode, on the
precomputed path and on the direct path.  (2) In exact arithmetic, that is exact
on finite operands, with a `pow(·, exponent)` that is positive on positive bases
and in which an infinite ratio, if one arises, gives a finite weight `≥ 0` (IEEE
gives the weight `0` for a positive exponent): if every input value and every
vertex area is a finite value `≥ 0`, the output at every vertex `v` of the mesh
is a finite value `≥ 0` on the same paths.  Both hold whatever the ROIs, the
search distance and the oracles are. -/
theorem output_nonneg (A : Arith) (topo : TopologyHelper) (geo : GeodesicHelper)
    (colScratch : Nat → Flt) (numNodes : Nat) (exponent : Flt) (v : Nat)
    (hv : v < numNodes) :
    (NonNegArith A → ∀ x ar : Nat → Flt, (∀ i, (x i).lt Flt.zero = false) →
      (∀ i, (ar i).lt Flt.zero = false) →
      (∀ (badNodeData : Nat → Flt) (dataRoiVals : Option (Nat → Flt)) (distance : Flt),
        (processColumnNearest colScratch numNodes x
          (precomputeNearest topo geo numNodes badNodeData dataRoiVals distance) v).lt
          Flt.zero = false) ∧
      (∀ (badNodeData : Nat → Flt) (dataRoiVals : Option (Nat → Flt)) (distance : Flt),
        (processColumnStencils A colScratch numNodes x
          (precomputeStencils A topo geo numNodes ar badNodeData dataRoiVals distance
            exponent) v).lt Flt.zero = false) ∧
      (∀ (dataRoiVals : Option (Nat → Flt)) (distance : Flt) (nearest : Bool),
        (processColumn A topo geo colScratch x numNodes ar dataRoiVals distance nearest
          exponent v).lt Flt.zero = false)) ∧
    (ExactArith A →
      (∀ p q : Flt, A.divF p q = Flt.pinf → ∀ a : ℚ, 0 ≤ a →
        ∃ w : ℚ, 0 ≤ w ∧ A.divF (Flt.fin a) (A.powF Flt.pinf exponent) = Flt.fin w) →
      (∀ q : ℚ, 0 < q → ∃ r : ℚ, 0 < r ∧ A.powF (Flt.fin q) exponent = Flt.fin r) →
      ∀ x ar : Nat → ℚ, (∀ i, 0 ≤ x i) → (∀ i, 0 ≤ ar i) →
      (∀ (badNodeData : Nat → Flt) (dataRoiVals : Option (Nat → Flt)) (distance : Flt),
        ∃ y : ℚ, 0 ≤ y ∧
          processColumnNearest colScratch numNodes (fun i => Flt.fin (x i))
            (precomputeNearest topo geo numNodes badNodeData dataRoiVals distance) v
            = Flt.fin y) ∧
      (∀ (badNodeData : Nat → Flt) (dataRoiVals : Option (Nat → Flt)) (distance : Flt),
        ∃ y : ℚ, 0 ≤ y ∧
          processColumnStencils A colScratch numNodes (fun i => Flt.fin (x i))
            (precomputeStencils A topo geo numNodes (fun i => Flt.fin (ar i)) badNodeData
              dataRoiVals distance exponent) v
            = Flt.fin y) ∧
      (∀ (dataRoiVals : Option (Nat → Flt)) (distance : Flt) (nearest : Bool),
        ∃ y : ℚ, 0 ≤ y ∧
          processColumn A topo geo colScratch (fun i => Flt.fin (x i)) numNodes
            (fun i => Flt.fin (ar i)) dataRoiVals distance nearest exponent v
            = Flt.fin y)) :=
  ⟨fun hA x ar hx har =>
      output_not_negative A hA topo geo colScratch x ar hx har numNodes exponent v hv,
    fun hA hinf hpow x ar hx har =>
      output_nonneg_exact A hA topo geo colScratch x ar hx har numNodes exponent hinf hpow
        v hv⟩

/-- Witness for the amended C16 on the line mesh with the column `5, 0, 7` and the
exponent `2`, at vertex `1`: in `floatArith` with all areas FLT_MAX the weighted
outputs are not negative (they are NaN), and in exact arithmetic with unit areas
the output is a finite value `≥ 0` on each path. -/
theorem output_nonneg_witness :
    ((processColumnStencils floatArith (fun _ => Flt.zero) 3 lineInput
        (precomputeStencils floatArith lineTopo lineGeo 3 hugeAreas lineBad none (Flt.fin 1)
          (Flt.fin 2)) 1).lt Flt.zero = false ∧
      (processColumn floatArith lineTopo lineGeo (fun _ => Flt.zero) lineInput 3 hugeAreas
        none (Flt.fin 1) false (Flt.fin 2) 1).lt Flt.zero = false) ∧
    (∃ y : ℚ, 0 ≤ y ∧
      processColumnNearest (fun _ => Flt.zero) 3 (fun i => Flt.fin (lineInputQ i))
        (precomputeNearest lineTopo lineGeo 3 lineBad none (Flt.fin 1)) 1 = Flt.fin y) ∧
    (∃ y : ℚ, 0 ≤ y ∧
      processColumnStencils exactArith (fun _ => Flt.zero) 3 (fun i => Flt.fin (lineInputQ i))
        (precomputeStencils exactArith lineTopo lineGeo 3 (fun i => Flt.fin ((fun _ => 1) i))
          lineBad none (Flt.fin 1) (Flt.fin 2)) 1 = Flt.fin y) ∧
    (∃ y : ℚ, 0 ≤ y ∧
      processColumn exactArith lineTopo lineGeo (fun _ => Flt.zero)
        (fun i => Flt.fin (lineInputQ i)) 3 (fun i => Flt.fin ((fun _ => 1) i)) none
        (Flt.fin 1) false (Flt.fin 2) 1 = Flt.fin y) :=
  have hf := (output_nonneg floatArith lineTopo lineGeo (fun _ => Flt.zero) 3 (Flt.fin 2) 1
    (by decide)).1 floatArith_nonneg lineInput hugeAreas lineInput_nn hugeAreas_nn
  have h := (output_nonneg exactArith lineTopo lineGeo (fun _ => Flt.zero) 3 (Flt.fin 2) 1
    (by decide)).2 exactArith_exact exactArith_no_pinf exactArith_pow_two_pos
    lineInputQ (fun _ => 1) lineInputQ_nonneg (fun _ => zero_le_one)
  ⟨⟨hf.2.1 lineBad none (Flt.fin 1), hf.2.2 none (Flt.fin 1) false⟩,
    h.1 lineBad none (Flt.fin 1), h.2.1 lineBad none (Flt.fin 1), h.2.2 none (Flt.fin 1) false⟩

/-- C17 as stated fails on the gap mesh (vertices at `-5, 0, 1, 2` on a line,
vertices `1` and `2` bad, exponent `2`).  With search distance `1` the query finds
nothing for vertex `1`, the fallback resolves the neighbour `0` at distance `5`
and the stencil has the sources `0` and `3`; with the larger search distance `2`
the query finds vertex `3` at distance `2` and the stencil has the source `3`
only: the source `0` has been removed. -/
theorem monotonic_radius_counterexample :
    (Flt.fin 1).lt (Flt.fin 2) = true ∧
    resolveClosest gapTopo gapGeo (classify 4 gapBad none).1 1 (Flt.fin 1) = (0, Flt.fin 5) ∧
    resolveClosest gapTopo gapGeo (classify 4 gapBad none).1 1 (Flt.fin 2) = (3, Flt.fin 2) ∧
    (precomputeStencils exactArith gapTopo gapGeo 4 lineAreas gapBad none (Flt.fin 1)
      (Flt.fin 2)).map (fun e => (e.1, e.2.m_weightlist.map Prod.fst))
      = [(1, [0, 3]), (2, [3])] ∧
    (precomputeStencils exactArith gapTopo gapGeo 4 lineAreas gapBad none (Flt.fin 2)
      (Flt.fin 2)).map (fun e => (e.1, e.2.m_weightlist.map Prod.fst))
      = [(1, [3]), (2, [3])] ∧
    0 ∈ (stencilFor exactArith gapTopo gapGeo (classify 4 gapBad none).1 lineAreas (Flt.fin 1)
      (Flt.fin 2) (cutoffRatio exactArith (Flt.fin 2)) 1).m_weightlist.map Prod.fst ∧
    0 ∉ (stencilFor exactArith gapTopo gapGeo (classify 4 gapBad none).1 lineAreas (Flt.fin 2)
      (Flt.fin 2) (cutoffRatio exactArith (Flt.fin 2)) 1).m_weightlist.map Prod.fst := by
  decide!

/-- C17, amended.  For a fixed mesh, ROIs, exponent and bad vertex `v`: if for
two search distances the nearest-valid query of the oracle gives the same result
(none for both, or the same vertex and distance), then the entry of `v` is the
same stencil in both precomputed lists; so every source vertex of the stencil of
`v` built with the first search distance is a source vertex of the one built
with the second. -/
theorem monotonic_radius_same_query (A : Arith) (topo : TopologyHelper)
    (geo : GeodesicHelper) (numNodes : Nat) (myAreas badNodeData : Nat → Flt)
    (dataRoiVals : Option (Nat → Flt)) (distance1 distance2 exponent : Flt) (v : Nat)
    (hv : v < numNodes) (hb : (badNodeData v).gt Flt.zero = true)
    (h : ((geo.getClosestNodeInRoi v (classify numNodes badNodeData dataRoiVals).1
          distance1).1 = -1 ∧
        (geo.getClosestNodeInRoi v (classify numNodes badNodeData dataRoiVals).1
          distance2).1 = -1) ∨
      geo.getClosestNodeInRoi v (classify numNodes badNodeData dataRoiVals).1 distance1
        = geo.getClosestNodeInRoi v (classify numNodes badNodeData dataRoiVals).1 distance2) :
    (∃ s, (v, s) ∈ precomputeStencils A topo geo numNodes myAreas badNodeData dataRoiVals
        distance1 exponent ∧
      (v, s) ∈ precomputeStencils A topo geo numNodes myAreas badNodeData dataRoiVals
        distance2 exponent) ∧
    (∀ s1 s2 : StencilElem,
      (v, s1) ∈ precomputeStencils A topo geo numNodes myAreas badNodeData dataRoiVals
        distance1 exponent →
      (v, s2) ∈ precomputeStencils A topo geo numNodes myAreas badNodeData dataRoiVals
        distance2 exponent →
      ∀ src ∈ s1.m_weightlist.map Prod.fst, src ∈ s2.m_weightlist.map Prod.fst) := by
  have hsame := stencilFor_same_query A topo geo (classify numNodes badNodeData dataRoiVals).1
    myAreas distance1 distance2 exponent (cutoffRatio A exponent) v h
  have hmem : v ∈ badVertices numNodes badNodeData := (mem_badVertices _ _ _).2 ⟨hv, hb⟩
  refine ⟨?_, ?_⟩
  · refine ⟨stencilFor A topo geo (classify numNodes badNodeData dataRoiVals).1 myAreas
      distance1 exponent (cutoffRatio A exponent) v, ?_, ?_⟩
    · rw [precomputeStencils_eq, List.mem_map]
      exact ⟨v, hmem, rfl⟩
    · rw [precomputeStencils_eq, List.mem_map]
      exact ⟨v, hmem, by rw [hsame]⟩
  · intro s1 s2 h1 h2 src hsrc
    rw [precomputeStencils_eq, List.mem_map] at h1 h2
    obtain ⟨i1, _, e1⟩ := h1
    obtain ⟨i2, _, e2⟩ := h2
    have hi1 : i1 = v := congrArg Prod.fst e1
    have hi2 : i2 = v := congrArg Prod.fst e2
    have hs1 := congrArg Prod.snd e1
    have hs2 := congrArg Prod.snd e2
    simp only at hs1 hs2
    rw [hi1] at hs1
    rw [hi2] at hs2
    rw [← hs2, ← hsame, hs1]
    exact hsrc

/-- Witness for the amended C17 on the gap mesh: for the search distances `2` and
`3` the query finds vertex `3` at distance `2` both times, and the stencil of
vertex `1` is the same. -/
theorem monotonic_radius_same_query_witness :
    ∃ s, (1, s) ∈ precomputeStencils exactArith gapTopo gapGeo 4 lineAreas gapBad none
        (Flt.fin 2) (Flt.fin 2) ∧
      (1, s) ∈ precomputeStencils exactArith gapTopo gapGeo 4 lineAreas gapBad none
        (Flt.fin 3) (Flt.fin 2) :=
  (monotonic_radius_same_query exactArith gapTopo gapGeo 4 lineAreas gapBad none (Flt.fin 2)
    (Flt.fin 3) (Flt.fin 2) 1 (by decide) (by decide) (Or.inr (by decide!))).1

/-- C18. The direct path is the inline equivalent of the precomputed path, in
exact arithmetic (where the `double` accumulation and division of the stencil
applier agree with the `float` ones of the direct path).  For every input
column, data ROI, search distance and exponent, and every bad-vertex ROI that is
positive exactly on the vertices the direct path fills (input value `== 0.0`
and data-ROI gate passed), the direct `processColumn` leaves in `colScratch`
the same column as `precomputeNearest` followed by its `processColumn` in
nearest mode, and as `precomputeStencils` followed by its `processColumn` in
weighted mode. -/
theorem direct_equals_precomputed (A : Arith) (hadd : A.addD = A.addF)
    (hdiv : A.divD = A.divF) (topo : TopologyHelper) (geo : GeodesicHelper)
    (colScratch myInputData : Nat → Flt) (numNodes : Nat) (myAreas badNodeData : Nat → Flt)
    (dataRoiVals : Option (Nat → Flt)) (distance exponent : Flt)
    (hbad : ∀ i, i < numNodes →
      (badNodeData i).gt Flt.zero = directIsBad myInputData dataRoiVals i) :
    processColumn A topo geo colScratch myInputData numNodes myAreas dataRoiVals distance
        true exponent
      = processColumnNearest colScratch numNodes myInputData
          (precomputeNearest topo geo numNodes badNodeData dataRoiVals distance) ∧
    processColumn A topo geo colScratch myInputData numNodes myAreas dataRoiVals distance
        false exponent
      = processColumnStencils A colScratch numNodes myInputData
          (precomputeStencils A topo geo numNodes myAreas badNodeData dataRoiVals distance
            exponent) := by
  have hmask := classify_eq_directCharRoi numNodes myInputData badNodeData dataRoiVals hbad
  refine ⟨?_, ?_⟩
  · funext v
    by_cases hv : v < numNodes
    · rw [processColumn_apply _ _ _ _ _ _ _ _ _ _ _ _ hv]
      by_cases hb : directIsBad myInputData dataRoiVals v = true
      · rw [if_pos hb, processColumnNearest_precompute topo geo colScratch myInputData
          numNodes badNodeData dataRoiVals distance v hv ((hbad v hv).trans hb), hmask]
        by_cases hr : (resolveClosest topo geo
            (directCharRoi numNodes myInputData dataRoiVals) v distance).1 = -1
        · rw [directValue_none A topo geo _ _ _ _ _ _ _ _ hr]
          simp [nearestValue, hr]
        · rw [directValue_nearest A topo geo _ _ _ _ _ _ _ hr]
          simp [nearestValue, hr]
      · have hb2 : directIsBad myInputData dataRoiVals v = false := by simpa using hb
        rw [if_neg hb, processColumnNearest_precompute_not_bad topo geo colScratch
          myInputData numNodes badNodeData dataRoiVals distance v hv ((hbad v hv).trans hb2)]
    · rw [processColumn_apply_ge _ _ _ _ _ _ _ _ _ _ _ _ hv,
        processColumnNearest_precompute_ge _ _ _ _ _ _ _ _ _ hv]
  · funext v
    by_cases hv : v < numNodes
    · rw [processColumn_apply _ _ _ _ _ _ _ _ _ _ _ _ hv]
      by_cases hb : directIsBad myInputData dataRoiVals v = true
      · rw [if_pos hb, processColumnStencils_precompute A topo geo colScratch myInputData
          numNodes myAreas badNodeData dataRoiVals distance exponent v hv
          ((hbad v hv).trans hb), hmask,
          stencilValue_eq_directValue A hadd hdiv]
      · have hb2 : directIsBad myInputData dataRoiVals v = false := by simpa using hb
        rw [if_neg hb, processColumnStencils_precompute_not_bad A topo geo colScratch
          myInputData numNodes myAreas badNodeData dataRoiVals distance exponent v hv
          ((hbad v hv).trans hb2)]
    · rw [processColumn_apply_ge _ _ _ _ _ _ _ _ _ _ _ _ hv,
        processColumnStencils_precompute_ge _ _ _ _ _ _ _ _ _ _ _ _ hv]

/-- Witness for C18 on the line mesh: the column `5, 0, 7` processed directly,
and processed through the lists precomputed from the ROI that marks vertex `1`. -/
theorem direct_equals_precomputed_witness :
    processColumn exactArith lineTopo lineGeo (fun _ => Flt.zero) lineInput 3 lineAreas none
        (Flt.fin 1) true (Flt.fin 2)
      = processColumnNearest (fun _ => Flt.zero) 3 lineInput
          (precomputeNearest lineTopo lineGeo 3 lineBad none (Flt.fin 1)) ∧
    processColumn exactArith lineTopo lineGeo (fun _ => Flt.zero) lineInput 3 lineAreas none
        (Flt.fin 1) false (Flt.fin 2)
      = processColumnStencils exactArith (fun _ => Flt.zero) 3 lineInput
          (precomputeStencils exactArith lineTopo lineGeo 3 lineAreas lineBad none (Flt.fin 1)
            (Flt.fin 2)) :=
  direct_equals_precomputed exactArith rfl rfl lineTopo lineGeo (fun _ => Flt.zero) lineInput
    3 lineAreas lineBad none (Flt.fin 1) (Flt.fin 2) (by decide)

/-- C19 as stated fails in weighted mode when the weights sum to zero.  On the
line mesh with vertex `1` bad, a data ROI that is `0` at vertex `1` and `1`
elsewhere, and vertex areas `0`: vertex `1` has the valid direct neighbours `0`
and `2` (holding `5` and `7`), yet both weights are `0`, the guard
`m_weightsum == 0.0f` clears its stencil and its output is set to `0`. -/
theorem data_roi_zero_weight_counterexample :
    (lineBad 1).gt Flt.zero = true ∧
    (lineNoDataAtOne 1).gt Flt.zero = false ∧
    (∃ n ∈ lineTopo.getNodeNeighbors 1,
      (classify 3 lineBad (some lineNoDataAtOne)).1.getD n false = true) ∧
    (stencilEntries exactArith lineGeo (classify 3 lineBad (some lineNoDataAtOne)).1 zeroAreas
      (Flt.fin 2) (cutoffRatio exactArith (Flt.fin 2)) 1
      (resolveClosest lineTopo lineGeo (classify 3 lineBad (some lineNoDataAtOne)).1 1
        (Flt.fin 1)).2) = [(0, Flt.fin 0), (2, Flt.fin 0)] ∧
    (precomputeStencils exactArith lineTopo lineGeo 3 zeroAreas lineBad (some lineNoDataAtOne)
      (Flt.fin 1) (Flt.fin 2)).map (fun e => (e.1, e.2.m_weightlist)) = [(1, [])] ∧
    processColumnStencils exactArith (fun _ => Flt.fin 9) 3 lineInput
      (precomputeStencils exactArith lineTopo lineGeo 3 zeroAreas lineBad
        (some lineNoDataAtOne) (Flt.fin 1) (Flt.fin 2)) 1 = Flt.zero := by
  decide!

/-- C19, amended.  With a bad-vertex ROI supplied, the data ROI gates only the
sources.  A vertex `v` of the mesh whose bad-ROI value is `> 0` is a fill target
of both precomputed lists whatever the data ROI is, and its validity-mask entry
is false.  If it has a valid direct neighbour, a closest vertex is resolved (a
valid direct neighbour when the query found nothing); in nearest mode its output
is the input value at that vertex; in weighted mode every source of its stencil
is a valid vertex and, unless the weights sum to zero and the stencil is
cleared, its output is the quotient of the weighted sum by the weight sum. -/
theorem data_roi_gates_only_sources (A : Arith) (topo : TopologyHelper)
    (geo : GeodesicHelper) (colScratch myInputData : Nat → Flt) (numNodes : Nat)
    (myAreas badNodeData : Nat → Flt) (dataRoiVals : Option (Nat → Flt))
    (distance exponent : Flt) (v : Nat) (hv : v < numNodes)
    (hb : (badNodeData v).gt Flt.zero = true) :
    let charRoi := (classify numNodes badNodeData dataRoiVals).1
    let myNearest := precomputeNearest topo geo numNodes badNodeData dataRoiVals distance
    let myStencils := precomputeStencils A topo geo numNodes myAreas badNodeData dataRoiVals
      distance exponent
    let closestNode := (resolveClosest topo geo charRoi v distance).1
    let stencil := stencilFor A topo geo charRoi myAreas distance exponent
      (cutoffRatio A exponent) v
    (v ∈ myNearest.map Prod.fst ∧ v ∈ myStencils.map Prod.fst) ∧
    charRoi.getD v false = false ∧
    ((∃ n ∈ topo.getNodeNeighbors v, charRoi.getD n false = true) →
      closestNode ≠ -1 ∧
      ((geo.getClosestNodeInRoi v charRoi distance).1 = -1 →
        ∃ n ∈ topo.getNodeNeighbors v, charRoi.getD n false = true ∧ closestNode = (n : Int)) ∧
      processColumnNearest colScratch numNodes myInputData myNearest v
        = myInputData closestNode.toNat ∧
      (v, stencil) ∈ myStencils ∧
      (∀ e ∈ stencil.m_weightlist, charRoi.getD e.1 false = true) ∧
      (stencil.m_weightlist ≠ [] →
        processColumnStencils A colScratch numNodes myInputData myStencils v
          = A.divD (stencilAccum A myInputData stencil.m_weightlist) stencil.m_weightsum)) := by
  intro charRoi myNearest myStencils closestNode stencil
  have hmem : v ∈ badVertices numNodes badNodeData := (mem_badVertices _ _ _).2 ⟨hv, hb⟩
  refine ⟨⟨?_, ?_⟩, ?_, ?_⟩
  · show v ∈ (precomputeNearest topo geo numNodes badNodeData dataRoiVals distance).map
      Prod.fst
    rw [precomputeNearest_targets]
    exact hmem
  · show v ∈ (precomputeStencils A topo geo numNodes myAreas badNodeData dataRoiVals distance
      exponent).map Prod.fst
    rw [precomputeStencils_targets]
    exact hmem
  · show (classify numNodes badNodeData dataRoiVals).1.getD v false = false
    rw [classify_getD _ _ _ _ hv]
    unfold validRule
    rw [hb]
    rfl
  · intro hex
    have hres : closestNode ≠ -1 := resolveClosest_resolved topo geo charRoi v distance hex
    refine ⟨hres, ?_, ?_, ?_, ?_, ?_⟩
    · intro hq
      exact resolveClosest_fallback_valid topo geo charRoi v distance hq hres
    · show processColumnNearest colScratch numNodes myInputData
        (precomputeNearest topo geo numNodes badNodeData dataRoiVals distance) v = _
      rw [processColumnNearest_precompute topo geo colScratch myInputData numNodes
        badNodeData dataRoiVals distance v hv hb]
      unfold nearestValue
      have hne : ((resolveClosest topo geo (classify numNodes badNodeData dataRoiVals).1 v
          distance).1 != -1) = true := by
        simpa using hres
      simp only [hne, if_true]
    · show (v, stencil) ∈ precomputeStencils A topo geo numNodes myAreas badNodeData
        dataRoiVals distance exponent
      rw [precomputeStencils_eq, List.mem_map]
      exact ⟨v, hmem, rfl⟩
    · intro e he
      exact stencilFor_valid A topo geo charRoi myAreas distance exponent _ v e he
    · intro hne
      show processColumnStencils A colScratch numNodes myInputData
        (precomputeStencils A topo geo numNodes myAreas badNodeData dataRoiVals distance
          exponent) v = _
      rw [processColumnStencils_precompute A topo geo colScratch myInputData numNodes myAreas
        badNodeData dataRoiVals distance exponent v hv hb]
      have hpos : stencil.m_weightlist.length > 0 := List.length_pos.2 hne
      show (if stencil.m_weightlist.length > 0 then
          A.divD (stencilAccum A myInputData stencil.m_weightlist) stencil.m_weightsum
        else Flt.zero) = _
      rw [if_pos hpos]

/-- Witness for the amended C19 on the line mesh with unit areas, vertex `1` bad
and without data: it is resolved, and filled from its valid neighbours in both
modes. -/
theorem data_roi_gates_only_sources_witness :
    (resolveClosest lineTopo lineGeo (classify 3 lineBad (some lineNoDataAtOne)).1 1
      (Flt.fin 1)).1 ≠ -1 ∧
    processColumnNearest (fun _ => Flt.zero) 3 lineInput
        (precomputeNearest lineTopo lineGeo 3 lineBad (some lineNoDataAtOne) (Flt.fin 1)) 1
      = lineInput (resolveClosest lineTopo lineGeo
          (classify 3 lineBad (some lineNoDataAtOne)).1 1 (Flt.fin 1)).1.toNat ∧
    processColumnStencils exactArith (fun _ => Flt.zero) 3 lineInput
        (precomputeStencils exactArith lineTopo lineGeo 3 lineAreas lineBad
          (some lineNoDataAtOne) (Flt.fin 1) (Flt.fin 2)) 1
      = exactArith.divD
          (stencilAccum exactArith lineInput
            (stencilFor exactArith lineTopo lineGeo
              (classify 3 lineBad (some lineNoDataAtOne)).1 lineAreas (Flt.fin 1) (Flt.fin 2)
              (cutoffRatio exactArith (Flt.fin 2)) 1).m_weightlist)
          (stencilFor exactArith lineTopo lineGeo
            (classify 3 lineBad (some lineNoDataAtOne)).1 lineAreas (Flt.fin 1) (Flt.fin 2)
            (cutoffRatio exactArith (Flt.fin 2)) 1).m_weightsum :=
  have h := (data_roi_gates_only_sources exactArith lineTopo lineGeo (fun _ => Flt.zero)
    lineInput 3 lineAreas lineBad (some lineNoDataAtOne) (Flt.fin 1) (Flt.fin 2) 1 (by decide)
    (by decide)).2.2 ⟨0, by decide, by decide⟩
  ⟨h.1, h.2.2.1, h.2.2.2.2.2 (by decide!)⟩

/-- C20 as stated fails when the co-located candidates have different areas.  On
the stacked mesh (three coinciding vertices, vertex `0` bad, areas `1` and `3`
and values `4` and `8` at the vertices `1` and `2`, exponent `2`) the nearest
distance is `0`, both valid candidates lie at distance `0`, their weights
`1 / 0.9^2` and `3 / 0.9^2` differ, and the output `7` is not the unweighted mean
`6` of the two values.  In `float` arithmetic the direct path gives 6.99999952
on the same input, which is neither `6` nor `7`. -/
theorem zero_distance_counterexample :
    resolveClosest stackTopo stackGeo (classify 3 stackBad none).1 0 (Flt.fin 1)
      = (1, Flt.fin 0) ∧
    validCandidates ieeeArith stackGeo (classify 3 stackBad none).1
      (cutoffRatio ieeeArith (Flt.fin 2)) 0 (Flt.fin 0) = [(1, Flt.fin 0), (2, Flt.fin 0)] ∧
    weight ieeeArith (Flt.fin (stackAreasQ 1)) (Flt.fin 0) (Flt.fin 0) (Flt.fin 2)
      ≠ weight ieeeArith (Flt.fin (stackAreasQ 2)) (Flt.fin 0) (Flt.fin 0) (Flt.fin 2) ∧
    processColumnStencils ieeeArith (fun _ => Flt.zero) 3 (fun i => Flt.fin (stackInputQ i))
      (precomputeStencils ieeeArith stackTopo stackGeo 3 (fun i => Flt.fin (stackAreasQ i))
        stackBad none (Flt.fin 1) (Flt.fin 2)) 0 = Flt.fin 7 ∧
    Flt.fin 7 ≠ Flt.fin ((stackInputQ 1 + stackInputQ 2) / 2) ∧
    processColumn floatArith stackTopo stackGeo (fun _ => Flt.zero)
      (fun i => Flt.fin (stackInputQ i)) 3 (fun i => Flt.fin (stackAreasQ i)) none
      (Flt.fin 1) false (Flt.fin 2) 0 = Flt.fin (14680063 / 2097152) ∧
    (14680063 / 2097152 : ℚ) ≠ (stackInputQ 1 + stackInputQ 2) / 2 ∧
    (14680063 / 2097152 : ℚ) ≠ 7 := by
  decide!

/-- C20, amended.  Let the arithmetic be exact on finite operands and follow the
IEEE rules `0/0 = NaN`, `d/0 = +inf` for `d > 0`, `pow(+inf, exponent) = +inf`
and `a / +inf = 0`, and let `pow(0.9f, exponent)` be the finite nonzero value
`t`.  Then with the nearest distance `0` a candidate at distance `0` receives the
weight `area / t` of its own area and a farther candidate the weight `0`.  For a
vertex `v` that is filled (a bad vertex on the precomputed path, a vertex passing
the test of line 310 on the direct path), whose resolved nearest distance is `0`
and whose valid candidates have finite non-negative distances, the areas of
those at distance `0` not summing to zero: the weighted output at `v`, on the
precomputed path and on the direct path, is the area-weighted mean of the input
values of the candidates at distance `0`, and it is their unweighted arithmetic
mean when these candidates all have the same area. -/
theorem zero_distance_area_weighted_mean (A : Arith) (hA : ExactArith A)
    (topo : TopologyHelper) (geo : GeodesicHelper) (x ar : Nat → ℚ) (numNodes : Nat)
    (distance exponent : Flt) (v : Nat) (t : ℚ)
    (h00 : A.divF (Flt.fin 0) (Flt.fin 0) = Flt.nan)
    (hd0 : ∀ d : ℚ, 0 < d → A.divF (Flt.fin d) (Flt.fin 0) = Flt.pinf)
    (hpinf : A.powF Flt.pinf exponent = Flt.pinf)
    (hdivinf : ∀ a : ℚ, A.divF (Flt.fin a) Flt.pinf = Flt.fin 0)
    (ht : A.powF tolerance exponent = Flt.fin t) (ht0 : t ≠ 0)
    (hv : v < numNodes) :
    (∀ a : ℚ, weight A (Flt.fin a) (Flt.fin 0) (Flt.fin 0) exponent = Flt.fin (a / t)) ∧
    (∀ a d : ℚ, 0 < d → weight A (Flt.fin a) (Flt.fin d) (Flt.fin 0) exponent = Flt.fin 0) ∧
    (∀ (colScratch badNodeData : Nat → Flt) (dataRoiVals : Option (Nat → Flt)),
      (badNodeData v).gt Flt.zero = true →
      (resolveClosest topo geo (classify numNodes badNodeData dataRoiVals).1 v
        distance).1 ≠ -1 →
      (resolveClosest topo geo (classify numNodes badNodeData dataRoiVals).1 v
        distance).2 = Flt.fin 0 →
      (∀ p ∈ validCandidates A geo (classify numNodes badNodeData dataRoiVals).1
        (cutoffRatio A exponent) v (Flt.fin 0), ∃ d : ℚ, 0 ≤ d ∧ p.2 = Flt.fin d) →
      ((coLocated (validCandidates A geo (classify numNodes badNodeData dataRoiVals).1
        (cutoffRatio A exponent) v (Flt.fin 0))).map (fun p => ar p.1)).sum ≠ 0 →
      processColumnStencils A colScratch numNodes (fun i => Flt.fin (x i))
          (precomputeStencils A topo geo numNodes (fun i => Flt.fin (ar i)) badNodeData
            dataRoiVals distance exponent) v
        = Flt.fin (((coLocated (validCandidates A geo
              (classify numNodes badNodeData dataRoiVals).1 (cutoffRatio A exponent) v
              (Flt.fin 0))).map (fun p => x p.1 * ar p.1)).sum
            / ((coLocated (validCandidates A geo
              (classify numNodes badNodeData dataRoiVals).1 (cutoffRatio A exponent) v
              (Flt.fin 0))).map (fun p => ar p.1)).sum) ∧
      (∀ a : ℚ,
        (∀ p ∈ coLocated (validCandidates A geo
          (classify numNodes badNodeData dataRoiVals).1 (cutoffRatio A exponent) v
          (Flt.fin 0)), ar p.1 = a) →
        processColumnStencils A colScratch numNodes (fun i => Flt.fin (x i))
            (precomputeStencils A topo geo numNodes (fun i => Flt.fin (ar i)) badNodeData
              dataRoiVals distance exponent) v
          = Flt.fin (((coLocated (validCandidates A geo
                (classify numNodes badNodeData dataRoiVals).1 (cutoffRatio A exponent) v
                (Flt.fin 0))).map (fun p => x p.1)).sum
              / ((coLocated (validCandidates A geo
                (classify numNodes badNodeData dataRoiVals).1 (cutoffRatio A exponent) v
                (Flt.fin 0))).length : ℚ)))) ∧
    (∀ (colScratch : Nat → Flt) (dataRoiVals : Option (Nat → Flt)),
      directIsBad (fun i => Flt.fin (x i)) dataRoiVals v = true →
      (resolveClosest topo geo (directCharRoi numNodes (fun i => Flt.fin (x i)) dataRoiVals)
        v distance).1 ≠ -1 →
      (resolveClosest topo geo (directCharRoi numNodes (fun i => Flt.fin (x i)) dataRoiVals)
        v distance).2 = Flt.fin 0 →
      (∀ p ∈ validCandidates A geo
        (directCharRoi numNodes (fun i => Flt.fin (x i)) dataRoiVals)
        (cutoffRatio A exponent) v (Flt.fin 0), ∃ d : ℚ, 0 ≤ d ∧ p.2 = Flt.fin d) →
      ((coLocated (validCandidates A geo
        (directCharRoi numNodes (fun i => Flt.fin (x i)) dataRoiVals)
        (cutoffRatio A exponent) v (Flt.fin 0))).map (fun p => ar p.1)).sum ≠ 0 →
      processColumn A topo geo colScratch (fun i => Flt.fin (x i)) numNodes
          (fun i => Flt.fin (ar i)) dataRoiVals distance false exponent v
        = Flt.fin (((coLocated (validCandidates A geo
              (directCharRoi numNodes (fun i => Flt.fin (x i)) dataRoiVals)
              (cutoffRatio A exponent) v (Flt.fin 0))).map (fun p => x p.1 * ar p.1)).sum
            / ((coLocated (validCandidates A geo
              (directCharRoi numNodes (fun i => Flt.fin (x i)) dataRoiVals)
              (cutoffRatio A exponent) v (Flt.fin 0))).map (fun p => ar p.1)).sum) ∧
      (∀ a : ℚ,
        (∀ p ∈ coLocated (validCandidates A geo
          (directCharRoi numNodes (fun i => Flt.fin (x i)) dataRoiVals)
          (cutoffRatio A exponent) v (Flt.fin 0)), ar p.1 = a) →
        processColumn A topo geo colScratch (fun i => Flt.fin (x i)) numNodes
            (fun i => Flt.fin (ar i)) dataRoiVals distance false exponent v
          = Flt.fin (((coLocated (validCandidates A geo
                (directCharRoi numNodes (fun i => Flt.fin (x i)) dataRoiVals)
                (cutoffRatio A exponent) v (Flt.fin 0))).map (fun p => x p.1)).sum
              / ((coLocated (validCandidates A geo
                (directCharRoi numNodes (fun i => Flt.fin (x i)) dataRoiVals)
                (cutoffRatio A exponent) v (Flt.fin 0))).length : ℚ)))) := by
  obtain ⟨hw0, hw1⟩ := zero_distance_weights A hA exponent t h00 hd0 hpinf hdivinf ht ht0
  refine ⟨hw0, hw1, ?_, ?_⟩
  · intro colScratch badNodeData dataRoiVals hb hres hdist hcand hsum
    obtain ⟨es, hent, hS, hq⟩ := zero_distance_mean A hA geo
      (classify numNodes badNodeData dataRoiVals).1 x ar exponent (cutoffRatio A exponent) v t
      h00 hd0 hpinf hdivinf ht ht0 hcand hsum
    rw [← hdist] at hent
    have hout := stencilValue_fin A hA topo geo (classify numNodes badNodeData dataRoiVals).1
      x (fun i => Flt.fin (ar i)) distance exponent (cutoffRatio A exponent) v hres es hent hS
    rw [processColumnStencils_precompute A topo geo colScratch _ numNodes _ badNodeData
      dataRoiVals distance exponent v hv hb, hout, hq]
    refine ⟨rfl, ?_⟩
    intro a ha
    rw [equal_area_mean _ x ar a hsum ha]
  · intro colScratch dataRoiVals hbad hres hdist hcand hsum
    obtain ⟨es, hent, hS, hq⟩ := zero_distance_mean A hA geo
      (directCharRoi numNodes (fun i => Flt.fin (x i)) dataRoiVals) x ar exponent
      (cutoffRatio A exponent) v t h00 hd0 hpinf hdivinf ht ht0 hcand hsum
    rw [← hdist] at hent
    have hout := directValue_fin A hA topo geo
      (directCharRoi numNodes (fun i => Flt.fin (x i)) dataRoiVals) x
      (fun i => Flt.fin (ar i)) distance exponent (cutoffRatio A exponent) v hres es hent hS
    rw [processColumn_apply A topo geo colScratch _ numNodes _ dataRoiVals distance false
      exponent v hv, if_pos hbad, hout, hq]
    refine ⟨rfl, ?_⟩
    intro a ha
    rw [equal_area_mean _ x ar a hsum ha]

/-- Witness for the amended C20 on the stacked mesh with the IEEE rules and the
exponent `2`: on the precomputed path and on the direct path the output at
vertex `0` is the area-weighted mean of the values at the vertices `1` and `2`. -/
theorem zero_distance_area_weighted_mean_witness :
    processColumnStencils ieeeArith (fun _ => Flt.zero) 3 (fun i => Flt.fin (stackInputQ i))
        (precomputeStencils ieeeArith stackTopo stackGeo 3 (fun i => Flt.fin (stackAreasQ i))
          stackBad none (Flt.fin 1) (Flt.fin 2)) 0
      = Flt.fin (((coLocated (validCandidates ieeeArith stackGeo (classify 3 stackBad none).1
            (cutoffRatio ieeeArith (Flt.fin 2)) 0 (Flt.fin 0))).map
              (fun p => stackInputQ p.1 * stackAreasQ p.1)).sum
          / ((coLocated (validCandidates ieeeArith stackGeo (classify 3 stackBad none).1
            (cutoffRatio ieeeArith (Flt.fin 2)) 0 (Flt.fin 0))).map
              (fun p => stackAreasQ p.1)).sum) ∧
    processColumn ieeeArith stackTopo stackGeo (fun _ => Flt.zero)
        (fun i => Flt.fin (stackInputQ i)) 3 (fun i => Flt.fin (stackAreasQ i)) none
        (Flt.fin 1) false (Flt.fin 2) 0
      = Flt.fin (((coLocated (validCandidates ieeeArith stackGeo
            (directCharRoi 3 (fun i => Flt.fin (stackInputQ i)) none)
            (cutoffRatio ieeeArith (Flt.fin 2)) 0 (Flt.fin 0))).map
              (fun p => stackInputQ p.1 * stackAreasQ p.1)).sum
          / ((coLocated (validCandidates ieeeArith stackGeo
            (directCharRoi 3 (fun i => Flt.fin (stackInputQ i)) none)
            (cutoffRatio ieeeArith (Flt.fin 2)) 0 (Flt.fin 0))).map
              (fun p => stackAreasQ p.1)).sum) :=
  have h := zero_distance_area_weighted_mean ieeeArith ieeeArith_exact stackTopo stackGeo
    stackInputQ stackAreasQ 3 (Flt.fin 1) (Flt.fin 2) 0 ((15099494 / 16777216) ^ 2)
    (by decide!) ieeeArith_div_zero (by decide!) (fun _ => rfl) (by decide!) (by norm_num)
    (by decide)
  ⟨(h.2.2.1 (fun _ => Flt.zero) stackBad none (by decide) (by decide!) (by decide!)
      stack_candidates_finite stack_area_sum).1,
    (h.2.2.2 (fun _ => Flt.zero) none (by decide!) (by decide!) (by decide!)
      stack_direct_candidates_finite stack_direct_area_sum).1⟩

/-- C24 as stated fails for a large exponent.  With `e1 = 10` the test value
`pow(10.0f, 1.0f / 10.0f)` is the `float` 1.2589254, which becomes the cutoff
ratio.  With `e2 = 1.0e8` the test value `pow(10.0f, 1.0f / 1.0e8f)` rounds to
`1.0f`, the guard `test > 1.0f` fails and the cutoff ratio keeps its default
`1.5`; the same happens for `e2 = +inf`, where `1.0f / e2` is `0` and the test
value is exactly `1`.  So `0 < e1 ≤ e2` and yet the ratio of `e1` is smaller
than the ratio of `e2`. -/
theorem cutoff_ratio_antitone_counterexample :
    Flt.zero.lt (Flt.fin 10) = true ∧
    (Flt.fin 10).lt (Flt.fin 100000000) = true ∧
    (Flt.fin 10).lt Flt.pinf = true ∧
    cutoffRatio floatPowArith (Flt.fin 10) = Flt.fin (1320079 / 1048576) ∧
    cutoffRatio floatPowArith (Flt.fin 100000000) = Flt.fin (3 / 2) ∧
    cutoffRatio floatPowArith Flt.pinf = Flt.fin (3 / 2) ∧
    (cutoffRatio floatPowArith (Flt.fin 10)).lt
      (cutoffRatio floatPowArith (Flt.fin 100000000)) = true ∧
    (cutoffRatio floatPowArith (Flt.fin 10)).lt (cutoffRatio floatPowArith Flt.pinf)
      = true := by
  decide!

/-- C24, amended.  Let `t1` and `t2` be the test values
`pow(10.0f, 1.0f / exponent)` of two exponents `e1` and `e2`.  If both are finite
and `1 < t2 ≤ t1` (as holds for `0 < e1 ≤ e2` when `pow` is monotone and `t2` has
not rounded to `1.0f`), then the cutoff ratio of `e1` is at least the cutoff ratio
of `e2`. -/
theorem cutoff_ratio_antitone_above_one (A : Arith) (e1 e2 : Flt) (t1 t2 : ℚ)
    (h1 : A.powF ten (A.divF one e1) = Flt.fin t1)
    (h2 : A.powF ten (A.divF one e2) = Flt.fin t2)
    (hgt : 1 < t2) (hle : t2 ≤ t1) :
    ∃ c1 c2 : ℚ, cutoffRatio A e1 = Flt.fin c1 ∧ cutoffRatio A e2 = Flt.fin c2 ∧
      c2 ≤ c1 := by
  unfold cutoffRatio
  rw [h1, h2]
  exact cutoffRatioOfTest_mono t1 t2 hgt hle

/-- Witness for C24: the exponents `1` and `10` in `floatPowArith`, with test
values `10` and `1.2589254`. -/
theorem cutoff_ratio_antitone_above_one_witness :
    ∃ c1 c2 : ℚ, cutoffRatio floatPowArith (Flt.fin 1) = Flt.fin c1 ∧
      cutoffRatio floatPowArith (Flt.fin 10) = Flt.fin c2 ∧ c2 ≤ c1 :=
  cutoff_ratio_antitone_above_one floatPowArith (Flt.fin 1) (Flt.fin 10) 10
    (1320079 / 1048576) (by decide!) (by decide!) (by norm_num) (by norm_num)

/-- C25. For every exponent, whatever the arithmetic, the cutoff ratio computed
at the head of `precomputeStencils` and of the direct `processColumn` is a finite
value between the literal `1.1f` (which is not below `1.1`) and `1.5`; the same
holds of the ratio computed from any test value, the one of the constructor
included. -/
theorem cutoff_ratio_in_interval (A : Arith) (exponent test : Flt) :
    (∃ q : ℚ, cutoffRatio A exponent = Flt.fin q ∧ 11 / 10 ≤ q ∧
      9227469 / 8388608 ≤ q ∧ q ≤ 3 / 2) ∧
    (cutoffRatio A exponent).gt onePointFive = false ∧
    (cutoffRatio A exponent).lt onePointOne = false ∧
    (∃ q : ℚ, cutoffRatioOfTest test = Flt.fin q ∧ 11 / 10 ≤ q ∧ q ≤ 3 / 2) := by
  obtain ⟨q, hq, hlo, hhi⟩ := cutoffRatioOfTest_bounds (A.powF ten (A.divF one exponent))
  obtain ⟨r, hr, hlo2, hhi2⟩ := cutoffRatioOfTest_bounds test
  have hq2 : cutoffRatio A exponent = Flt.fin q := hq
  refine ⟨⟨q, hq2, le_trans (by norm_num) hlo, hlo, hhi⟩, ?_, ?_,
    ⟨r, hr, le_trans (by norm_num) hlo2, hhi2⟩⟩
  · rw [hq2]
    simp only [Flt.gt, Flt.lt, onePointFive, decide_eq_false_iff_not, not_lt]
    exact hhi
  · rw [hq2]
    simp only [Flt.lt, onePointOne, decide_eq_false_iff_not, not_lt]
    exact hlo

/-- C22. Safe division.  For every entry of the list built by
`precomputeStencils`: if its weight list is non-empty, then `m_weightsum` is the
`float` sum of the weights of the list, accumulated from `0.0f` in list order,
`m_weightsum != 0.0f` holds, and the value `processColumn` writes is the quotient
by this `m_weightsum`; if its weight list is empty, `processColumn` writes
`0.0f` without dividing; and an entry whose vertex resolved no nearest vertex,
the only one whose `m_weightsum` is never assigned, has the empty list. -/
theorem safe_division (A : Arith) (topo : TopologyHelper) (geo : GeodesicHelper)
    (numNodes : Nat) (myAreas badNodeData : Nat → Flt) (dataRoiVals : Option (Nat → Flt))
    (distance exponent : Flt) (e : Nat × StencilElem)
    (he : e ∈ precomputeStencils A topo geo numNodes myAreas badNodeData dataRoiVals distance
      exponent) :
    (e.2.m_weightlist ≠ [] →
      e.2.m_weightsum = weightSum A e.2.m_weightlist ∧
      e.2.m_weightsum.neF Flt.zero = true ∧
      (resolveClosest topo geo (classify numNodes badNodeData dataRoiVals).1 e.1
        distance).1 ≠ -1 ∧
      ∀ myInputData : Nat → Flt,
        stencilValue A myInputData e
          = A.divD (stencilAccum A myInputData e.2.m_weightlist) e.2.m_weightsum) ∧
    (e.2.m_weightlist = [] →
      ∀ myInputData : Nat → Flt, stencilValue A myInputData e = Flt.zero) ∧
    ((resolveClosest topo geo (classify numNodes badNodeData dataRoiVals).1 e.1
        distance).1 = -1 → e.2.m_weightlist = []) ∧
    (∀ colScratch myInputData : Nat → Flt,
      processColumnStencils A colScratch numNodes myInputData
        (precomputeStencils A topo geo numNodes myAreas badNodeData dataRoiVals distance
          exponent) e.1 = stencilValue A myInputData e) := by
  obtain ⟨⟨hv, hb⟩, h2⟩ := (mem_precomputeStencils A topo geo numNodes myAreas badNodeData
    dataRoiVals distance exponent e).1 he
  refine ⟨?_, ?_, ?_, ?_⟩
  · intro hne
    have hne2 := hne
    rw [h2] at hne2
    obtain ⟨hr, hz, heq⟩ := stencilFor_nonempty A topo geo _ myAreas distance exponent _ e.1
      hne2
    refine ⟨?_, ?_, hr, fun x => stencilValue_nonempty A x e hne⟩
    · rw [h2, heq]
    · rw [h2, heq]
      unfold Flt.neF
      simp only [hz, Bool.not_false]
  · intro hnil x
    exact stencilValue_empty A x e hnil
  · intro hr
    rw [h2, stencilFor_eq, if_pos hr]
    rfl
  · intro colScratch x
    rw [processColumnStencils_precompute A topo geo colScratch x numNodes myAreas badNodeData
      dataRoiVals distance exponent e.1 hv hb, ← h2]

/-- Witness for C22: the entry of vertex `1` on the line mesh, exact arithmetic
with exponent `2`. -/
theorem safe_division_witness :
    ((1, stencilFor exactArith lineTopo lineGeo (classify 3 lineBad none).1 lineAreas
        (Flt.fin 1) (Flt.fin 2) (cutoffRatio exactArith (Flt.fin 2)) 1)
      ∈ precomputeStencils exactArith lineTopo lineGeo 3 lineAreas lineBad none (Flt.fin 1)
        (Flt.fin 2)) ∧
    (stencilFor exactArith lineTopo lineGeo (classify 3 lineBad none).1 lineAreas
        (Flt.fin 1) (Flt.fin 2) (cutoffRatio exactArith (Flt.fin 2)) 1).m_weightlist ≠ [] ∧
    (stencilFor exactArith lineTopo lineGeo (classify 3 lineBad none).1 lineAreas
        (Flt.fin 1) (Flt.fin 2) (cutoffRatio exactArith (Flt.fin 2)) 1).m_weightsum.neF
      Flt.zero = true :=
  have hmem : ((1, stencilFor exactArith lineTopo lineGeo (classify 3 lineBad none).1
      lineAreas (Flt.fin 1) (Flt.fin 2) (cutoffRatio exactArith (Flt.fin 2)) 1)
      : Nat × StencilElem)
      ∈ precomputeStencils exactArith lineTopo lineGeo 3 lineAreas lineBad none (Flt.fin 1)
        (Flt.fin 2) :=
    (mem_precomputeStencils exactArith lineTopo lineGeo 3 lineAreas lineBad none (Flt.fin 1)
      (Flt.fin 2) _).2 ⟨⟨by decide, by decide⟩, rfl⟩
  have hne : (stencilFor exactArith lineTopo lineGeo (classify 3 lineBad none).1 lineAreas
      (Flt.fin 1) (Flt.fin 2) (cutoffRatio exactArith (Flt.fin 2)) 1).m_weightlist ≠ [] := by
    decide!
  ⟨hmem, hne,
    ((safe_division exactArith lineTopo lineGeo 3 lineAreas lineBad none (Flt.fin 1)
      (Flt.fin 2) _ hmem).1 hne).2.1⟩

/-- C23. Sources are always valid vertices.  Whatever the oracles return, every
source vertex stored in a stencil built by `precomputeStencils` is a vertex of
the mesh whose validity-mask entry is true: its bad-ROI value is not `> 0`, and
with a data ROI its data-ROI value is `> 0`. -/
theorem sources_are_valid (A : Arith) (topo : TopologyHelper) (geo : GeodesicHelper)
    (numNodes : Nat) (myAreas badNodeData : Nat → Flt) (dataRoiVals : Option (Nat → Flt))
    (distance exponent : Flt) (e : Nat × StencilElem)
    (he : e ∈ precomputeStencils A topo geo numNodes myAreas badNodeData dataRoiVals distance
      exponent)
    (s : Nat × Flt) (hs : s ∈ e.2.m_weightlist) :
    s.1 < numNodes ∧
    (classify numNodes badNodeData dataRoiVals).1.getD s.1 false = true ∧
    (badNodeData s.1).gt Flt.zero = false ∧
    (∀ vals, dataRoiVals = some vals → (vals s.1).gt Flt.zero = true) := by
  obtain ⟨_, h2⟩ := (mem_precomputeStencils A topo geo numNodes myAreas badNodeData
    dataRoiVals distance exponent e).1 he
  rw [h2] at hs
  have hval := stencilFor_valid A topo geo _ myAreas distance exponent _ e.1 s hs
  obtain ⟨hlt, hrule⟩ := classify_valid numNodes badNodeData dataRoiVals s.1 hval
  obtain ⟨hnb, hroi⟩ := validRule_true badNodeData dataRoiVals s.1 hrule
  exact ⟨hlt, hval, hnb, hroi⟩

/-- Witness for C23: on the line mesh with vertex `1` bad and data only at vertex
`2`, the stencil of vertex `1` has the single source `2`. -/
theorem sources_are_valid_witness :
    (2 : Nat) < 3 ∧
    (classify 3 lineBad (some lineDataRoi)).1.getD 2 false = true ∧
    (lineBad 2).gt Flt.zero = false ∧
    (∀ vals, some lineDataRoi = some vals → (vals 2).gt Flt.zero = true) :=
  sources_are_valid exactArith lineTopo lineGeo 3 lineAreas lineBad (some lineDataRoi)
    (Flt.fin 1) (Flt.fin 2)
    (1, stencilFor exactArith lineTopo lineGeo (classify 3 lineBad (some lineDataRoi)).1
      lineAreas (Flt.fin 1) (Flt.fin 2) (cutoffRatio exactArith (Flt.fin 2)) 1)
    ((mem_precomputeStencils exactArith lineTopo lineGeo 3 lineAreas lineBad
      (some lineDataRoi) (Flt.fin 1) (Flt.fin 2) _).2 ⟨⟨by decide, by decide⟩, rfl⟩)
    (2, Flt.fin 1) (by decide!)

/-- C27. Noninterference of the values at bad vertices.  With a bad-vertex ROI
supplied, let two input columns agree at every vertex whose validity-mask entry
is true.  Then, whatever the arithmetic, the oracles and the earlier contents of
the scratch buffers, the weighted-mode outputs agree at every bad vertex of the
mesh. -/
theorem bad_values_noninterference (A : Arith) (topo : TopologyHelper)
    (geo : GeodesicHelper) (c1 c2 x1 x2 : Nat → Flt) (numNodes : Nat)
    (myAreas badNodeData : Nat → Flt) (dataRoiVals : Option (Nat → Flt))
    (distance exponent : Flt)
    (hagree : ∀ i, (classify numNodes badNodeData dataRoiVals).1.getD i false = true →
      x1 i = x2 i)
    (v : Nat) (hv : v < numNodes) (hb : (badNodeData v).gt Flt.zero = true) :
    processColumnStencils A c1 numNodes x1
        (precomputeStencils A topo geo numNodes myAreas badNodeData dataRoiVals distance
          exponent) v
      = processColumnStencils A c2 numNodes x2
        (precomputeStencils A topo geo numNodes myAreas badNodeData dataRoiVals distance
          exponent) v := by
  rw [processColumnStencils_precompute A topo geo c1 x1 numNodes myAreas badNodeData
      dataRoiVals distance exponent v hv hb,
    processColumnStencils_precompute A topo geo c2 x2 numNodes myAreas badNodeData
      dataRoiVals distance exponent v hv hb]
  apply stencilValue_congr
  intro w hw
  exact hagree w.1 (stencilFor_valid A topo geo _ myAreas distance exponent _ v w hw)

/-- Witness for C27: on the line mesh with vertex `1` bad, the columns `5, 0, 7`
and `5, 99, 7` give the same output at vertex `1`. -/
theorem bad_values_noninterference_witness :
    processColumnStencils exactArith (fun _ => Flt.zero) 3 lineInput
        (precomputeStencils exactArith lineTopo lineGeo 3 lineAreas lineBad none (Flt.fin 1)
          (Flt.fin 2)) 1
      = processColumnStencils exactArith (fun _ => Flt.fin 3) 3 lineInputAlt
        (precomputeStencils exactArith lineTopo lineGeo 3 lineAreas lineBad none (Flt.fin 1)
          (Flt.fin 2)) 1 :=
  bad_values_noninterference exactArith lineTopo lineGeo (fun _ => Flt.zero)
    (fun _ => Flt.fin 3) lineInput lineInputAlt 3 lineAreas lineBad none (Flt.fin 1)
    (Flt.fin 2) lineInputAlt_agree 1 (by decide) (by decide)

/-- C28 as stated fails in `float` arithmetic.  On the line mesh with vertex `1`
bad, the exponent `2` and the search distance `1`: with all areas FLT_MAX and the
values `5` and `7` at the sources `0` and `2` the weight sum overflows and the
output is NaN, which is not between `5` and `7`; with all areas `3`, data only at
vertex `2` and the value 1.70000005 there, the stencil has the single source `2`
with weight `3`, the product rounds to 5.10000038 and the output 1.70000017 is
above the only source value. -/
theorem convex_combination_counterexample :
    (stencilFor floatArith lineTopo lineGeo (classify 3 lineBad none).1 hugeAreas (Flt.fin 1)
      (Flt.fin 2) (cutoffRatio floatArith (Flt.fin 2)) 1).m_weightlist
      = [(0, Flt.fin fltMax), (2, Flt.fin fltMax)] ∧
    processColumnStencils floatArith (fun _ => Flt.zero) 3 lineInput
      (precomputeStencils floatArith lineTopo lineGeo 3 hugeAreas lineBad none (Flt.fin 1)
        (Flt.fin 2)) 1 = Flt.nan ∧
    Flt.nan.ge (Flt.fin 5) = false ∧
    (stencilFor floatArith lineTopo lineGeo (classify 3 lineBad (some lineDataRoi)).1
      threeAreas (Flt.fin 1) (Flt.fin 2) (cutoffRatio floatArith (Flt.fin 2)) 1).m_weightlist
      = [(2, Flt.fin 3)] ∧
    lineInputF 2 = Flt.fin onePointSevenF ∧
    processColumnStencils floatArith (fun _ => Flt.zero) 3 lineInputF
      (precomputeStencils floatArith lineTopo lineGeo 3 threeAreas lineBad (some lineDataRoi)
        (Flt.fin 1) (Flt.fin 2)) 1 = Flt.fin (14260635 / 8388608) ∧
    onePointSevenF < 14260635 / 8388608 := by
  decide!

/-- C28, amended.  Convex-combination bound, in exact arithmetic.  Let the arithmetic be
exact on finite operands, have a `pow(·, exponent)` that is positive on positive
bases, and give a finite weight `≥ 0` to an infinite ratio if one arises (IEEE
gives the weight `0` for a positive exponent); let every vertex area be a
finite value `≥ 0` and the input column be finite.  For a bad vertex `v` whose
stencil is non-empty, the weighted-mode output at `v` is a finite value `y` that
lies between any lower bound and any upper bound of the input values at the
sources of the stencil; there are sources that carry the least and the greatest
of these values, and `y` lies between them; and if all sources carry the same
value `c`, then `y = c`. -/
theorem convex_combination_bound (A : Arith) (hA : ExactArith A) (topo : TopologyHelper)
    (geo : GeodesicHelper) (colScratch : Nat → Flt) (x ar : Nat → ℚ)
    (har : ∀ i, 0 ≤ ar i) (numNodes : Nat) (badNodeData : Nat → Flt)
    (dataRoiVals : Option (Nat → Flt)) (distance exponent : Flt)
    (hinf : ∀ p q : Flt, A.divF p q = Flt.pinf → ∀ a : ℚ, 0 ≤ a →
      ∃ w : ℚ, 0 ≤ w ∧ A.divF (Flt.fin a) (A.powF Flt.pinf exponent) = Flt.fin w)
    (hpow : ∀ q : ℚ, 0 < q → ∃ r : ℚ, 0 < r ∧ A.powF (Flt.fin q) exponent = Flt.fin r)
    (v : Nat) (hv : v < numNodes) (hb : (badNodeData v).gt Flt.zero = true)
    (hne : (stencilFor A topo geo (classify numNodes badNodeData dataRoiVals).1
      (fun i => Flt.fin (ar i)) distance exponent (cutoffRatio A exponent) v).m_weightlist
      ≠ []) :
    ∃ y : ℚ,
      processColumnStencils A colScratch numNodes (fun i => Flt.fin (x i))
        (precomputeStencils A topo geo numNodes (fun i => Flt.fin (ar i)) badNodeData
          dataRoiVals distance exponent) v = Flt.fin y ∧
      (∀ lo hi : ℚ,
        (∀ s ∈ (stencilFor A topo geo (classify numNodes badNodeData dataRoiVals).1
            (fun i => Flt.fin (ar i)) distance exponent (cutoffRatio A exponent)
            v).m_weightlist, lo ≤ x s.1 ∧ x s.1 ≤ hi) →
        lo ≤ y ∧ y ≤ hi) ∧
      (∃ smin ∈ (stencilFor A topo geo (classify numNodes badNodeData dataRoiVals).1
          (fun i => Flt.fin (ar i)) distance exponent (cutoffRatio A exponent)
          v).m_weightlist,
        ∃ smax ∈ (stencilFor A topo geo (classify numNodes badNodeData dataRoiVals).1
          (fun i => Flt.fin (ar i)) distance exponent (cutoffRatio A exponent)
          v).m_weightlist,
        (∀ s ∈ (stencilFor A topo geo (classify numNodes badNodeData dataRoiVals).1
            (fun i => Flt.fin (ar i)) distance exponent (cutoffRatio A exponent)
            v).m_weightlist, x smin.1 ≤ x s.1 ∧ x s.1 ≤ x smax.1) ∧
        x smin.1 ≤ y ∧ y ≤ x smax.1) ∧
      (∀ c : ℚ,
        (∀ s ∈ (stencilFor A topo geo (classify numNodes badNodeData dataRoiVals).1
            (fun i => Flt.fin (ar i)) distance exponent (cutoffRatio A exponent)
            v).m_weightlist, x s.1 = c) → y = c) := by
  obtain ⟨hr, hz, heq⟩ := stencilFor_nonempty A topo geo _ _ distance exponent _ v hne
  obtain ⟨es, hes, hnn⟩ := stencilEntries_nonneg A hA geo
    (classify numNodes badNodeData dataRoiVals).1 ar har exponent (cutoffRatio A exponent)
    hinf hpow v
    (resolveClosest topo geo (classify numNodes badNodeData dataRoiVals).1 v distance).2
  have hsum : (es.map Prod.snd).sum ≠ 0 := by
    rw [hes, weightSum_fin A hA, flt_eqF_fin_zero] at hz
    simpa using hz
  have hlist : (stencilFor A topo geo (classify numNodes badNodeData dataRoiVals).1
      (fun i => Flt.fin (ar i)) distance exponent (cutoffRatio A exponent) v).m_weightlist
      = finEntries es := by
    rw [heq, hes]
  have hbounds : ∀ lo hi : ℚ,
      (∀ s ∈ finEntries es, lo ≤ x s.1 ∧ x s.1 ≤ hi) →
      lo ≤ (es.map (fun e => x e.1 * e.2)).sum / (es.map Prod.snd).sum ∧
      (es.map (fun e => x e.1 * e.2)).sum / (es.map Prod.snd).sum ≤ hi := by
    intro lo hi h
    exact weighted_mean_bounds es x lo hi hnn hsum
      (fun e he => h (e.1, Flt.fin e.2) (mem_finEntries es e he))
  rw [hlist]
  rw [hlist] at hne
  refine ⟨_, processColumnStencils_fin A hA topo geo colScratch x numNodes _ badNodeData
    dataRoiVals distance exponent v hv hb hr es hes hsum, hbounds, ?_, ?_⟩
  · obtain ⟨m, hm, M, hM, hall⟩ := exists_min_max_source (finEntries es) x hne
    have h := hbounds (x m.1) (x M.1) hall
    exact ⟨m, hm, M, hM, hall, h.1, h.2⟩
  · intro c hc
    have h := hbounds c c (fun s hs => ⟨le_of_eq (hc s hs).symm, le_of_eq (hc s hs)⟩)
    exact le_antisymm h.2 h.1

/-- Witness for the amended C28: exact arithmetic with the exponent `2` on the line mesh, the
column `5, 0, 7` and unit areas; the stencil of vertex `1` has the sources `0` and
`2`, and the output at vertex `1` lies between `5` and `7`. -/
theorem convex_combination_bound_witness :
    ∃ y : ℚ,
      processColumnStencils exactArith (fun _ => Flt.zero) 3 (fun i => Flt.fin (lineInputQ i))
        (precomputeStencils exactArith lineTopo lineGeo 3 (fun i => Flt.fin ((fun _ => 1) i))
          lineBad none (Flt.fin 1) (Flt.fin 2)) 1 = Flt.fin y ∧
      5 ≤ y ∧ y ≤ 7 :=
  have h := convex_combination_bound exactArith exactArith_exact lineTopo lineGeo
    (fun _ => Flt.zero) lineInputQ (fun _ => 1) (fun _ => zero_le_one) 3 lineBad none
    (Flt.fin 1) (Flt.fin 2) exactArith_no_pinf exactArith_pow_two_pos 1 (by decide)
    (by decide) (by decide!)
  Exists.elim h (fun y hy => ⟨y, hy.1, hy.2.1 5 7 (by decide!)⟩)

/-- C21. Execution-order independence.  Let the iterations of the parallel loop
of `precomputeStencils` and `precomputeNearest` run in any order `order` of the
vertices.  Then (1) the list built holds, for each bad vertex `i` in the order it
was reached, the pair of `i` and an entry that is a function of `i` alone, not of
the slot, so it is a permutation of the list built in ascending order;
(2) for all lists with pairwise distinct targets, the column `processColumn`
produces is the same for every permutation of the list, in weighted and in
nearest mode; and (3) hence the output column is the same whatever the order in
which the bad vertices were processed. -/
theorem execution_order_independence (A : Arith) (topo : TopologyHelper)
    (geo : GeodesicHelper) (colScratch myInputData : Nat → Flt) (numNodes : Nat)
    (myAreas badNodeData : Nat → Flt) (dataRoiVals : Option (Nat → Flt))
    (distance exponent : Flt) (order : List Nat)
    (horder : order.Perm (List.range numNodes)) :
    (precomputeStencilsIn order A topo geo numNodes myAreas badNodeData dataRoiVals distance
        exponent
      = (order.filter (fun i => (badNodeData i).gt Flt.zero)).map (fun i =>
          (i, stencilFor A topo geo (classify numNodes badNodeData dataRoiVals).1 myAreas
            distance exponent (cutoffRatio A exponent) i))) ∧
    (precomputeNearestIn order topo geo numNodes badNodeData dataRoiVals distance
      = (order.filter (fun i => (badNodeData i).gt Flt.zero)).map (fun i =>
          (i, (resolveClosest topo geo (classify numNodes badNodeData dataRoiVals).1 i
            distance).1))) ∧
    (precomputeStencilsIn order A topo geo numNodes myAreas badNodeData dataRoiVals distance
        exponent).Perm
      (precomputeStencils A topo geo numNodes myAreas badNodeData dataRoiVals distance
        exponent) ∧
    (precomputeNearestIn order topo geo numNodes badNodeData dataRoiVals distance).Perm
      (precomputeNearest topo geo numNodes badNodeData dataRoiVals distance) ∧
    (∀ l1 l2 : List (Nat × StencilElem), l1.Perm l2 → (l1.map Prod.fst).Nodup →
      processColumnStencils A colScratch numNodes myInputData l1
        = processColumnStencils A colScratch numNodes myInputData l2) ∧
    (∀ l1 l2 : List (Nat × Int), l1.Perm l2 → (l1.map Prod.fst).Nodup →
      processColumnNearest colScratch numNodes myInputData l1
        = processColumnNearest colScratch numNodes myInputData l2) ∧
    (processColumnStencils A colScratch numNodes myInputData
        (precomputeStencilsIn order A topo geo numNodes myAreas badNodeData dataRoiVals
          distance exponent)
      = processColumnStencils A colScratch numNodes myInputData
        (precomputeStencils A topo geo numNodes myAreas badNodeData dataRoiVals distance
          exponent)) ∧
    (processColumnNearest colScratch numNodes myInputData
        (precomputeNearestIn order topo geo numNodes badNodeData dataRoiVals distance)
      = processColumnNearest colScratch numNodes myInputData
        (precomputeNearest topo geo numNodes badNodeData dataRoiVals distance)) := by
  have hS := precomputeStencilsIn_eq order A topo geo numNodes myAreas badNodeData
    dataRoiVals distance exponent horder
  have hN := precomputeNearestIn_eq order topo geo numNodes badNodeData dataRoiVals distance
    horder
  have hf := filter_order_perm order numNodes badNodeData horder
  have hpS : (precomputeStencilsIn order A topo geo numNodes myAreas badNodeData dataRoiVals
      distance exponent).Perm
      (precomputeStencils A topo geo numNodes myAreas badNodeData dataRoiVals distance
        exponent) := by
    rw [hS, precomputeStencils_eq]
    exact hf.map _
  have hpN : (precomputeNearestIn order topo geo numNodes badNodeData dataRoiVals
      distance).Perm
      (precomputeNearest topo geo numNodes badNodeData dataRoiVals distance) := by
    rw [hN, precomputeNearest_eq]
    exact hf.map _
  have hndS : ((precomputeStencilsIn order A topo geo numNodes myAreas badNodeData
      dataRoiVals distance exponent).map Prod.fst).Nodup := by
    rw [(hpS.map Prod.fst).nodup_iff, precomputeStencils_targets]
    exact badVertices_nodup numNodes badNodeData
  have hndN : ((precomputeNearestIn order topo geo numNodes badNodeData dataRoiVals
      distance).map Prod.fst).Nodup := by
    rw [(hpN.map Prod.fst).nodup_iff, precomputeNearest_targets]
    exact badVertices_nodup numNodes badNodeData
  exact ⟨hS, hN, hpS, hpN,
    fun l1 l2 hp hnd => processColumnStencils_perm A colScratch numNodes myInputData l1 l2
      hp hnd,
    fun l1 l2 hp hnd => processColumnNearest_perm colScratch numNodes myInputData l1 l2 hp
      hnd,
    processColumnStencils_perm A colScratch numNodes myInputData _ _ hpS hndS,
    processColumnNearest_perm colScratch numNodes myInputData _ _ hpN hndN⟩

/-- Witness for C21: the gap mesh with the bad vertices `1` and `2`, processed in
the order `3, 2, 0, 1`; the output columns are those of the ascending order. -/
theorem execution_order_independence_witness :
    processColumnStencils exactArith (fun _ => Flt.zero) 4 lineInput
        (precomputeStencilsIn [3, 2, 0, 1] exactArith gapTopo gapGeo 4 lineAreas gapBad none
          (Flt.fin 1) (Flt.fin 2))
      = processColumnStencils exactArith (fun _ => Flt.zero) 4 lineInput
        (precomputeStencils exactArith gapTopo gapGeo 4 lineAreas gapBad none (Flt.fin 1)
          (Flt.fin 2)) ∧
    processColumnNearest (fun _ => Flt.zero) 4 lineInput
        (precomputeNearestIn [3, 2, 0, 1] gapTopo gapGeo 4 gapBad none (Flt.fin 1))
      = processColumnNearest (fun _ => Flt.zero) 4 lineInput
        (precomputeNearest gapTopo gapGeo 4 gapBad none (Flt.fin 1)) :=
  have h := execution_order_independence exactArith gapTopo gapGeo (fun _ => Flt.zero)
    lineInput 4 lineAreas gapBad none (Flt.fin 1) (Flt.fin 2) [3, 2, 0, 1] (by decide)
  ⟨h.2.2.2.2.2.2.1, h.2.2.2.2.2.2.2⟩

/-- C26. Idempotence with an explicit bad-vertex ROI.  Let `out` be the column
produced from an input column with the lists precomputed for a bad-vertex ROI,
data ROI, distance and exponent.  Applying the same lists to `out` gives `out`
again at every vertex of the mesh: in weighted mode for any arithmetic and
oracle, and in nearest mode when the nearest-valid query of the oracle, where it
returns a vertex for a bad vertex, returns one whose mask entry is true.  The bad
vertex set may be non-empty. -/
theorem idempotent_with_bad_roi (A : Arith) (topo : TopologyHelper) (geo : GeodesicHelper)
    (c1 c2 x : Nat → Flt) (numNodes : Nat) (myAreas badNodeData : Nat → Flt)
    (dataRoiVals : Option (Nat → Flt)) (distance exponent : Flt) (v : Nat)
    (hv : v < numNodes) :
    (processColumnStencils A c2 numNodes
        (processColumnStencils A c1 numNodes x
          (precomputeStencils A topo geo numNodes myAreas badNodeData dataRoiVals distance
            exponent))
        (precomputeStencils A topo geo numNodes myAreas badNodeData dataRoiVals distance
          exponent) v
      = processColumnStencils A c1 numNodes x
          (precomputeStencils A topo geo numNodes myAreas badNodeData dataRoiVals distance
            exponent) v) ∧
    ((∀ i, i < numNodes → (badNodeData i).gt Flt.zero = true →
        (geo.getClosestNodeInRoi i (classify numNodes badNodeData dataRoiVals).1
          distance).1 ≠ -1 →
        0 ≤ (geo.getClosestNodeInRoi i (classify numNodes badNodeData dataRoiVals).1
          distance).1 ∧
        (classify numNodes badNodeData dataRoiVals).1.getD
          (geo.getClosestNodeInRoi i (classify numNodes badNodeData dataRoiVals).1
            distance).1.toNat false = true) →
      processColumnNearest c2 numNodes
          (processColumnNearest c1 numNodes x
            (precomputeNearest topo geo numNodes badNodeData dataRoiVals distance))
          (precomputeNearest topo geo numNodes badNodeData dataRoiVals distance) v
        = processColumnNearest c1 numNodes x
            (precomputeNearest topo geo numNodes badNodeData dataRoiVals distance) v) := by
  refine ⟨?_, ?_⟩
  · by_cases hb : (badNodeData v).gt Flt.zero = true
    · rw [processColumnStencils_precompute A topo geo c2 _ numNodes myAreas badNodeData
          dataRoiVals distance exponent v hv hb,
        processColumnStencils_precompute A topo geo c1 x numNodes myAreas badNodeData
          dataRoiVals distance exponent v hv hb]
      apply stencilValue_congr
      intro w hw
      have hval := stencilFor_valid A topo geo _ myAreas distance exponent _ v w hw
      obtain ⟨hlt, hrule⟩ := classify_valid numNodes badNodeData dataRoiVals w.1 hval
      exact processColumnStencils_precompute_not_bad A topo geo c1 x numNodes myAreas
        badNodeData dataRoiVals distance exponent w.1 hlt
        (validRule_true badNodeData dataRoiVals w.1 hrule).1
    · have hb2 : (badNodeData v).gt Flt.zero = false := by simpa using hb
      rw [processColumnStencils_precompute_not_bad A topo geo c2 _ numNodes myAreas
        badNodeData dataRoiVals distance exponent v hv hb2]
  · intro horacle
    by_cases hb : (badNodeData v).gt Flt.zero = true
    · rw [processColumnNearest_precompute topo geo c2 _ numNodes badNodeData dataRoiVals
          distance v hv hb,
        processColumnNearest_precompute topo geo c1 x numNodes badNodeData dataRoiVals
          distance v hv hb]
      apply nearestValue_congr
      intro hr
      have hval := resolveClosest_valid topo geo _ v distance (horacle v hv hb) hr
      obtain ⟨hlt, hrule⟩ := classify_valid numNodes badNodeData dataRoiVals _ hval
      exact processColumnNearest_precompute_not_bad topo geo c1 x numNodes badNodeData
        dataRoiVals distance _ hlt (validRule_true badNodeData dataRoiVals _ hrule).1
    · have hb2 : (badNodeData v).gt Flt.zero = false := by simpa using hb
      rw [processColumnNearest_precompute_not_bad topo geo c2 _ numNodes badNodeData
        dataRoiVals distance v hv hb2]

/-- Witness for C26: the line mesh with vertex `1` bad and the column `5, 0, 7`;
a second pass leaves the value written at vertex `1` unchanged, in both modes. -/
theorem idempotent_with_bad_roi_witness :
    (processColumnStencils exactArith (fun _ => Flt.fin 3) 3
        (processColumnStencils exactArith (fun _ => Flt.zero) 3 lineInput
          (precomputeStencils exactArith lineTopo lineGeo 3 lineAreas lineBad none
            (Flt.fin 1) (Flt.fin 2)))
        (precomputeStencils exactArith lineTopo lineGeo 3 lineAreas lineBad none (Flt.fin 1)
          (Flt.fin 2)) 1
      = processColumnStencils exactArith (fun _ => Flt.zero) 3 lineInput
          (precomputeStencils exactArith lineTopo lineGeo 3 lineAreas lineBad none
            (Flt.fin 1) (Flt.fin 2)) 1) ∧
    (processColumnNearest (fun _ => Flt.fin 3) 3
        (processColumnNearest (fun _ => Flt.zero) 3 lineInput
          (precomputeNearest lineTopo lineGeo 3 lineBad none (Flt.fin 1)))
        (precomputeNearest lineTopo lineGeo 3 lineBad none (Flt.fin 1)) 1
      = processColumnNearest (fun _ => Flt.zero) 3 lineInput
          (precomputeNearest lineTopo lineGeo 3 lineBad none (Flt.fin 1)) 1) :=
  have h := idempotent_with_bad_roi exactArith lineTopo lineGeo (fun _ => Flt.zero)
    (fun _ => Flt.fin 3) lineInput 3 lineAreas lineBad none (Flt.fin 1) (Flt.fin 2) 1
    (by decide)
  ⟨h.1, h.2 (by decide!)⟩

/-- C29. Column selection.  Let the inputs pass the validation of the
constructor.  With `columnNum = -1` the call succeeds, the output has the number
of columns of the input and the number of vertices of the surface, and output
column `k` is, at every vertex, the dilation of input column `k` alone.  With
`columnNum = k` for a column `k` of the input the call succeeds, the output has
exactly one column, and that column equals, at every vertex, column `k` of the
output produced with `columnNum = -1` on the same inputs. -/
theorem column_selection (A : Arith) (myMetric : MetricFile) (mySurf : SurfaceFile)
    (distance : Flt) (myMetricOut : MetricFile) (badNodeRoi dataRoi : Option MetricFile)
    (nearest : Bool) (exponent : Flt)
    (hvalid : validate myMetric mySurf distance badNodeRoi dataRoi (-1) = none) :
    (AlgorithmMetricDilate A myMetric mySurf distance myMetricOut badNodeRoi dataRoi (-1)
      nearest exponent).error = none ∧
    (AlgorithmMetricDilate A myMetric mySurf distance myMetricOut badNodeRoi dataRoi (-1)
      nearest exponent).myMetricOut.numberOfColumns = myMetric.numberOfColumns ∧
    (AlgorithmMetricDilate A myMetric mySurf distance myMetricOut badNodeRoi dataRoi (-1)
      nearest exponent).myMetricOut.numberOfNodes = mySurf.numberOfNodes ∧
    (∀ k i, k < myMetric.numberOfColumns → i < mySurf.numberOfNodes →
      (AlgorithmMetricDilate A myMetric mySurf distance myMetricOut badNodeRoi dataRoi (-1)
        nearest exponent).myMetricOut.values k i
        = dilateColumn A mySurf distance badNodeRoi dataRoi nearest exponent
            (myMetric.values k) i) ∧
    (∀ k : Nat, k < myMetric.numberOfColumns →
      (AlgorithmMetricDilate A myMetric mySurf distance myMetricOut badNodeRoi dataRoi
        (k : Int) nearest exponent).error = none ∧
      (AlgorithmMetricDilate A myMetric mySurf distance myMetricOut badNodeRoi dataRoi
        (k : Int) nearest exponent).myMetricOut.numberOfColumns = 1 ∧
      (AlgorithmMetricDilate A myMetric mySurf distance myMetricOut badNodeRoi dataRoi
        (k : Int) nearest exponent).myMetricOut.numberOfNodes = mySurf.numberOfNodes ∧
      (∀ i, i < mySurf.numberOfNodes →
        (AlgorithmMetricDilate A myMetric mySurf distance myMetricOut badNodeRoi dataRoi
          (k : Int) nearest exponent).myMetricOut.values 0 i
          = (AlgorithmMetricDilate A myMetric mySurf distance myMetricOut badNodeRoi dataRoi
            (-1) nearest exponent).myMetricOut.values k i)) := by
  obtain ⟨he, hout⟩ := AlgorithmMetricDilate_ok A myMetric mySurf distance myMetricOut
    badNodeRoi dataRoi (-1) nearest exponent hvalid
  obtain ⟨hc, hn, hv⟩ := dilateBody_all_columns A myMetric mySurf distance badNodeRoi dataRoi
    nearest exponent myMetricOut
  rw [hout]
  refine ⟨he, hc, hn, hv, ?_⟩
  intro k hk
  obtain ⟨he1, hout1⟩ := AlgorithmMetricDilate_ok A myMetric mySurf distance myMetricOut
    badNodeRoi dataRoi (k : Int) nearest exponent
    (validate_column myMetric mySurf distance badNodeRoi dataRoi k hk hvalid)
  obtain ⟨hc1, hn1, hv1⟩ := dilateBody_one_column A myMetric mySurf distance badNodeRoi
    dataRoi nearest exponent myMetricOut k
  rw [hout1]
  refine ⟨he1, hc1, hn1, ?_⟩
  intro i hi
  rw [hv1 i hi, hv k i hk hi]

/-- Witness for C29: the two-column file on the line mesh with vertex `1` bad,
weighted mode with exponent `2`; selecting column `1` gives one column, equal at
vertex `1` to column `1` of the output for all columns. -/
theorem column_selection_witness :
    (AlgorithmMetricDilate exactArith lineMetricTwo lineSurf (Flt.fin 1) lineOut
      (some lineBadFile) none (-1) false (Flt.fin 2)).myMetricOut.numberOfColumns = 2 ∧
    (AlgorithmMetricDilate exactArith lineMetricTwo lineSurf (Flt.fin 1) lineOut
      (some lineBadFile) none ((1 : Nat) : Int) false (Flt.fin 2)).myMetricOut.numberOfColumns
      = 1 ∧
    (AlgorithmMetricDilate exactArith lineMetricTwo lineSurf (Flt.fin 1) lineOut
      (some lineBadFile) none ((1 : Nat) : Int) false (Flt.fin 2)).myMetricOut.values 0 1
      = (AlgorithmMetricDilate exactArith lineMetricTwo lineSurf (Flt.fin 1) lineOut
        (some lineBadFile) none (-1) false (Flt.fin 2)).myMetricOut.values 1 1 :=
  have h := column_selection exactArith lineMetricTwo lineSurf (Flt.fin 1) lineOut
    (some lineBadFile) none false (Flt.fin 2) (by decide)
  ⟨h.2.1, (h.2.2.2.2 1 (by decide)).2.1, (h.2.2.2.2 1 (by decide)).2.2.2 1 (by decide)⟩

end MetricDilate
